import Mathlib

/-!
# Context menus and menu-bar wiring of the Qt/QML interface (qml_menu_wrapper.cpp)

A shallow embedding of `modules/gui/qt/menus/qml_menu_wrapper.cpp`.

* Qt value types (`QVariant`, `QVariantMap`, `QModelIndex`, `QPoint`) are plain data.
* A lambda connected to `QAction::triggered` is a `Closure`: one constructor per lambda
  shape of the source, holding the captured variables.  `Closure.run` is the lambda body;
  it returns the calls made on the external collaborators and the signals emitted.
* A `QMenu` is the ordered list of its entries; menus live in a `Heap` (`new`/`delete`),
  and a builder holds its `m_menu` pointer as an `Option` of a heap address.
* Every `popup` is a function from the builder, its arguments and the heap to the new
  builder and heap.
* The sort menus own their menu directly (`SortMenu.m_menu`); their actions carry the
  check state, the sort icon and the action group.
* What happens after a popup is a step function on a state: row-count changes for the
  bookmark menu (`BookmarkMenuState`), popup requests, mouse moves and hides for the
  menu bar (`MenuBarState`).
-/

namespace QmlMenuWrapper

/-! ## Qt value types -/

/-- Screen position (QPoint). -/
structure QPoint where
  x : Int
  y : Int
deriving DecidableEq, Repr

/-- The QVariant values this file handles.  `itemId` stands for the media-library
item identifiers returned by the `*_ID` roles of the models. -/
inductive QVariant where
  | invalid
  | bool (b : Bool)
  | int (n : Int)
  | string (s : String)
  | stringList (l : List String)
  | itemId (id : Int)
deriving DecidableEq, Repr

namespace QVariant

/-- Qt `QVariant::isValid()`. -/
def isValid : QVariant → Bool
  | invalid => false
  | _ => true

/-- The test `v.type() == QVariant::Int`. -/
def isInt : QVariant → Bool
  | int _ => true
  | _ => false

/-- The decimal digits of a number read from left to right, onto the value so far. -/
def digitsValue (acc : Int) : List Char → Int
  | [] => acc
  | c :: rest => digitsValue (acc * 10 + ((c.toNat - 48 : Nat) : Int)) rest

/-- Qt `QString::toLongLong()` in base 10: surrounding white space is skipped, a sign
may lead, the rest must be decimal digits and the value must fit 64 bits; `none` when
the string is not such a number. -/
def parseLongLong (s : String) : Option Int :=
  let trimmed := ((s.data.dropWhile Char.isWhitespace).reverse.dropWhile
    Char.isWhitespace).reverse
  let negative := trimmed.head? == some '-'
  let digits := if trimmed.head? == some '-' || trimmed.head? == some '+'
    then trimmed.drop 1 else trimmed
  if digits.isEmpty || !digits.all Char.isDigit then none
  else
    let magnitude := digitsValue 0 digits
    let value := if negative then -magnitude else magnitude
    if -(2 ^ 63) ≤ value ∧ value < 2 ^ 63 then some value else none

/-- The C++ conversion `int(x)` of a 64-bit value: the value modulo 2^32, in the range
of a 32-bit int. -/
def toCInt (x : Int) : Int := (x + 2 ^ 31) % 2 ^ 32 - 2 ^ 31

/-- Qt `QVariant::toInt()`: the value of an int variant, 0 or 1 for a bool, for a string
the number `toLongLong` reads from it (0 when it reads none) converted to int, and 0
for the variants that do not convert to a number. -/
def toInt : QVariant → Int
  | int n => n
  | bool b => if b then 1 else 0
  | string s => toCInt ((parseLongLong s).getD 0)
  | _ => 0

/-- Qt `QVariant::toBool()`. -/
def toBool : QVariant → Bool
  | bool b => b
  | int n => n != 0
  | string s => !(s == "" || s == "0" || s.toLower == "false")
  | _ => false

/-- Qt `QVariant::toString()`. -/
def toQString : QVariant → String
  | string s => s
  | int n => toString n
  | bool b => if b then "true" else "false"
  | stringList [s] => s
  | _ => ""

/-- Qt `QVariant::toStringList()`. -/
def toStringList : QVariant → List String
  | stringList l => l
  | string s => [s]
  | _ => []

/-- The comparison `v == true` of a variant with a C++ bool. -/
def eqTrue : QVariant → Bool
  | bool b => b
  | int n => n == 1
  | _ => false

end QVariant

/-- String-keyed options mapping (QVariantMap); the first binding of a key is the
binding of the map. -/
structure QVariantMap where
  bindings : List (String × QVariant)
deriving DecidableEq, Repr

namespace QVariantMap

/-- Qt `QMap::contains(key)`. -/
def contains (m : QVariantMap) (key : String) : Bool :=
  (m.bindings.lookup key).isSome

/-- Qt `map[key]` read: the bound value, or a default-constructed (invalid) variant. -/
def get (m : QVariantMap) (key : String) : QVariant :=
  (m.bindings.lookup key).getD QVariant.invalid

end QVariantMap

/-- Row reference into a list model (QModelIndex); only `row()` is read by this file. -/
structure QModelIndex where
  row : Int
deriving DecidableEq, Repr

/-- The model roles named by this file. -/
inductive Role where
  | ALBUM_ID | ARTIST_ID | GENRE_ID | TRACK_ID | URL_ID
  | VIDEO_ID | GROUP_IS_VIDEO | FOLDER_ID | PLAYLIST_ID | MEDIA_ID
  | NETWORK_CANINDEX | NETWORK_INDEXED
deriving DecidableEq, Repr

/-! ## External collaborators -/

/-- Handle of the media library (MediaLib pointer). -/
abbrev MediaLib := Nat

/-- A media-library list model (MLAlbumModel, MLVideoModel, ...): the file only calls
`ml()` and `data(index, role)` on it, so the model is those two observations. -/
structure MLModel where
  ml : MediaLib
  data : QModelIndex → Role → QVariant

/-- Play-queue item (PlaylistItem): `isValid` is its `operator bool`, `url` its `getUrl()`. -/
structure PlaylistItem where
  isValid : Bool
  url : String
deriving DecidableEq, Repr

/-- The default-constructed play-queue item, which converts to false. -/
def PlaylistItem.null : PlaylistItem := { isValid := false, url := "" }

/-- The play-queue list model (PlaylistListModel) as observed by this file. -/
structure PlaylistListModel where
  itemAt : Int → PlaylistItem
  getSelection : List Int
  getSelectedCount : Int

/-- One row of the network media model. -/
structure NetworkItem where
  canBeIndexed : Bool
  indexed : Bool
deriving DecidableEq, Repr

/-- Modelled from the spec: NetworkMediaModel, whose `index`, `data` and `setData` are
declared in network/networkmediamodel.hpp and are not part of this file.  The spec
describes a list model exposing row lookup and the set-indexed mutation: each row
records whether it can be indexed and whether it is indexed. -/
structure NetworkMediaModel where
  items : List NetworkItem
deriving DecidableEq, Repr

namespace NetworkMediaModel

/-- Modelled from the spec: `index(row)` of a list model; a row outside the model
gives the invalid index, whose row is -1. -/
def index (m : NetworkMediaModel) (row : Int) : QModelIndex :=
  if 0 ≤ row ∧ row < m.items.length then { row := row } else { row := -1 }

/-- Modelled from the spec: `data(index, role)`; an invalid variant outside the model. -/
def data (m : NetworkMediaModel) (idx : QModelIndex) (role : Role) : QVariant :=
  if idx.row < 0 then QVariant.invalid else
  match m.items.get? idx.row.toNat with
  | none => QVariant.invalid
  | some item =>
    match role with
    | Role.NETWORK_CANINDEX => QVariant.bool item.canBeIndexed
    | Role.NETWORK_INDEXED => QVariant.bool item.indexed
    | _ => QVariant.invalid

/-- Modelled from the spec: `setData(index, value, NETWORK_INDEXED)` records the
indexed state of the row; other roles and rows outside the model change nothing. -/
def setData (m : NetworkMediaModel) (idx : QModelIndex) (value : Bool) (role : Role) :
    NetworkMediaModel :=
  if role ≠ Role.NETWORK_INDEXED then m else
  if idx.row < 0 then m else
  match m.items.get? idx.row.toNat with
  | none => m
  | some item => { items := m.items.set idx.row.toNat { item with indexed := value } }

end NetworkMediaModel

/-! ## Closures, calls and menus -/

/-- The lambdas connected to `triggered`, one constructor per lambda shape of the
source, with the captured variables as arguments. -/
inductive Closure where
  /-- Lambda `[ml, ids]{ ml->addAndPlay(ids); }` -/
  | addAndPlay (ml : MediaLib) (ids : List QVariant)
  /-- Lambda `[ml, ids, options]{ ml->addAndPlay(ids, options["player-options"].toStringList()); }` -/
  | addAndPlayWithOptions (ml : MediaLib) (ids : List QVariant) (options : QVariantMap)
  /-- Lambda `[ml, ids]{ ml->addToPlaylist(ids); }` -/
  | addToPlaylist (ml : MediaLib) (ids : List QVariant)
  /-- Lambda `[ids]{ DialogsProvider::getInstance()->playlistsDialog(ids); }` -/
  | playlistsDialog (ids : List QVariant)
  /-- Lambda `[ml, ids, options]{ list = options["player-options"].toStringList();
  list.prepend(":no-video"); ml->addAndPlay(ids, list); }` -/
  | playAsAudioWithOptions (ml : MediaLib) (ids : List QVariant) (options : QVariantMap)
  /-- Lambda `[ml, ids]{ ml->addAndPlay(ids, {":no-video"}); }` -/
  | playAsAudioFixed (ml : MediaLib) (ids : List QVariant)
  /-- QSignalMapper with `setMapping(action, n)`, mapped to `showMediaInformation`. -/
  | signalMapper (n : Int)
  /-- Lambda `[this, ids]{ m_model->deletePlaylists(ids); }` -/
  | deletePlaylists (ids : List QVariant)
  /-- Lambda `[this, selected]{ m_model->remove(selected); }` -/
  | removeRows (selected : List QModelIndex)
  /-- Lambda `[this, selected]{ m_model->addAndPlay(selected); }` -/
  | modelAddAndPlay (selected : List QModelIndex)
  /-- Lambda `[this, selected]{ m_model->addToPlaylist(selected); }` -/
  | modelAddToPlaylist (selected : List QModelIndex)
  /-- Lambda `[this, selected, removeFromML]{ for idx in selected: m_model->setData(
  m_model->index(idx.row()), !removeFromML, NETWORK_INDEXED); }` -/
  | setIndexed (selected : List QModelIndex) (removeFromML : Bool)
  /-- Lambda `[this, currentIndex]{ m_controler->goTo(currentIndex, true); }` -/
  | goTo (currentIndex : Int)
  /-- Lambda `[selectedUrlList]{ DialogsProvider::getInstance()->streamingDialog(list, b); }` -/
  | streamingDialog (selectedUrlList : List String) (b : Bool)
  /-- Lambda `[currentItem]{ DialogsProvider::getInstance()->mediaInfoDialog(currentItem); }` -/
  | mediaInfoDialog (currentItem : PlaylistItem)
  /-- Lambda `[this, currentItem]{ m_controler->explore(currentItem); }` -/
  | explore (currentItem : PlaylistItem)
  /-- Lambda `[]{ DialogsProvider::getInstance()->simpleOpenDialog(false); }` -/
  | simpleOpenDialog
  /-- Lambda `[]{ DialogsProvider::getInstance()->PLAppendDir(); }` -/
  | PLAppendDir
  /-- Lambda `[]{ DialogsProvider::getInstance()->PLAppendDialog(); }` -/
  | PLAppendDialog
  /-- Lambda `[]{ DialogsProvider::getInstance()->savePlayingToPlaylist(); }` -/
  | savePlayingToPlaylist
  /-- Lambda `[this]{ m_model->removeItems(m_model->getSelection()); }` -/
  | removeSelection
  /-- Lambda `[this]{ m_controler->clear(); }` -/
  | clear
  /-- Lambda `[this, i, str]{ emit selected(i, str); }` -/
  | emitSelected (i : Int) (str : String)
  /-- The slot `DialogsProvider::bookmarksDialog` of THEDP. -/
  | bookmarksDialog
deriving DecidableEq, Repr

/-- A call on an external collaborator, or a signal emitted by the builder. -/
inductive Call where
  | mlAddAndPlay (ml : MediaLib) (ids : List QVariant) (options : Option (List String))
  | mlAddToPlaylist (ml : MediaLib) (ids : List QVariant)
  | playlistsDialog (ids : List QVariant)
  | showMediaInformation (index : Int)
  | deletePlaylists (ids : List QVariant)
  | remove (selected : List QModelIndex)
  | modelAddAndPlay (selected : List QModelIndex)
  | modelAddToPlaylist (selected : List QModelIndex)
  | setData (row : Int) (value : Bool) (role : Role)
  | goTo (index : Int) (startPlaying : Bool)
  | streamingDialog (urls : List String) (b : Bool)
  | mediaInfoDialog (item : PlaylistItem)
  | explore (item : PlaylistItem)
  | simpleOpenDialog (b : Bool)
  | PLAppendDir
  | PLAppendDialog
  | savePlayingToPlaylist
  | removeItems (rows : List Int)
  | clear
  | selected (index : Int) (text : String)
  | bookmarksDialog
deriving DecidableEq, Repr

/-- The body of each lambda.  `selectionNow` is what `m_model->getSelection()` returns
when the action is triggered (only the play-queue remove action reads it).  A call
`addAndPlay(ids)` without an option list is recorded with `none`. -/
def Closure.run (selectionNow : List Int) : Closure → List Call
  | addAndPlay ml ids => [Call.mlAddAndPlay ml ids none]
  | addAndPlayWithOptions ml ids options =>
      [Call.mlAddAndPlay ml ids (some (options.get "player-options").toStringList)]
  | addToPlaylist ml ids => [Call.mlAddToPlaylist ml ids]
  | playlistsDialog ids => [Call.playlistsDialog ids]
  | playAsAudioWithOptions ml ids options =>
      let list := (options.get "player-options").toStringList
      let list := ":no-video" :: list
      [Call.mlAddAndPlay ml ids (some list)]
  | playAsAudioFixed ml ids => [Call.mlAddAndPlay ml ids (some [":no-video"])]
  | signalMapper n => [Call.showMediaInformation n]
  | deletePlaylists ids => [Call.deletePlaylists ids]
  | removeRows selected => [Call.remove selected]
  | modelAddAndPlay selected => [Call.modelAddAndPlay selected]
  | modelAddToPlaylist selected => [Call.modelAddToPlaylist selected]
  | setIndexed selected removeFromML =>
      selected.map (fun idx => Call.setData idx.row (!removeFromML) Role.NETWORK_INDEXED)
  | goTo currentIndex => [Call.goTo currentIndex true]
  | streamingDialog urls b => [Call.streamingDialog urls b]
  | mediaInfoDialog item => [Call.mediaInfoDialog item]
  | explore item => [Call.explore item]
  | simpleOpenDialog => [Call.simpleOpenDialog false]
  | PLAppendDir => [Call.PLAppendDir]
  | PLAppendDialog => [Call.PLAppendDialog]
  | savePlayingToPlaylist => [Call.savePlayingToPlaylist]
  | removeSelection => [Call.removeItems selectionNow]
  | clear => [Call.clear]
  | emitSelected i str => [Call.selected i str]
  | bookmarksDialog => [Call.bookmarksDialog]

/-! ## Menus and the heap of live menus -/

/-- A menu action: label, optional icon resource, optional shortcut, and the lambda
connected to `triggered`. -/
structure QAction where
  text : String
  icon : Option String := none
  shortcut : Option String := none
  triggered : Closure
deriving DecidableEq, Repr

/-- The external menu factories of menus.hpp that fill a menu handed to them. -/
inductive MenuFactory where
  | FileMenu | NavigMenu | AudioMenu | VideoMenu | SubtitleMenu | ToolsMenu | ViewMenu
  | HelpMenu | RendererMenu
deriving DecidableEq, Repr

/-- The list sources handed to a ListMenuHelper in the bookmark menu. -/
inductive ListSource where
  | titles | chapters | bookmarks
deriving DecidableEq, Repr

/-- One entry of a menu, in display order. -/
inductive Entry where
  | action (a : QAction)
  | separator
  | sectionHeader (title : String) (visible : Bool)
  | submenu (title : String) (filledBy : MenuFactory)
  | listHelper (source : ListSource)
deriving DecidableEq, Repr

/-- Slots of the builder connected to the show and hide signals of its menu. -/
inductive Slot where
  | aboutToShow | aboutToHide | onMenuClosed
deriving DecidableEq, Repr

/-- A QMenu: its entries in order, the WA_DeleteOnClose attribute, what filled it when
an external factory did, the slots connected to its show and hide signals, and the
position it was popped up at (none while it was never shown). -/
structure QMenu where
  entries : List Entry := []
  deleteOnClose : Bool := false
  filledBy : Option MenuFactory := none
  onAboutToShow : List Slot := []
  onAboutToHide : List Slot := []
  poppedAt : Option QPoint := none
deriving DecidableEq, Repr

/-- The actions of a menu in order, separators and other entries left out. -/
def actionsOf : List Entry → List QAction
  | [] => []
  | Entry.action a :: rest => a :: actionsOf rest
  | _ :: rest => actionsOf rest

/-- The actions of a menu. -/
def QMenu.actions (m : QMenu) : List QAction := actionsOf m.entries

/-- The labels of the actions of a menu, in order. -/
def QMenu.labels (m : QMenu) : List String := m.actions.map QAction.text

/-- The user triggers the i-th action (counted from 0): the connected lambda runs. -/
def QMenu.trigger (m : QMenu) (i : Nat) (selectionNow : List Int) : List Call :=
  match m.actions.get? i with
  | some a => a.triggered.run selectionNow
  | none => []

/-- The menu is dismissed without a choice: the slots connected to aboutToHide run. -/
def QMenu.dismiss (m : QMenu) : List Slot := m.onAboutToHide

/-- Address of a menu allocated with `new`. -/
abbrev MenuPtr := Nat

/-- The menus currently alive, by address, and the next fresh address. -/
structure Heap where
  live : List (MenuPtr × QMenu) := []
  next : MenuPtr := 0
deriving DecidableEq, Repr

namespace Heap

/-- Allocation `new QMenu` followed by the population of the menu. -/
def new (h : Heap) (m : QMenu) : MenuPtr × Heap :=
  (h.next, { live := h.live ++ [(h.next, m)], next := h.next + 1 })

/-- Deallocation `delete p`. -/
def delete (h : Heap) (p : MenuPtr) : Heap :=
  { h with live := h.live.filter (fun e => e.1 != p) }

/-- The statement `if (m_menu) delete m_menu;`. -/
def deleteIfSet (h : Heap) (m_menu : Option MenuPtr) : Heap :=
  match m_menu with
  | some p => h.delete p
  | none => h

/-- The addresses of the live menus. -/
def ptrs (h : Heap) : List MenuPtr := h.live.map Prod.fst

/-- The live menu at an address. -/
def find (h : Heap) (p : MenuPtr) : Option QMenu :=
  (h.live.find? (fun e => e.1 == p)).map Prod.snd

end Heap

/-! ## Generic choice popup -/

/-- The loop of StringListMenu::popup from index `i` on: one action per string. -/
def stringListActions : Int → List QVariant → List Entry
  | _, [] => []
  | i, v :: rest =>
      let str := v.toQString
      Entry.action { text := str, triggered := Closure.emitSelected i str }
        :: stringListActions (i + 1) rest

/-- StringListMenu::popup: the menu is not kept by the builder, it deletes itself on
close. -/
def StringListMenu.popup (point : QPoint) (stringList : List QVariant) (h : Heap) : Heap :=
  (h.new { entries := stringListActions 0 stringList, deleteOnClose := true,
           poppedAt := some point }).2

/-! ## Media-library context menus -/

/-- The block guarded by `options.contains("information") &&
options["information"].type() == QVariant::Int`, repeated in several builders. -/
def hasInformation (options : QVariantMap) : Bool :=
  options.contains "information" && (options.get "information").isInt

/-- The Information action and its signal mapper. -/
def informationAction (options : QVariantMap) : Entry :=
  Entry.action { text := "Information",
                 triggered := Closure.signalMapper (options.get "information").toInt }

/-- Base class of the album, artist, genre, track and URL menus. -/
structure BaseMedialibMenu where
  m_menu : Option MenuPtr := none
deriving DecidableEq, Repr

/-- The entries added by BaseMedialibMenu::medialibAudioContextMenu. -/
def BaseMedialibMenu.audioEntries (ml : MediaLib) (mlId : List QVariant)
    (options : QVariantMap) : List Entry :=
  [ Entry.action { text := "Add and play", triggered := Closure.addAndPlay ml mlId },
    Entry.action { text := "Enqueue", triggered := Closure.addToPlaylist ml mlId },
    Entry.action { text := "Add to playlist", triggered := Closure.playlistsDialog mlId } ]
  ++ (if hasInformation options then [informationAction options] else [])

/-- BaseMedialibMenu::medialibAudioContextMenu. -/
def BaseMedialibMenu.medialibAudioContextMenu (self : BaseMedialibMenu) (ml : MediaLib)
    (mlId : List QVariant) (pos : QPoint) (options : QVariantMap) (h : Heap) :
    BaseMedialibMenu × Heap :=
  let h1 := h.deleteIfSet self.m_menu
  let (p, h2) := h1.new { entries := BaseMedialibMenu.audioEntries ml mlId options,
                          poppedAt := some pos }
  ({ m_menu := some p }, h2)

/-- Modelled from the spec: the template BaseMedialibMenu::popup of qml_menu_wrapper.hpp,
which is not part of this file.  Per the spec, popup resolves each selected row to an
item identifier through the backing model and then populates the menu, and it is a
no-op when the backing model reference is null. -/
def BaseMedialibMenu.popup (self : BaseMedialibMenu) (model : Option MLModel) (role : Role)
    (selected : List QModelIndex) (pos : QPoint) (options : QVariantMap) (h : Heap) :
    BaseMedialibMenu × Heap :=
  match model with
  | none => (self, h)
  | some m =>
    let itemIdList := selected.map (fun modelIndex => m.data modelIndex role)
    self.medialibAudioContextMenu m.ml itemIdList pos options h

/-- Builder AlbumContextMenu: the base menu and its model pointer. -/
structure AlbumContextMenu extends BaseMedialibMenu where
  m_model : Option MLModel := none

/-- AlbumContextMenu::popup. -/
def AlbumContextMenu.popup (self : AlbumContextMenu) (selected : List QModelIndex) (pos : QPoint)
    (options : QVariantMap) (h : Heap) : AlbumContextMenu × Heap :=
  let r := self.toBaseMedialibMenu.popup self.m_model Role.ALBUM_ID selected pos options h
  ({ self with toBaseMedialibMenu := r.1 }, r.2)

/-- Builder ArtistContextMenu: the base menu and its model pointer. -/
structure ArtistContextMenu extends BaseMedialibMenu where
  m_model : Option MLModel := none

/-- ArtistContextMenu::popup. -/
def ArtistContextMenu.popup (self : ArtistContextMenu) (selected : List QModelIndex) (pos : QPoint)
    (options : QVariantMap) (h : Heap) : ArtistContextMenu × Heap :=
  let r := self.toBaseMedialibMenu.popup self.m_model Role.ARTIST_ID selected pos options h
  ({ self with toBaseMedialibMenu := r.1 }, r.2)

/-- Builder GenreContextMenu: the base menu and its model pointer. -/
structure GenreContextMenu extends BaseMedialibMenu where
  m_model : Option MLModel := none

/-- GenreContextMenu::popup. -/
def GenreContextMenu.popup (self : GenreContextMenu) (selected : List QModelIndex) (pos : QPoint)
    (options : QVariantMap) (h : Heap) : GenreContextMenu × Heap :=
  let r := self.toBaseMedialibMenu.popup self.m_model Role.GENRE_ID selected pos options h
  ({ self with toBaseMedialibMenu := r.1 }, r.2)

/-- Builder AlbumTrackContextMenu: the base menu and its model pointer. -/
structure AlbumTrackContextMenu extends BaseMedialibMenu where
  m_model : Option MLModel := none

/-- AlbumTrackContextMenu::popup. -/
def AlbumTrackContextMenu.popup (self : AlbumTrackContextMenu) (selected : List QModelIndex) (pos : QPoint)
    (options : QVariantMap) (h : Heap) : AlbumTrackContextMenu × Heap :=
  let r := self.toBaseMedialibMenu.popup self.m_model Role.TRACK_ID selected pos options h
  ({ self with toBaseMedialibMenu := r.1 }, r.2)

/-- Builder URLContextMenu: the base menu and its model pointer. -/
structure URLContextMenu extends BaseMedialibMenu where
  m_model : Option MLModel := none

/-- URLContextMenu::popup. -/
def URLContextMenu.popup (self : URLContextMenu) (selected : List QModelIndex) (pos : QPoint)
    (options : QVariantMap) (h : Heap) : URLContextMenu × Heap :=
  let r := self.toBaseMedialibMenu.popup self.m_model Role.URL_ID selected pos options h
  ({ self with toBaseMedialibMenu := r.1 }, r.2)

/-- Builder VideoContextMenu. -/
structure VideoContextMenu where
  m_model : Option MLModel := none
  m_menu : Option MenuPtr := none

/-- The entries added by VideoContextMenu::popup. -/
def VideoContextMenu.entries (m : MLModel) (selected : List QModelIndex)
    (options : QVariantMap) : List Entry :=
  let ml := m.ml
  let itemIdList := selected.map (fun modelIndex => m.data modelIndex Role.VIDEO_ID)
  [ Entry.action { text := "Add and play",
                   triggered := Closure.addAndPlayWithOptions ml itemIdList options },
    Entry.action { text := "Enqueue", triggered := Closure.addToPlaylist ml itemIdList },
    Entry.action { text := "Add to playlist", triggered := Closure.playlistsDialog itemIdList },
    Entry.action { text := "Play as audio",
                   triggered := Closure.playAsAudioWithOptions ml itemIdList options } ]
  ++ (if hasInformation options then [informationAction options] else [])

/-- VideoContextMenu::popup. -/
def VideoContextMenu.popup (self : VideoContextMenu) (selected : List QModelIndex)
    (pos : QPoint) (options : QVariantMap) (h : Heap) : VideoContextMenu × Heap :=
  match self.m_model with
  | none => (self, h)
  | some m =>
    let h1 := h.deleteIfSet self.m_menu
    let (p, h2) := h1.new { entries := VideoContextMenu.entries m selected options,
                            poppedAt := some pos }
    ({ self with m_menu := some p }, h2)

/-- Builder VideoGroupsContextMenu. -/
structure VideoGroupsContextMenu where
  m_model : Option MLModel := none
  m_menu : Option MenuPtr := none

/-- The guard of the Information action of VideoGroupsContextMenu::popup:
`selected.count() == 1 && data(selected.first(), GROUP_IS_VIDEO) == true` and the
options test. -/
def VideoGroupsContextMenu.showsInformation (m : MLModel) (selected : List QModelIndex)
    (options : QVariantMap) : Bool :=
  match selected with
  | [first] => (m.data first Role.GROUP_IS_VIDEO).eqTrue && hasInformation options
  | _ => false

/-- The entries added by VideoGroupsContextMenu::popup. -/
def VideoGroupsContextMenu.entries (m : MLModel) (selected : List QModelIndex)
    (options : QVariantMap) : List Entry :=
  let ids := selected.map (fun index => m.data index Role.VIDEO_ID)
  let ml := m.ml
  [ Entry.action { text := "Add and play",
                   triggered := Closure.addAndPlayWithOptions ml ids options },
    Entry.action { text := "Enqueue", triggered := Closure.addToPlaylist ml ids },
    Entry.action { text := "Add to playlist", triggered := Closure.playlistsDialog ids },
    Entry.action { text := "Play as audio",
                   triggered := Closure.playAsAudioWithOptions ml ids options } ]
  ++ (if VideoGroupsContextMenu.showsInformation m selected options
      then [informationAction options] else [])

/-- VideoGroupsContextMenu::popup. -/
def VideoGroupsContextMenu.popup (self : VideoGroupsContextMenu)
    (selected : List QModelIndex) (pos : QPoint) (options : QVariantMap) (h : Heap) :
    VideoGroupsContextMenu × Heap :=
  match self.m_model with
  | none => (self, h)
  | some m =>
    let h1 := h.deleteIfSet self.m_menu
    let (p, h2) := h1.new { entries := VideoGroupsContextMenu.entries m selected options,
                            poppedAt := some pos }
    ({ self with m_menu := some p }, h2)

/-- Builder VideoFoldersContextMenu. -/
structure VideoFoldersContextMenu where
  m_model : Option MLModel := none
  m_menu : Option MenuPtr := none

/-- The entries added by VideoFoldersContextMenu::popup. -/
def VideoFoldersContextMenu.entries (m : MLModel) (selected : List QModelIndex)
    (options : QVariantMap) : List Entry :=
  let ids := selected.map (fun index => m.data index Role.FOLDER_ID)
  let ml := m.ml
  [ Entry.action { text := "Add and play",
                   triggered := Closure.addAndPlayWithOptions ml ids options },
    Entry.action { text := "Enqueue", triggered := Closure.addToPlaylist ml ids },
    Entry.action { text := "Add to playlist", triggered := Closure.playlistsDialog ids },
    Entry.action { text := "Play as audio",
                   triggered := Closure.playAsAudioWithOptions ml ids options } ]

/-- VideoFoldersContextMenu::popup. -/
def VideoFoldersContextMenu.popup (self : VideoFoldersContextMenu)
    (selected : List QModelIndex) (pos : QPoint) (options : QVariantMap) (h : Heap) :
    VideoFoldersContextMenu × Heap :=
  match self.m_model with
  | none => (self, h)
  | some m =>
    let h1 := h.deleteIfSet self.m_menu
    let (p, h2) := h1.new { entries := VideoFoldersContextMenu.entries m selected options,
                            poppedAt := some pos }
    ({ self with m_menu := some p }, h2)

/-- Builder PlaylistListContextMenu. -/
structure PlaylistListContextMenu where
  m_model : Option MLModel := none
  m_menu : Option MenuPtr := none

/-- The entries added by PlaylistListContextMenu::popup (the options are unused). -/
def PlaylistListContextMenu.entries (m : MLModel) (selected : List QModelIndex) :
    List Entry :=
  let ids := selected.map (fun modelIndex => m.data modelIndex Role.PLAYLIST_ID)
  let ml := m.ml
  [ Entry.action { text := "Add and play", triggered := Closure.addAndPlay ml ids },
    Entry.action { text := "Enqueue", triggered := Closure.addToPlaylist ml ids },
    Entry.action { text := "Delete", triggered := Closure.deletePlaylists ids } ]

/-- PlaylistListContextMenu::popup. -/
def PlaylistListContextMenu.popup (self : PlaylistListContextMenu)
    (selected : List QModelIndex) (pos : QPoint) (_options : QVariantMap) (h : Heap) :
    PlaylistListContextMenu × Heap :=
  match self.m_model with
  | none => (self, h)
  | some m =>
    let h1 := h.deleteIfSet self.m_menu
    let (p, h2) := h1.new { entries := PlaylistListContextMenu.entries m selected,
                            poppedAt := some pos }
    ({ self with m_menu := some p }, h2)

/-- Builder PlaylistMediaContextMenu. -/
structure PlaylistMediaContextMenu where
  m_model : Option MLModel := none
  m_menu : Option MenuPtr := none

/-- The entries added by PlaylistMediaContextMenu::popup. -/
def PlaylistMediaContextMenu.entries (m : MLModel) (selected : List QModelIndex)
    (options : QVariantMap) : List Entry :=
  let ids := selected.map (fun modelIndex => m.data modelIndex Role.MEDIA_ID)
  let ml := m.ml
  [ Entry.action { text := "Add and play", triggered := Closure.addAndPlay ml ids },
    Entry.action { text := "Enqueue", triggered := Closure.addToPlaylist ml ids },
    Entry.action { text := "Add to playlist", triggered := Closure.playlistsDialog ids },
    Entry.action { text := "Play as audio", triggered := Closure.playAsAudioFixed ml ids } ]
  ++ (if hasInformation options then [informationAction options] else [])
  ++ [ Entry.separator,
       Entry.action { text := "Remove Selected",
                      icon := some ":/buttons/playlist/playlist_remove.svg",
                      triggered := Closure.removeRows selected } ]

/-- PlaylistMediaContextMenu::popup. -/
def PlaylistMediaContextMenu.popup (self : PlaylistMediaContextMenu)
    (selected : List QModelIndex) (pos : QPoint) (options : QVariantMap) (h : Heap) :
    PlaylistMediaContextMenu × Heap :=
  match self.m_model with
  | none => (self, h)
  | some m =>
    let h1 := h.deleteIfSet self.m_menu
    let (p, h2) := h1.new { entries := PlaylistMediaContextMenu.entries m selected options,
                            poppedAt := some pos }
    ({ self with m_menu := some p }, h2)

/-! ## Network context menus -/

/-- Builder NetworkMediaContextMenu. -/
structure NetworkMediaContextMenu where
  m_model : Option NetworkMediaModel := none
  m_menu : Option MenuPtr := none
deriving DecidableEq, Repr

/-- One round of the loop of NetworkMediaContextMenu::popup over the selection; the
state is the pair (canBeIndexed, countIndexed).  The counter is an unsigned int in the
source; a selection list holds fewer than 2^31 rows, so the counter cannot wrap. -/
def NetworkMediaContextMenu.scanStep (m : NetworkMediaModel) (acc : Bool × Nat)
    (idx : QModelIndex) : Bool × Nat :=
  let canIndex := m.data (m.index idx.row) Role.NETWORK_CANINDEX
  if canIndex.isValid && canIndex.toBool then
    let isIndexed := m.data (m.index idx.row) Role.NETWORK_INDEXED
    if !isIndexed.isValid then (true, acc.2)
    else if isIndexed.toBool then (true, acc.2 + 1)
    else (true, acc.2)
  else acc

/-- The loop over the selection, from `canBeIndexed = false` and `countIndexed = 0`. -/
def NetworkMediaContextMenu.scan (m : NetworkMediaModel) (selected : List QModelIndex) :
    Bool × Nat :=
  selected.foldl (NetworkMediaContextMenu.scanStep m) (false, 0)

/-- The entries added by NetworkMediaContextMenu::popup. -/
def NetworkMediaContextMenu.entries (m : NetworkMediaModel) (selected : List QModelIndex) :
    List Entry :=
  let r := NetworkMediaContextMenu.scan m selected
  let canBeIndexed := r.1
  let countIndexed := r.2
  [ Entry.action { text := "Add and play", triggered := Closure.modelAddAndPlay selected },
    Entry.action { text := "Enqueue", triggered := Closure.modelAddToPlaylist selected } ]
  ++ (if canBeIndexed then
        let removeFromML := decide (countIndexed > 0)
        [ Entry.action { text := if removeFromML then "Remove from Media Library"
                                 else "Add to Media Library",
                         triggered := Closure.setIndexed selected removeFromML } ]
      else [])

/-- NetworkMediaContextMenu::popup. -/
def NetworkMediaContextMenu.popup (self : NetworkMediaContextMenu)
    (selected : List QModelIndex) (pos : QPoint) (h : Heap) :
    NetworkMediaContextMenu × Heap :=
  match self.m_model with
  | none => (self, h)
  | some m =>
    let h1 := h.deleteIfSet self.m_menu
    let (p, h2) := h1.new { entries := NetworkMediaContextMenu.entries m selected,
                            poppedAt := some pos }
    ({ self with m_menu := some p }, h2)

/-- The effect of one recorded call on the network media model: only `setData` calls
reach it. -/
def NetworkMediaModel.applyCall (m : NetworkMediaModel) : Call → NetworkMediaModel
  | Call.setData row value role => m.setData (m.index row) value role
  | _ => m

/-- The effect of a sequence of calls on the network media model, in order. -/
def NetworkMediaModel.applyCalls (m : NetworkMediaModel) (calls : List Call) :
    NetworkMediaModel :=
  calls.foldl NetworkMediaModel.applyCall m

/-- The network device model (NetworkDeviceModel); the file only forwards calls to it. -/
structure NetworkDeviceModel where
  handle : Nat
deriving DecidableEq, Repr

/-- Builder NetworkDeviceContextMenu. -/
structure NetworkDeviceContextMenu where
  m_model : Option NetworkDeviceModel := none
  m_menu : Option MenuPtr := none
deriving DecidableEq, Repr

/-- The entries added by NetworkDeviceContextMenu::popup. -/
def NetworkDeviceContextMenu.entries (selected : List QModelIndex) : List Entry :=
  [ Entry.action { text := "Add and play", triggered := Closure.modelAddAndPlay selected },
    Entry.action { text := "Enqueue", triggered := Closure.modelAddToPlaylist selected } ]

/-- NetworkDeviceContextMenu::popup.  The new menu is held in the local variable `menu`
and carries WA_DeleteOnClose; the member `m_menu` is read but never assigned. -/
def NetworkDeviceContextMenu.popup (self : NetworkDeviceContextMenu)
    (selected : List QModelIndex) (pos : QPoint) (h : Heap) :
    NetworkDeviceContextMenu × Heap :=
  match self.m_model with
  | none => (self, h)
  | some _ =>
    let h1 := h.deleteIfSet self.m_menu
    let (_, h2) := h1.new { entries := NetworkDeviceContextMenu.entries selected,
                            deleteOnClose := true, poppedAt := some pos }
    (self, h2)

/-! ## Play-queue context menu -/

/-- Handle of the play-queue controller (PlaylistControllerModel pointer target). -/
abbrev PlaylistControllerModel := Nat

/-- Builder PlaylistContextMenu (the member is spelled `m_controler` in the source). -/
structure PlaylistContextMenu where
  m_controler : Option PlaylistControllerModel := none
  m_model : Option PlaylistListModel := none
  m_menu : Option MenuPtr := none

/-- The local `currentItem` of PlaylistContextMenu::popup: default-constructed, and
assigned from the model only when `currentIndex >= 0`. -/
def PlaylistContextMenu.currentItem (m : PlaylistListModel) (currentIndex : Int) :
    PlaylistItem :=
  if currentIndex ≥ 0 then m.itemAt currentIndex else PlaylistItem.null

/-- The entries added by PlaylistContextMenu::popup. -/
def PlaylistContextMenu.entries (m : PlaylistListModel) (currentIndex : Int) : List Entry :=
  let selectedUrlList := m.getSelection.map (fun modelIndex => (m.itemAt modelIndex).url)
  let currentItem := PlaylistContextMenu.currentItem m currentIndex
  (if currentItem.isValid then
     [ Entry.action { text := "Play", triggered := Closure.goTo currentIndex },
       Entry.separator ]
   else [])
  ++ (if m.getSelectedCount > 0 then
        [ Entry.action { text := "Stream",
                         triggered := Closure.streamingDialog selectedUrlList false },
          Entry.action { text := "Save",
                         triggered := Closure.streamingDialog selectedUrlList true },
          Entry.separator ]
      else [])
  ++ (if currentItem.isValid then
        [ Entry.action { text := "Information", icon := some ":/menu/info.svg",
                         triggered := Closure.mediaInfoDialog currentItem },
          Entry.separator,
          Entry.action { text := "Show Containing Directory...",
                         icon := some ":/type/folder-grey.svg",
                         triggered := Closure.explore currentItem },
          Entry.separator ]
      else [])
  ++ [ Entry.action { text := "Add File...",
                      icon := some ":/buttons/playlist/playlist_add.svg",
                      triggered := Closure.simpleOpenDialog },
       Entry.action { text := "Add Directory...",
                      icon := some ":/buttons/playlist/playlist_add.svg",
                      triggered := Closure.PLAppendDir },
       Entry.action { text := "Advanced Open...",
                      icon := some ":/buttons/playlist/playlist_add.svg",
                      triggered := Closure.PLAppendDialog },
       Entry.separator ]
  ++ (if m.getSelectedCount > 0 then
        [ Entry.action { text := "Save Playlist to File...",
                         triggered := Closure.savePlayingToPlaylist },
          Entry.separator,
          Entry.action { text := "Remove Selected",
                         icon := some ":/buttons/playlist/playlist_remove.svg",
                         triggered := Closure.removeSelection } ]
      else [])
  ++ [ Entry.action { text := "Clear the playlist", icon := some ":/toolbar/clear.svg",
                      triggered := Closure.clear } ]

/-- PlaylistContextMenu::popup. -/
def PlaylistContextMenu.popup (self : PlaylistContextMenu) (currentIndex : Int)
    (pos : QPoint) (h : Heap) : PlaylistContextMenu × Heap :=
  match self.m_controler, self.m_model with
  | some _, some m =>
    let h1 := h.deleteIfSet self.m_menu
    let (p, h2) := h1.new { entries := PlaylistContextMenu.entries m currentIndex,
                            poppedAt := some pos }
    ({ self with m_menu := some p }, h2)
  | _, _ => (self, h)

/-! ## Builders that need the main context -/

/-- Handle of the interface object returned by `MainCtx::getIntf()`. -/
abbrev Intf := Nat

/-- The main context (MainCtx) as observed by the popups below: `getIntf()` may return
null, and `grouping()` is read as an int. -/
structure MainCtx where
  getIntf : Option Intf
  getMediaLibrary : MediaLib
  grouping : Int
deriving DecidableEq, Repr

/-- Builder QmlGlobalMenu. -/
structure QmlGlobalMenu where
  m_ctx : Option MainCtx := none
  m_menu : Option MenuPtr := none
deriving DecidableEq, Repr

/-- QmlGlobalMenu::popup: eight submenus, each filled by its external factory. -/
def QmlGlobalMenu.popup (self : QmlGlobalMenu) (pos : QPoint) (h : Heap) :
    QmlGlobalMenu × Heap :=
  match self.m_ctx with
  | none => (self, h)
  | some ctx =>
    match ctx.getIntf with
    | none => (self, h)
    | some _ =>
      let h1 := h.deleteIfSet self.m_menu
      let (p, h2) := h1.new
        { entries := [ Entry.submenu "&Media" MenuFactory.FileMenu,
                       Entry.submenu "P&layback" MenuFactory.NavigMenu,
                       Entry.submenu "&Audio" MenuFactory.AudioMenu,
                       Entry.submenu "&Video" MenuFactory.VideoMenu,
                       Entry.submenu "Subti&tle" MenuFactory.SubtitleMenu,
                       Entry.submenu "Tool&s" MenuFactory.ToolsMenu,
                       Entry.submenu "V&iew" MenuFactory.ViewMenu,
                       Entry.submenu "&Help" MenuFactory.HelpMenu ],
          onAboutToShow := [Slot.aboutToShow],
          onAboutToHide := [Slot.aboutToHide],
          poppedAt := some pos }
      ({ self with m_menu := some p }, h2)

/-- A QML item (a tool-bar button or the bar itself): its rectangle in global
coordinates. -/
structure QQuickItem where
  x : Int
  y : Int
  width : Int
  height : Int
deriving DecidableEq, Repr

/-- Qt `item->mapToGlobal(p)`. -/
def QQuickItem.mapToGlobal (item : QQuickItem) (p : QPoint) : QPoint :=
  { x := item.x + p.x, y := item.y + p.y }

/-- Builder QmlMenuBar. -/
structure QmlMenuBar where
  m_ctx : Option MainCtx := none
  m_menubar : Option QQuickItem := none
  m_button : Option QQuickItem := none
  m_openMenuOnHover : Bool := false
  m_menu : Option MenuPtr := none
deriving DecidableEq, Repr

/-- QmlMenuBar::popupMenuCommon; `createMenuFunc` is the factory the calling
popupXxxMenu hands over. -/
def QmlMenuBar.popupMenuCommon (self : QmlMenuBar) (button : Option QQuickItem)
    (createMenuFunc : MenuFactory) (h : Heap) : QmlMenuBar × Heap :=
  match self.m_ctx, self.m_menubar, button with
  | some ctx, some _, some b =>
    match ctx.getIntf with
    | none => (self, h)
    | some _ =>
      let h1 := h.deleteIfSet self.m_menu
      let position := b.mapToGlobal { x := 0, y := b.height }
      let (p, h2) := h1.new { filledBy := some createMenuFunc,
                              onAboutToHide := [Slot.onMenuClosed],
                              poppedAt := some position }
      ({ self with m_menu := some p, m_button := some b, m_openMenuOnHover := false }, h2)
  | _, _, _ => (self, h)

/-- The player controller as observed by QmlBookmarkMenu::popup: the row counts of its
title and chapter lists. -/
structure PlayerController where
  titlesRowCount : Int
  chaptersRowCount : Int
deriving DecidableEq, Repr

/-- Builder QmlBookmarkMenu. -/
structure QmlBookmarkMenu where
  m_ctx : Option MainCtx := none
  m_player : Option PlayerController := none
  m_menu : Option MenuPtr := none
deriving DecidableEq, Repr

/-- QmlBookmarkMenu::popup at construction time: the three sections, each list helper
placed before the section that follows it, the manage action and a separator before
the bookmark list.  Only the title and chapter sections get a visibility. -/
def QmlBookmarkMenu.popup (self : QmlBookmarkMenu) (pos : QPoint) (h : Heap) :
    QmlBookmarkMenu × Heap :=
  match self.m_ctx, self.m_player with
  | some _, some player =>
    let h1 := h.deleteIfSet self.m_menu
    let (p, h2) := h1.new
      { entries := [ Entry.sectionHeader "Titles" (player.titlesRowCount != 0),
                     Entry.listHelper ListSource.titles,
                     Entry.sectionHeader "Chapters" (player.chaptersRowCount != 0),
                     Entry.listHelper ListSource.chapters,
                     Entry.sectionHeader "Bookmarks" true,
                     Entry.action { text := "&Manage", shortcut := some "Ctrl+B",
                                    triggered := Closure.bookmarksDialog },
                     Entry.separator,
                     Entry.listHelper ListSource.bookmarks ],
        onAboutToHide := [Slot.aboutToHide],
        onAboutToShow := [Slot.aboutToShow],
        poppedAt := some pos }
    ({ self with m_menu := some p }, h2)
  | _, _ => (self, h)

/-- Builder QmlRendererMenu. -/
structure QmlRendererMenu where
  m_ctx : Option MainCtx := none
  m_menu : Option MenuPtr := none
deriving DecidableEq, Repr

/-- QmlRendererMenu::popup. -/
def QmlRendererMenu.popup (self : QmlRendererMenu) (pos : QPoint) (h : Heap) :
    QmlRendererMenu × Heap :=
  match self.m_ctx with
  | none => (self, h)
  | some _ =>
    let h1 := h.deleteIfSet self.m_menu
    let (p, h2) := h1.new { filledBy := some MenuFactory.RendererMenu,
                            onAboutToHide := [Slot.aboutToHide],
                            onAboutToShow := [Slot.aboutToShow],
                            poppedAt := some pos }
    ({ self with m_menu := some p }, h2)

/-! ## The per-entity builders as one family -/

/-- The thirteen per-entity context-menu builders. -/
inductive Builder where
  | album (b : AlbumContextMenu)
  | artist (b : ArtistContextMenu)
  | genre (b : GenreContextMenu)
  | track (b : AlbumTrackContextMenu)
  | url (b : URLContextMenu)
  | video (b : VideoContextMenu)
  | videoGroups (b : VideoGroupsContextMenu)
  | videoFolders (b : VideoFoldersContextMenu)
  | playlistList (b : PlaylistListContextMenu)
  | playlistMedia (b : PlaylistMediaContextMenu)
  | networkMedia (b : NetworkMediaContextMenu)
  | networkDevice (b : NetworkDeviceContextMenu)
  | playQueue (b : PlaylistContextMenu)

/-- The arguments of a popup request; each builder reads the ones its popup takes. -/
structure PopupArgs where
  selected : List QModelIndex := []
  pos : QPoint := { x := 0, y := 0 }
  options : QVariantMap := { bindings := [] }
  currentIndex : Int := -1

namespace Builder

/-- Dispatch of a popup request to the popup of the builder. -/
def popup (b : Builder) (a : PopupArgs) (h : Heap) : Builder × Heap :=
  match b with
  | album x => let r := x.popup a.selected a.pos a.options h; (album r.1, r.2)
  | artist x => let r := x.popup a.selected a.pos a.options h; (artist r.1, r.2)
  | genre x => let r := x.popup a.selected a.pos a.options h; (genre r.1, r.2)
  | track x => let r := x.popup a.selected a.pos a.options h; (track r.1, r.2)
  | url x => let r := x.popup a.selected a.pos a.options h; (url r.1, r.2)
  | video x => let r := x.popup a.selected a.pos a.options h; (video r.1, r.2)
  | videoGroups x => let r := x.popup a.selected a.pos a.options h; (videoGroups r.1, r.2)
  | videoFolders x => let r := x.popup a.selected a.pos a.options h; (videoFolders r.1, r.2)
  | playlistList x => let r := x.popup a.selected a.pos a.options h; (playlistList r.1, r.2)
  | playlistMedia x => let r := x.popup a.selected a.pos a.options h; (playlistMedia r.1, r.2)
  | networkMedia x => let r := x.popup a.selected a.pos h; (networkMedia r.1, r.2)
  | networkDevice x => let r := x.popup a.selected a.pos h; (networkDevice r.1, r.2)
  | playQueue x => let r := x.popup a.currentIndex a.pos h; (playQueue r.1, r.2)

/-- The member `m_menu` of the builder. -/
def m_menu : Builder → Option MenuPtr
  | album x => x.m_menu
  | artist x => x.m_menu
  | genre x => x.m_menu
  | track x => x.m_menu
  | url x => x.m_menu
  | video x => x.m_menu
  | videoGroups x => x.m_menu
  | videoFolders x => x.m_menu
  | playlistList x => x.m_menu
  | playlistMedia x => x.m_menu
  | networkMedia x => x.m_menu
  | networkDevice x => x.m_menu
  | playQueue x => x.m_menu

/-- Whether every reference the popup of the builder requires is set: the model, and
for the play queue the controller as well. -/
def refsSet : Builder → Bool
  | album x => x.m_model.isSome
  | artist x => x.m_model.isSome
  | genre x => x.m_model.isSome
  | track x => x.m_model.isSome
  | url x => x.m_model.isSome
  | video x => x.m_model.isSome
  | videoGroups x => x.m_model.isSome
  | videoFolders x => x.m_model.isSome
  | playlistList x => x.m_model.isSome
  | playlistMedia x => x.m_model.isSome
  | networkMedia x => x.m_model.isSome
  | networkDevice x => x.m_model.isSome
  | playQueue x => x.m_controler.isSome && x.m_model.isSome

/-- A sequence of popup requests on the same builder, with nothing in between. -/
def popups (b : Builder) (h : Heap) : List PopupArgs → Builder × Heap
  | [] => (b, h)
  | a :: rest => let r := b.popup a h; popups r.1 r.2 rest

end Builder

/-! ## Network media menu: the library-index toggle -/

/-- A selected row can be indexed: the NETWORK_CANINDEX datum of its row is valid and
true. -/
def canIndexRow (m : NetworkMediaModel) (idx : QModelIndex) : Bool :=
  (m.data (m.index idx.row) Role.NETWORK_CANINDEX).isValid
    && (m.data (m.index idx.row) Role.NETWORK_CANINDEX).toBool

/-- A selected row is currently indexed: the NETWORK_INDEXED datum of its row is valid
and true. -/
def isIndexedRow (m : NetworkMediaModel) (idx : QModelIndex) : Bool :=
  (m.data (m.index idx.row) Role.NETWORK_INDEXED).isValid
    && (m.data (m.index idx.row) Role.NETWORK_INDEXED).toBool

/-- The library-index toggle action is the one connected to the set-indexed lambda. -/
def isIndexToggle (a : QAction) : Bool :=
  match a.triggered with
  | Closure.setIndexed _ _ => true
  | _ => false

/-- The row of the model an integer row number denotes, when there is one. -/
def NetworkMediaModel.row? (m : NetworkMediaModel) (row : Int) : Option NetworkItem :=
  if 0 ≤ row then m.items[row.toNat]? else none

/-- The menu allocated last on the heap. -/
def Heap.newest (h : Heap) : Option QMenu := h.live.getLast?.map Prod.snd

/-- A network model with an indexed row, an indexable row that is not indexed, and a row
that cannot be indexed. -/
def mixedModel : NetworkMediaModel :=
  { items := [ { canBeIndexed := true, indexed := true },
               { canBeIndexed := true, indexed := false },
               { canBeIndexed := false, indexed := false } ] }

/-- The selection of the three rows of `mixedModel`, in order. -/
def mixedSelection : List QModelIndex := [ { row := 0 }, { row := 1 }, { row := 2 } ]

/-- Whether the builder is the network device one. -/
def Builder.isNetworkDevice : Builder → Bool
  | Builder.networkDevice _ => true
  | _ => false

/-- The live menus of heap `h` are those of `base` (menus of other owners, all below
address `n0`) followed by the menus the builder `b` created and still owns, and the
latter are exactly the one `m_menu` points to, if any. -/
def Builder.OwnsLive (base : List (MenuPtr × QMenu)) (n0 : MenuPtr) (b : Builder)
    (h : Heap) : Prop :=
  n0 ≤ h.next ∧ (∀ e ∈ base, e.1 < n0) ∧
  ∃ own : List (MenuPtr × QMenu),
    h.live = base ++ own ∧ own.map Prod.fst = b.m_menu.toList ∧
    ∀ e ∈ own, n0 ≤ e.1 ∧ e.1 < h.next

/-- The thirteen per-entity variants. -/
inductive Kind where
  | album | artist | genre | track | url | video | videoGroups | videoFolders
  | playlistList | playlistMedia | networkMedia | networkDevice | playQueue
deriving DecidableEq, Repr

/-- The variant of a builder. -/
def Builder.kind : Builder → Kind
  | Builder.album _ => Kind.album
  | Builder.artist _ => Kind.artist
  | Builder.genre _ => Kind.genre
  | Builder.track _ => Kind.track
  | Builder.url _ => Kind.url
  | Builder.video _ => Kind.video
  | Builder.videoGroups _ => Kind.videoGroups
  | Builder.videoFolders _ => Kind.videoFolders
  | Builder.playlistList _ => Kind.playlistList
  | Builder.playlistMedia _ => Kind.playlistMedia
  | Builder.networkMedia _ => Kind.networkMedia
  | Builder.networkDevice _ => Kind.networkDevice
  | Builder.playQueue _ => Kind.playQueue

/-- The identifier list a media-library popup resolves the selection to. -/
def resolveIds (m : MLModel) (role : Role) (selected : List QModelIndex) : List QVariant :=
  selected.map (fun modelIndex => m.data modelIndex role)

/-- The entries the popup of a builder adds to the menu it creates for a request
(no entries when the model is null, since no menu is created then). -/
def Builder.entries (b : Builder) (a : PopupArgs) : List Entry :=
  match b with
  | Builder.album x => match x.m_model with
    | some m => BaseMedialibMenu.audioEntries m.ml (resolveIds m Role.ALBUM_ID a.selected)
                  a.options
    | none => []
  | Builder.artist x => match x.m_model with
    | some m => BaseMedialibMenu.audioEntries m.ml (resolveIds m Role.ARTIST_ID a.selected)
                  a.options
    | none => []
  | Builder.genre x => match x.m_model with
    | some m => BaseMedialibMenu.audioEntries m.ml (resolveIds m Role.GENRE_ID a.selected)
                  a.options
    | none => []
  | Builder.track x => match x.m_model with
    | some m => BaseMedialibMenu.audioEntries m.ml (resolveIds m Role.TRACK_ID a.selected)
                  a.options
    | none => []
  | Builder.url x => match x.m_model with
    | some m => BaseMedialibMenu.audioEntries m.ml (resolveIds m Role.URL_ID a.selected)
                  a.options
    | none => []
  | Builder.video x => match x.m_model with
    | some m => VideoContextMenu.entries m a.selected a.options
    | none => []
  | Builder.videoGroups x => match x.m_model with
    | some m => VideoGroupsContextMenu.entries m a.selected a.options
    | none => []
  | Builder.videoFolders x => match x.m_model with
    | some m => VideoFoldersContextMenu.entries m a.selected a.options
    | none => []
  | Builder.playlistList x => match x.m_model with
    | some m => PlaylistListContextMenu.entries m a.selected
    | none => []
  | Builder.playlistMedia x => match x.m_model with
    | some m => PlaylistMediaContextMenu.entries m a.selected a.options
    | none => []
  | Builder.networkMedia x => match x.m_model with
    | some m => NetworkMediaContextMenu.entries m a.selected
    | none => []
  | Builder.networkDevice x => match x.m_model with
    | some _ => NetworkDeviceContextMenu.entries a.selected
    | none => []
  | Builder.playQueue x => match x.m_controler, x.m_model with
    | some _, some m => PlaylistContextMenu.entries m a.currentIndex
    | _, _ => []

/-- The labels of the actions among a list of entries, in order. -/
def labelsOf (entries : List Entry) : List String := (actionsOf entries).map QAction.text

/-- A media-library model whose every datum is the item identifier of the row. -/
def sampleModel : MLModel :=
  { ml := 7, data := fun idx _ => QVariant.itemId idx.row }

/-- The action inside `informationAction`. -/
def informationAction_action (options : QVariantMap) : QAction :=
  { text := "Information",
    triggered := Closure.signalMapper (options.get "information").toInt }

/-- The media-library model of a builder, for the ten media-library variants. -/
def Builder.mlModel : Builder → Option MLModel
  | Builder.album x => x.m_model
  | Builder.artist x => x.m_model
  | Builder.genre x => x.m_model
  | Builder.track x => x.m_model
  | Builder.url x => x.m_model
  | Builder.video x => x.m_model
  | Builder.videoGroups x => x.m_model
  | Builder.videoFolders x => x.m_model
  | Builder.playlistList x => x.m_model
  | Builder.playlistMedia x => x.m_model
  | _ => none

/-! ## Sortable-list popup -/

/-- Modelled from the spec: the enum MainCtx::Grouping, declared in the main context
header, which is not part of this file.  The spec names the grouping choices of the
video list (do not group, by name, by folder). -/
inductive Grouping where
  | GROUPING_NONE | GROUPING_NAME | GROUPING_FOLDER
deriving DecidableEq, Repr

/-- Modelled from the spec: the integer value of an enumerator, in declaration order;
the three values are distinct. -/
def Grouping.toInt : Grouping → Int
  | Grouping.GROUPING_NONE => 0
  | Grouping.GROUPING_NAME => 1
  | Grouping.GROUPING_FOLDER => 2

/-- Qt `Qt::AscendingOrder`. -/
def AscendingOrder : Int := 0

/-- Qt `Qt::DescendingOrder`. -/
def DescendingOrder : Int := 1

/-- The sort indicator of the header arrow drawn into the icon. -/
inductive SortIndicator where
  | SortDown | SortUp
deriving DecidableEq, Repr

/-- The helper `sortIcon(widget, order)`: the icon is determined by its sort indicator.
`assertions` tells whether the build keeps `assert` (NDEBUG not defined); `none` stands
for the abort of the failed assertion on `order`, which only such a build makes. -/
def sortIcon (assertions : Bool) (order : Int) : Option SortIndicator :=
  if assertions = true ∧ ¬ (order = AscendingOrder ∨ order = DescendingOrder) then none
  else some (if order = AscendingOrder then SortIndicator.SortDown else SortIndicator.SortUp)

/-- The lambdas connected to `triggered` in the sort menus. -/
inductive SortClosure where
  /-- Lambda `[this, i]{ emit selected(i); }` -/
  | emitSelected (i : Int)
  /-- Lambda `[this, grouping]{ emit this->grouping(grouping); }` -/
  | emitGrouping (grouping : Grouping)
deriving DecidableEq, Repr

/-- The signals of SortMenu and SortMenuVideo. -/
inductive SortSignal where
  | selected (index : Int)
  | grouping (grouping : Grouping)
deriving DecidableEq, Repr

/-- The body of each lambda of the sort menus. -/
def SortClosure.run : SortClosure → List SortSignal
  | SortClosure.emitSelected i => [SortSignal.selected i]
  | SortClosure.emitGrouping g => [SortSignal.grouping g]

/-- An action of a sort menu: label, check state, icon, the action group it was added
to (by the index of the group among the groups of the menu), and its lambda. -/
structure SortAction where
  text : String
  checkable : Bool := false
  checked : Bool := false
  icon : Option SortIndicator := none
  actionGroup : Option Nat := none
  triggered : SortClosure
deriving DecidableEq, Repr

/-- One entry of a sort menu. -/
inductive SortEntry where
  | action (a : SortAction)
  | separator
deriving DecidableEq, Repr

/-- The menu of a sort popup: its entries in order, the number of QActionGroup objects
created for it (each exclusive, the Qt default), and the positions of the successive
`popup` calls made on it. -/
structure SortQMenu where
  entries : List SortEntry := []
  actionGroups : Nat := 0
  popups : List QPoint := []
deriving DecidableEq, Repr

/-- The actions of a sort menu in order, separators left out. -/
def sortActionsOf : List SortEntry → List SortAction
  | [] => []
  | SortEntry.action a :: rest => a :: sortActionsOf rest
  | SortEntry.separator :: rest => sortActionsOf rest

/-- The actions of a sort menu. -/
def SortQMenu.actions (m : SortQMenu) : List SortAction := sortActionsOf m.entries

/-- The test `obj.value("checked").toBool()` on one tuple of the model. -/
def tupleChecked (obj : QVariantMap) : Bool := (obj.get "checked").toBool

/-- The action the loop of SortMenu::popup adds for the tuple `obj` at index `i`, or
`none` when `sortIcon` aborts on its assertion. -/
def sortAction (assertions : Bool) (i : Int) (obj : QVariantMap) : Option SortAction :=
  let checked := tupleChecked obj
  if checked then
    match sortIcon assertions (obj.get "order").toInt with
    | none => none
    | some icon =>
      some { text := (obj.get "text").toQString, checkable := true, checked := checked,
             icon := some icon, triggered := SortClosure.emitSelected i }
  else
    some { text := (obj.get "text").toQString, checkable := true, checked := checked,
           triggered := SortClosure.emitSelected i }

/-- The loop of SortMenu::popup from index `i` on; each element of `model` is the map
`model[i].toMap()`. -/
def sortEntries (assertions : Bool) : Int → List QVariantMap → Option (List SortEntry)
  | _, [] => some []
  | i, obj :: rest =>
    match sortAction assertions i obj with
    | none => none
    | some a =>
      match sortEntries assertions (i + 1) rest with
      | none => none
      | some tail => some (SortEntry.action a :: tail)

/-- Builder SortMenu. -/
structure SortMenu where
  m_menu : Option SortQMenu := none
deriving DecidableEq, Repr

/-- The hook SortMenu::onPopup, which does nothing. -/
def SortMenu.onPopup (menu : SortQMenu) : SortQMenu := menu

/-- The body of SortMenu::popup with the virtual hook as a parameter: the previous menu
is deleted, the new one is filled from the model, handed to the hook, popped up at
`point` and, for `popupAbovePoint`, popped up again above it; `height` is the height the
menu reports after its first popup.  The result is `none` when a build with
assertions aborts on the assertion of `sortIcon`. -/
def SortMenu.popupWith (assertions : Bool) (onPopup : SortQMenu → SortQMenu)
    (point : QPoint)
    (popupAbovePoint : Bool) (model : List QVariantMap) (height : Int) : Option SortQMenu :=
  match sortEntries assertions 0 model with
  | none => none
  | some entries =>
    let menu := onPopup { entries := entries }
    let menu := { menu with popups := menu.popups ++ [point] }
    if popupAbovePoint then
      some { menu with popups := menu.popups ++ [{ x := point.x, y := point.y - height }] }
    else some menu

/-- SortMenu::popup. -/
def SortMenu.popup (assertions : Bool) (_self : SortMenu) (point : QPoint)
    (popupAbovePoint : Bool)
    (model : List QVariantMap) (height : Int) : Option SortMenu :=
  (SortMenu.popupWith assertions SortMenu.onPopup point popupAbovePoint model height).map
    (fun menu => { m_menu := some menu })

/-- Builder SortMenuVideo. -/
structure SortMenuVideo extends SortMenu where
  m_ctx : Option MainCtx := none
deriving DecidableEq, Repr

/-- The table `entries` of SortMenuVideo::onPopup. -/
def SortMenuVideo.groupingTable : List (String × Grouping) :=
  [ ("Do not group videos", Grouping.GROUPING_NONE),
    ("Group by name", Grouping.GROUPING_NAME),
    ("Group by folder", Grouping.GROUPING_FOLDER) ]

/-- The action the loop of SortMenuVideo::onPopup adds for one row of the table: it is
checkable, added to the group, and checked when `index == grouping`. -/
def SortMenuVideo.groupingAction (index : Int) (group : Nat) (row : String × Grouping) :
    SortEntry :=
  SortEntry.action { text := row.1, checkable := true,
                     checked := decide (index = row.2.toInt),
                     actionGroup := some group,
                     triggered := SortClosure.emitGrouping row.2 }

/-- SortMenuVideo::onPopup. -/
def SortMenuVideo.onPopup (m_ctx : Option MainCtx) (menu : SortQMenu) : SortQMenu :=
  match m_ctx with
  | none => menu
  | some ctx =>
    let group := menu.actionGroups
    let index := ctx.grouping
    { menu with
      entries := menu.entries ++ [SortEntry.separator]
        ++ SortMenuVideo.groupingTable.map (SortMenuVideo.groupingAction index group),
      actionGroups := menu.actionGroups + 1 }

/-- SortMenuVideo::popup, the popup of SortMenu with the overriding hook. -/
def SortMenuVideo.popup (assertions : Bool) (self : SortMenuVideo) (point : QPoint)
    (popupAbovePoint : Bool)
    (model : List QVariantMap) (height : Int) : Option SortMenuVideo :=
  (SortMenu.popupWith assertions (SortMenuVideo.onPopup self.m_ctx) point popupAbovePoint model
      height).map
    (fun menu => { self with m_menu := some menu })

/-- A sort model with two tuples, the first checked with ascending order. -/
def sampleSortModel : List QVariantMap :=
  [ { bindings := [("text", QVariant.string "Title"), ("checked", QVariant.bool true),
                   ("order", QVariant.int 0)] },
    { bindings := [("text", QVariant.string "Duration"), ("checked", QVariant.bool false)] } ]

/-- A main context whose current grouping is by name. -/
def sampleCtx : MainCtx := { getIntf := some 1, getMediaLibrary := 7, grouping := 1 }

/-! ## Bookmark menu: sections over time -/

/-- The row counts of the three lists behind the bookmark menu. -/
structure BookmarkLists where
  titles : Int
  chapters : Int
  bookmarks : Int
deriving DecidableEq, Repr

/-- The call `section->setVisible(visible)` on the section with the given title. -/
def setSectionVisible (title : String) (visible : Bool) : List Entry → List Entry
  | [] => []
  | Entry.sectionHeader t v :: rest =>
      (if t = title then Entry.sectionHeader t visible else Entry.sectionHeader t v)
        :: setSectionVisible title visible rest
  | e :: rest => e :: setSectionVisible title visible rest

/-- The visibility of the section with the given title, when the menu has one. -/
def sectionVisible (title : String) : List Entry → Option Bool
  | [] => none
  | Entry.sectionHeader t v :: rest => if t = title then some v else sectionVisible title rest
  | _ :: rest => sectionVisible title rest

/-- The lambdas QmlBookmarkMenu::popup connects to `ListMenuHelper::countChanged`: the
helper of the titles sets the visibility of the Titles section, the helper of the
chapters that of the Chapters section; nothing is connected to `countChanged` of the
helper of the bookmarks. -/
def QmlBookmarkMenu.onCountChanged (source : ListSource) (count : Int) (menu : QMenu) :
    QMenu :=
  match source with
  | ListSource.titles =>
      { menu with entries := setSectionVisible "Titles" (count != 0) menu.entries }
  | ListSource.chapters =>
      { menu with entries := setSectionVisible "Chapters" (count != 0) menu.entries }
  | ListSource.bookmarks => menu

/-- A live bookmark menu together with the current row counts of its lists. -/
structure BookmarkMenuState where
  menu : QMenu
  lists : BookmarkLists
deriving DecidableEq, Repr

/-- Modelled from the spec: ListMenuHelper (menus/custom_menus.hpp, not part of this
file) reports every change of the row count of its list through `countChanged(count)`
with the new count, as the spec describes (visibility updated reactively as the list
changes size).  The step records the new count and runs the connected lambda. -/
def BookmarkMenuState.rowCountChanged (s : BookmarkMenuState) (source : ListSource)
    (count : Int) : BookmarkMenuState :=
  { menu := QmlBookmarkMenu.onCountChanged source count s.menu,
    lists := match source with
      | ListSource.titles => { s.lists with titles := count }
      | ListSource.chapters => { s.lists with chapters := count }
      | ListSource.bookmarks => { s.lists with bookmarks := count } }

/-- A sequence of row-count changes, in order. -/
def BookmarkMenuState.run (s : BookmarkMenuState) :
    List (ListSource × Int) → BookmarkMenuState
  | [] => s
  | (source, count) :: rest => (s.rowCountChanged source count).run rest

/-- The state right after QmlBookmarkMenu::popup built `menu`: the title and chapter
lists have the row counts the popup read from the player, the bookmark list, created by
the popup, has `bookmarks0` rows. -/
def BookmarkMenuState.atPopup (menu : QMenu) (player : PlayerController) (bookmarks0 : Int) :
    BookmarkMenuState :=
  { menu := menu,
    lists := { titles := player.titlesRowCount, chapters := player.chaptersRowCount,
               bookmarks := bookmarks0 } }

/-! ## Menu bar: hover and key navigation -/

/-- Qt `item->mapFromGlobal(p)`. -/
def QQuickItem.mapFromGlobal (item : QQuickItem) (p : QPoint) : QPoint :=
  { x := p.x - item.x, y := p.y - item.y }

/-- Qt `item->contains(p)` for a point in item coordinates: the point lies in the
rectangle from (0, 0) to (width, height). -/
def QQuickItem.contains (item : QQuickItem) (p : QPoint) : Bool :=
  decide (0 ≤ p.x) && decide (p.x ≤ item.width) && decide (0 ≤ p.y)
    && decide (p.y ≤ item.height)

/-- Qt `menu->mapToGlobal(p)` for a menu popped up at `poppedAt`. -/
def QMenu.mapToGlobal (menu : QMenu) (p : QPoint) : QPoint :=
  match menu.poppedAt with
  | some origin => { x := origin.x + p.x, y := origin.y + p.y }
  | none => p

/-- The menu bar with its heap of menus, whether the menu `m_menu` points to is shown,
and the number of `menuClosed` signals emitted so far. -/
structure MenuBarState where
  bar : QmlMenuBar
  heap : Heap
  menuVisible : Bool := false
  menuClosed : Nat := 0
deriving DecidableEq, Repr

/-- QmlMenuBar::onMenuClosed. -/
def QmlMenuBar.onMenuClosed (bar : QmlMenuBar) (menuClosed : Nat) : Nat :=
  if !bar.m_openMenuOnHover then menuClosed + 1 else menuClosed

/-- The shown menu hides: it emits aboutToHide, and every connected slot runs. -/
def MenuBarState.hideMenu (s : MenuBarState) : MenuBarState :=
  let slots := match s.bar.m_menu.bind s.heap.find with
    | some menu => menu.onAboutToHide
    | none => []
  { s with
    menuVisible := false,
    menuClosed := slots.foldl
      (fun n slot => match slot with
        | Slot.onMenuClosed => s.bar.onMenuClosed n
        | _ => n) s.menuClosed }

/-- The condition of QmlMenuBarMenu::mouseMoveEvent: the pointer, in global
coordinates, is inside the menu bar and outside the clicked button.  It is `none` when
one of the pointers it dereferences is null. -/
def QmlMenuBarMenu.hoversOtherButton (bar : QmlMenuBar) (h : Heap) (pos : QPoint) :
    Option Bool :=
  match bar.m_menu.bind h.find, bar.m_menubar, bar.m_button with
  | some menu, some menubar, some button =>
    let globalPos := menu.mapToGlobal pos
    some (menubar.contains (menubar.mapFromGlobal globalPos)
          && !button.contains (button.mapFromGlobal globalPos))
  | _, _, _ => none

/-- QmlMenuBarMenu::mouseMoveEvent on the shown menu: under the hover condition the
hover flag is set and the menu closes, which hides it; otherwise the event goes to the
base class, which leaves the menu shown. -/
def MenuBarState.mouseMoveEvent (s : MenuBarState) (pos : QPoint) : MenuBarState :=
  match QmlMenuBarMenu.hoversOtherButton s.bar s.heap pos with
  | some true =>
    MenuBarState.hideMenu { s with bar := { s.bar with m_openMenuOnHover := true } }
  | _ => s

/-- The events of the menu bar: a popup request through popupMenuCommon, a mouse move in
the shown menu, and the shown menu hiding for any other reason (a choice, a click
outside, Escape). -/
inductive MenuBarEvent where
  | popup (button : Option QQuickItem) (createMenuFunc : MenuFactory)
  | mouseMove (pos : QPoint)
  | hide
deriving DecidableEq, Repr

/-- Whether a popup request passes the guards of popupMenuCommon. -/
def QmlMenuBar.popupSucceeds (bar : QmlMenuBar) (button : Option QQuickItem) : Bool :=
  match bar.m_ctx, bar.m_menubar, button with
  | some ctx, some _, some _ => ctx.getIntf.isSome
  | _, _, _ => false

/-- One event of the menu bar.  Mouse moves and hides only reach a shown menu. -/
def MenuBarState.step (s : MenuBarState) : MenuBarEvent → MenuBarState
  | MenuBarEvent.popup button createMenuFunc =>
    let r := s.bar.popupMenuCommon button createMenuFunc s.heap
    { s with bar := r.1, heap := r.2,
             menuVisible := s.bar.popupSucceeds button || s.menuVisible }
  | MenuBarEvent.mouseMove pos => if s.menuVisible then s.mouseMoveEvent pos else s
  | MenuBarEvent.hide => if s.menuVisible then s.hideMenu else s

/-- A sequence of events, in order. -/
def MenuBarState.run (s : MenuBarState) : List MenuBarEvent → MenuBarState
  | [] => s
  | e :: rest => (s.step e).run rest

/-- A key event: the key code and the accepted flag. -/
structure QKeyEvent where
  key : Int
  accepted : Bool
deriving DecidableEq, Repr

/-- Qt `Qt::Key_Left`. -/
def Key_Left : Int := 0x01000012

/-- Qt `Qt::Key_Right`. -/
def Key_Right : Int := 0x01000014

/-- QmlMenuBarMenu::keyPressEvent.  `baseAccepts` is the accepted flag of the event
after `QMenu::keyPressEvent(event)`; the result is the event afterwards and the values
emitted through `navigateMenu`. -/
def QmlMenuBarMenu.keyPressEvent (baseAccepts : QKeyEvent → Bool) (event : QKeyEvent) :
    QKeyEvent × List Int :=
  let event := { event with accepted := baseAccepts event }
  if !event.accepted && (event.key == Key_Left || event.key == Key_Right) then
    ({ event with accepted := true }, [if event.key == Key_Left then -1 else 1])
  else (event, [])

/-- Every live menu has an address below the next fresh one. -/
def Heap.WellFormed (h : Heap) : Prop := ∀ e ∈ h.live, e.1 < h.next

/-- While its menu is shown, the menu bar has the hover flag down, `m_menu` points to a
live menu whose aboutToHide is connected to onMenuClosed alone and which was popped up
at the lower left corner of the button `m_button` points to, and the bar item is set. -/
def MenuBarState.Ok (s : MenuBarState) : Prop :=
  s.heap.WellFormed ∧
  (s.menuVisible = true →
    s.bar.m_openMenuOnHover = false
    ∧ ∃ (menu : QMenu) (b : QQuickItem), s.bar.m_menu.bind s.heap.find = some menu
        ∧ menu.onAboutToHide = [Slot.onMenuClosed]
        ∧ s.bar.m_button = some b
        ∧ menu.poppedAt = some { x := b.x, y := b.y + b.height }
        ∧ s.bar.m_menubar.isSome = true)

/-- The menu bar before any event: no menu shown, no menu alive, nothing emitted. -/
def MenuBarState.init (bar : QmlMenuBar) : MenuBarState := { bar := bar, heap := {} }

/-- A menu bar of width 100 and height 20 at the origin, with its context set. -/
def sampleBar : QmlMenuBar :=
  { m_ctx := some sampleCtx, m_menubar := some { x := 0, y := 0, width := 100, height := 20 } }

/-- The first button of `sampleBar`, 30 wide. -/
def sampleButton : QQuickItem := { x := 0, y := 0, width := 30, height := 20 }

/-- The second button of `sampleBar`, next to the first. -/
def sampleButton2 : QQuickItem := { x := 31, y := 0, width := 30, height := 20 }

/-- A play-queue model with three items, rows 0 and 2 selected. -/
def sampleQueue : PlaylistListModel :=
  { itemAt := fun i =>
      if i = 0 then { isValid := true, url := "file:///a" }
      else if i = 1 then { isValid := true, url := "file:///b" }
      else if i = 2 then { isValid := true, url := "file:///c" }
      else PlaylistItem.null,
    getSelection := [0, 2],
    getSelectedCount := 2 }

/-! # Theorems -/

/-! ## Network media menu: scan of the selection -/

theorem scanStep_eq (m : NetworkMediaModel) (acc : Bool × Nat) (idx : QModelIndex) :
    NetworkMediaContextMenu.scanStep m acc idx =
      (acc.1 || canIndexRow m idx,
       acc.2 + (if canIndexRow m idx && isIndexedRow m idx then 1 else 0)) := by
  unfold NetworkMediaContextMenu.scanStep canIndexRow isIndexedRow
  cases acc with
  | mk c n =>
    cases h1 : ((m.data (m.index idx.row) Role.NETWORK_CANINDEX).isValid
        && (m.data (m.index idx.row) Role.NETWORK_CANINDEX).toBool) <;>
    cases h2 : (m.data (m.index idx.row) Role.NETWORK_INDEXED).isValid <;>
    cases h3 : (m.data (m.index idx.row) Role.NETWORK_INDEXED).toBool <;>
    simp [h1, h2, h3]

theorem scan_foldl_eq (m : NetworkMediaModel) (selected : List QModelIndex)
    (acc : Bool × Nat) :
    selected.foldl (NetworkMediaContextMenu.scanStep m) acc =
      (acc.1 || selected.any (canIndexRow m),
       acc.2 + selected.countP (fun idx => canIndexRow m idx && isIndexedRow m idx)) := by
  induction selected generalizing acc with
  | nil => simp
  | cons idx rest ih =>
    rw [List.foldl_cons, ih, scanStep_eq]
    by_cases hc : (canIndexRow m idx && isIndexedRow m idx) = true
    · simp [List.countP_cons, hc, Bool.or_assoc, Nat.add_assoc, Nat.add_comm]
    · simp [List.countP_cons, hc, Bool.or_assoc]

theorem scan_eq (m : NetworkMediaModel) (selected : List QModelIndex) :
    NetworkMediaContextMenu.scan m selected =
      (selected.any (canIndexRow m),
       selected.countP (fun idx => canIndexRow m idx && isIndexedRow m idx)) := by
  unfold NetworkMediaContextMenu.scan
  rw [scan_foldl_eq]
  simp

theorem countIndexed_pos_iff (m : NetworkMediaModel) (selected : List QModelIndex) :
    decide ((NetworkMediaContextMenu.scan m selected).2 > 0) =
      selected.any (fun idx => canIndexRow m idx && isIndexedRow m idx) := by
  rw [scan_eq]
  simp only [gt_iff_lt, List.countP_pos_iff]
  rw [Bool.eq_iff_iff]
  simp

/-- The actions of the network media menu: the two fixed ones, then the toggle when
some selected row can be indexed. -/
theorem networkMedia_actions (m : NetworkMediaModel) (selected : List QModelIndex) :
    actionsOf (NetworkMediaContextMenu.entries m selected) =
      [ { text := "Add and play", triggered := Closure.modelAddAndPlay selected },
        { text := "Enqueue", triggered := Closure.modelAddToPlaylist selected } ]
      ++ (if selected.any (canIndexRow m) then
            [ { text := if selected.any (fun idx => canIndexRow m idx && isIndexedRow m idx)
                        then "Remove from Media Library" else "Add to Media Library",
                triggered := Closure.setIndexed selected
                  (selected.any (fun idx => canIndexRow m idx && isIndexedRow m idx)) } ]
          else []) := by
  unfold NetworkMediaContextMenu.entries
  simp only [countIndexed_pos_iff]
  rw [scan_eq]
  by_cases hc : selected.any (canIndexRow m) = true
  · simp only [hc, if_true]
    rfl
  · simp only [hc]
    rfl

/-! ## Network media menu: effect of the toggle on the model -/

theorem setData_length (m : NetworkMediaModel) (idx : QModelIndex) (v : Bool) (role : Role) :
    (m.setData idx v role).items.length = m.items.length := by
  unfold NetworkMediaModel.setData
  split
  · rfl
  · split
    · rfl
    · split <;> simp

theorem setData_getElem (m : NetworkMediaModel) (row : Int) (v : Bool) (i : Nat) :
    (m.setData (m.index row) v Role.NETWORK_INDEXED).items[i]? =
      (m.items[i]?).map (fun it => if row = (i : Int) then { it with indexed := v } else it) := by
  by_cases hr : 0 ≤ row ∧ row < (m.items.length : Int)
  · obtain ⟨h0, h1⟩ := hr
    have hlt : row.toNat < m.items.length := by omega
    have hidx : m.index row = { row := row } := by
      unfold NetworkMediaModel.index
      rw [if_pos ⟨h0, h1⟩]
    have hget : m.items.get? row.toNat = some (m.items[row.toNat]) := by
      rw [List.get?_eq_getElem?, List.getElem?_eq_getElem hlt]
    rw [hidx]
    unfold NetworkMediaModel.setData
    rw [if_neg (by simp), if_neg (not_lt.mpr h0), hget]
    show (m.items.set row.toNat _)[i]? = _
    rw [List.getElem?_set]
    by_cases hi : row.toNat = i
    · have hri : row = (i : Int) := by omega
      subst hi
      rw [if_pos rfl, if_pos hlt, List.getElem?_eq_getElem hlt, Option.map_some', if_pos hri]
    · have hri : ¬ row = (i : Int) := by omega
      rw [if_neg hi]
      cases m.items[i]? with
      | none => rfl
      | some it => simp [hri]
  · have hidx : m.index row = { row := -1 } := by
      unfold NetworkMediaModel.index
      rw [if_neg hr]
    rw [hidx]
    unfold NetworkMediaModel.setData
    rw [if_neg (by simp), if_pos (by decide)]
    cases hget : m.items[i]? with
    | none => rfl
    | some it =>
      have hlt : i < m.items.length := by
        by_contra hge
        rw [List.getElem?_eq_none (by omega)] at hget
        cases hget
      have hri : ¬ row = (i : Int) := by
        intro hri
        apply hr
        omega
      simp [hri]

theorem applyCalls_setIndexed_getElem (selected : List QModelIndex) (v : Bool)
    (m : NetworkMediaModel) (i : Nat) :
    (m.applyCalls
        (selected.map (fun idx => Call.setData idx.row v Role.NETWORK_INDEXED))).items[i]? =
      (m.items[i]?).map (fun it =>
        if selected.any (fun idx => decide (idx.row = (i : Int))) then { it with indexed := v }
        else it) := by
  unfold NetworkMediaModel.applyCalls
  induction selected generalizing m with
  | nil => simp
  | cons idx rest ih =>
    simp only [List.map_cons, List.foldl_cons, NetworkMediaModel.applyCall]
    rw [ih, setData_getElem]
    cases hget : m.items[i]? with
    | none => simp
    | some it =>
      by_cases h1 : idx.row = (i : Int) <;>
      by_cases h2 : rest.any (fun idx => decide (idx.row = (i : Int))) = true <;>
      simp [h1, h2]

theorem applyCalls_setIndexed_length (selected : List QModelIndex) (v : Bool)
    (m : NetworkMediaModel) :
    (m.applyCalls
        (selected.map (fun idx => Call.setData idx.row v Role.NETWORK_INDEXED))).items.length =
      m.items.length := by
  unfold NetworkMediaModel.applyCalls
  induction selected generalizing m with
  | nil => simp
  | cons idx rest ih =>
    simp only [List.map_cons, List.foldl_cons, NetworkMediaModel.applyCall]
    rw [ih, setData_length]

theorem Heap.newest_new (h : Heap) (menu : QMenu) : (h.new menu).2.newest = some menu := by
  simp [Heap.new, Heap.newest]

/-- Reading a datum of a row: invalid outside the model, else the field of the row. -/
theorem data_index_eq (m : NetworkMediaModel) (row : Int) (role : Role) :
    m.data (m.index row) role =
      match m.row? row, role with
      | some it, Role.NETWORK_CANINDEX => QVariant.bool it.canBeIndexed
      | some it, Role.NETWORK_INDEXED => QVariant.bool it.indexed
      | _, _ => QVariant.invalid := by
  unfold NetworkMediaModel.data NetworkMediaModel.index NetworkMediaModel.row?
  by_cases hr : 0 ≤ row ∧ row < (m.items.length : Int)
  · obtain ⟨h0, h1⟩ := hr
    simp only [h0, h1, and_self, if_true, not_lt.mpr h0, if_false, List.get?_eq_getElem?]
    cases m.items[row.toNat]? with
    | none => rfl
    | some it => cases role <;> rfl
  · rw [if_neg hr, if_pos (by decide)]
    by_cases h0 : 0 ≤ row
    · have hge : m.items.length ≤ row.toNat := by
        by_contra hlt
        apply hr
        omega
      rw [if_pos h0, List.getElem?_eq_none hge]
    · rw [if_neg h0]

theorem canIndexRow_eq (m : NetworkMediaModel) (idx : QModelIndex) :
    canIndexRow m idx = ((m.row? idx.row).map NetworkItem.canBeIndexed).getD false := by
  unfold canIndexRow
  rw [data_index_eq]
  cases m.row? idx.row with
  | none => rfl
  | some it => cases hc : it.canBeIndexed <;> simp [QVariant.isValid, QVariant.toBool, hc]

theorem isIndexedRow_eq (m : NetworkMediaModel) (idx : QModelIndex) :
    isIndexedRow m idx = ((m.row? idx.row).map NetworkItem.indexed).getD false := by
  unfold isIndexedRow
  rw [data_index_eq]
  cases m.row? idx.row with
  | none => rfl
  | some it => cases hc : it.indexed <;> simp [QVariant.isValid, QVariant.toBool, hc]

theorem applyCalls_setIndexed_row (selected : List QModelIndex) (v : Bool)
    (m : NetworkMediaModel) (row : Int) :
    (m.applyCalls
        (selected.map (fun idx => Call.setData idx.row v Role.NETWORK_INDEXED))).row? row =
      (m.row? row).map (fun it =>
        if selected.any (fun idx => decide (idx.row = row)) then { it with indexed := v }
        else it) := by
  unfold NetworkMediaModel.row?
  by_cases h0 : 0 ≤ row
  · rw [if_pos h0, if_pos h0, applyCalls_setIndexed_getElem]
    have hrow : ((row.toNat : Nat) : Int) = row := by omega
    rw [hrow]
  · rw [if_neg h0, if_neg h0]
    rfl

theorem networkMedia_popup_newest (m : NetworkMediaModel) (prev : Option MenuPtr)
    (selected : List QModelIndex) (pos : QPoint) (h : Heap) :
    (NetworkMediaContextMenu.popup { m_model := some m, m_menu := prev } selected pos h).2.newest
      = some { entries := NetworkMediaContextMenu.entries m selected, poppedAt := some pos } := by
  simp only [NetworkMediaContextMenu.popup]
  exact Heap.newest_new _ _

theorem networkMedia_toggle_filter (m : NetworkMediaModel) (selected : List QModelIndex) :
    (actionsOf (NetworkMediaContextMenu.entries m selected)).filter isIndexToggle =
      if selected.any (canIndexRow m) then
        [ { text := if selected.any (fun idx => canIndexRow m idx && isIndexedRow m idx)
                    then "Remove from Media Library" else "Add to Media Library",
            triggered := Closure.setIndexed selected
              (selected.any (fun idx => canIndexRow m idx && isIndexedRow m idx)) } ]
      else [] := by
  rw [networkMedia_actions]
  by_cases hc : selected.any (canIndexRow m) = true
  · simp only [hc, if_true]
    rfl
  · simp only [hc]
    rfl

/-- C2: the network media menu holds the library-index toggle exactly when some selected
row can be indexed, it holds at most one, and the toggle reads Remove from Media Library
exactly when some selected row can be indexed and is indexed, and Add to Media Library
otherwise. -/
theorem C2_index_toggle_offered_once_with_label (m : NetworkMediaModel)
    (prev : Option MenuPtr) (selected : List QModelIndex) (pos : QPoint) (h : Heap) :
    ∃ menu : QMenu,
      (NetworkMediaContextMenu.popup { m_model := some m, m_menu := prev }
          selected pos h).2.newest = some menu
      ∧ ((∃ a ∈ menu.actions, isIndexToggle a = true)
            ↔ ∃ idx ∈ selected, canIndexRow m idx = true)
      ∧ (menu.actions.filter isIndexToggle).length ≤ 1
      ∧ ∀ a ∈ menu.actions, isIndexToggle a = true →
          (a.text = "Remove from Media Library"
              ↔ ∃ idx ∈ selected, canIndexRow m idx = true ∧ isIndexedRow m idx = true)
          ∧ (a.text = "Add to Media Library"
              ↔ ¬ ∃ idx ∈ selected, canIndexRow m idx = true ∧ isIndexedRow m idx = true) := by
  refine ⟨_, networkMedia_popup_newest m prev selected pos h, ?_, ?_, ?_⟩
  · have hf := networkMedia_toggle_filter m selected
    constructor
    · rintro ⟨a, ha, hta⟩
      have hmem : a ∈ (actionsOf (NetworkMediaContextMenu.entries m selected)).filter
          isIndexToggle := List.mem_filter.mpr ⟨ha, hta⟩
      rw [hf] at hmem
      by_cases hc : selected.any (canIndexRow m) = true
      · simpa [List.any_eq_true] using hc
      · rw [if_neg hc] at hmem
        cases hmem
    · intro hex
      have hc : selected.any (canIndexRow m) = true := by
        simpa [List.any_eq_true] using hex
      rw [if_pos hc] at hf
      have hne : (actionsOf (NetworkMediaContextMenu.entries m selected)).filter
          isIndexToggle ≠ [] := by
        rw [hf]
        exact List.cons_ne_nil _ _
      obtain ⟨a, hmem⟩ := List.exists_mem_of_ne_nil _ hne
      exact ⟨a, (List.mem_filter.mp hmem).1, (List.mem_filter.mp hmem).2⟩
  · show ((actionsOf (NetworkMediaContextMenu.entries m selected)).filter
        isIndexToggle).length ≤ 1
    rw [networkMedia_toggle_filter]
    split <;> simp
  · intro a ha hta
    have hmem : a ∈ (actionsOf (NetworkMediaContextMenu.entries m selected)).filter
        isIndexToggle := List.mem_filter.mpr ⟨ha, hta⟩
    rw [networkMedia_toggle_filter] at hmem
    by_cases hc : selected.any (canIndexRow m) = true
    · rw [if_pos hc, List.mem_singleton] at hmem
      subst hmem
      by_cases hi : selected.any (fun idx => canIndexRow m idx && isIndexedRow m idx) = true
      · have hex : ∃ idx ∈ selected, canIndexRow m idx = true ∧ isIndexedRow m idx = true := by
          simpa [List.any_eq_true] using hi
        show ((if selected.any (fun idx => canIndexRow m idx && isIndexedRow m idx) = true
                then "Remove from Media Library" else "Add to Media Library")
                = "Remove from Media Library" ↔ _)
            ∧ ((if selected.any (fun idx => canIndexRow m idx && isIndexedRow m idx) = true
                then "Remove from Media Library" else "Add to Media Library")
                = "Add to Media Library" ↔ _)
        rw [if_pos hi]
        exact ⟨⟨fun _ => hex, fun _ => rfl⟩,
               ⟨fun hne => absurd hne (by decide), fun hn => absurd hex hn⟩⟩
      · have hex : ¬ ∃ idx ∈ selected, canIndexRow m idx = true ∧ isIndexedRow m idx = true := by
          simpa [List.any_eq_true] using hi
        show ((if selected.any (fun idx => canIndexRow m idx && isIndexedRow m idx) = true
                then "Remove from Media Library" else "Add to Media Library")
                = "Remove from Media Library" ↔ _)
            ∧ ((if selected.any (fun idx => canIndexRow m idx && isIndexedRow m idx) = true
                then "Remove from Media Library" else "Add to Media Library")
                = "Add to Media Library" ↔ _)
        rw [if_neg hi]
        exact ⟨⟨fun hne => absurd hne (by decide), fun hx => absurd hx hex⟩,
               ⟨fun _ => hex, fun _ => rfl⟩⟩
    · rw [if_neg hc] at hmem
      cases hmem

/-- C1 (counterexample): on a model whose rows 0 and 1 can be indexed, row 0 being
indexed and row 1 not, and whose row 2 cannot be indexed, with all three rows selected,
the toggle does not invert every indexable row (row 1 stays not indexed), and it does
issue an indexed-state write for the row that cannot be indexed. -/
theorem C1_counterexample_mixed_selection :
    ¬ (∀ a ∈ actionsOf (NetworkMediaContextMenu.entries mixedModel mixedSelection),
        isIndexToggle a = true →
        ∀ idx ∈ mixedSelection, canIndexRow mixedModel idx = true →
          isIndexedRow (mixedModel.applyCalls (a.triggered.run [])) idx
            = !isIndexedRow mixedModel idx)
    ∧ ¬ (∀ a ∈ actionsOf (NetworkMediaContextMenu.entries mixedModel mixedSelection),
        isIndexToggle a = true →
        ∀ idx ∈ mixedSelection, canIndexRow mixedModel idx = false →
          ∀ (v : Bool) (role : Role), Call.setData idx.row v role ∉ a.triggered.run []) := by
  have hmem : ({ text := "Remove from Media Library",
                 triggered := Closure.setIndexed mixedSelection true } : QAction)
      ∈ actionsOf (NetworkMediaContextMenu.entries mixedModel mixedSelection) := by decide
  constructor
  · intro hall
    have h1 := hall _ hmem rfl { row := 1 } (by decide) (by decide)
    revert h1
    decide
  · intro hall
    have h2 := hall _ hmem rfl { row := 2 } (by decide) (by decide) false Role.NETWORK_INDEXED
    revert h2
    decide

theorem networkMedia_toggle_eq (m : NetworkMediaModel) (selected : List QModelIndex)
    (a : QAction) (ha : a ∈ actionsOf (NetworkMediaContextMenu.entries m selected))
    (ht : isIndexToggle a = true) :
    a.triggered = Closure.setIndexed selected
      (selected.any (fun idx => canIndexRow m idx && isIndexedRow m idx)) := by
  have hmem : a ∈ (actionsOf (NetworkMediaContextMenu.entries m selected)).filter
      isIndexToggle := List.mem_filter.mpr ⟨ha, ht⟩
  rw [networkMedia_toggle_filter] at hmem
  by_cases hc : selected.any (canIndexRow m) = true
  · rw [if_pos hc, List.mem_singleton] at hmem
    rw [hmem]
  · rw [if_neg hc] at hmem
    cases hmem

theorem isIndexedRow_after_setIndexed (m : NetworkMediaModel) (selected : List QModelIndex)
    (v : Bool) (idx : QModelIndex) :
    isIndexedRow (m.applyCalls
        (selected.map (fun i => Call.setData i.row v Role.NETWORK_INDEXED))) idx =
      if selected.any (fun i => decide (i.row = idx.row)) then (m.row? idx.row).isSome && v
      else isIndexedRow m idx := by
  rw [isIndexedRow_eq, isIndexedRow_eq, applyCalls_setIndexed_row]
  cases m.row? idx.row with
  | none => simp
  | some it =>
    by_cases hs : selected.any (fun i => decide (i.row = idx.row)) = true
    · simp [hs]
    · simp [hs]

theorem canIndexRow_after_setIndexed (m : NetworkMediaModel) (selected : List QModelIndex)
    (v : Bool) (idx : QModelIndex) :
    canIndexRow (m.applyCalls
        (selected.map (fun i => Call.setData i.row v Role.NETWORK_INDEXED))) idx =
      canIndexRow m idx := by
  rw [canIndexRow_eq, canIndexRow_eq, applyCalls_setIndexed_row]
  cases m.row? idx.row with
  | none => simp
  | some it =>
    by_cases hs : selected.any (fun i => decide (i.row = idx.row)) = true
    · simp [hs]
    · simp [hs]

/-- C1 (amended): when the toggle is offered, triggering it puts every selected row that
can be indexed into one common indexed state, the negation of the remove flag (the flag
holds when some selected indexable row is indexed): a row whose state equals the flag is
inverted.  Every call it issues is a set-indexed write of that state for a selected row,
rows outside the selection keep their indexed state, and no row changes whether it can
be indexed. -/
theorem C1_index_toggle_sets_common_state (m : NetworkMediaModel) (prev : Option MenuPtr)
    (selected : List QModelIndex) (pos : QPoint) (h : Heap) (menu : QMenu) (a : QAction)
    (selectionNow : List Int)
    (hmenu : (NetworkMediaContextMenu.popup { m_model := some m, m_menu := prev }
        selected pos h).2.newest = some menu)
    (ha : a ∈ menu.actions) (ht : isIndexToggle a = true) :
    (∀ idx ∈ selected, canIndexRow m idx = true →
        isIndexedRow (m.applyCalls (a.triggered.run selectionNow)) idx
          = !(selected.any (fun i => canIndexRow m i && isIndexedRow m i)))
    ∧ (∀ idx ∈ selected, canIndexRow m idx = true →
        isIndexedRow m idx = selected.any (fun i => canIndexRow m i && isIndexedRow m i) →
        isIndexedRow (m.applyCalls (a.triggered.run selectionNow)) idx = !isIndexedRow m idx)
    ∧ (∀ c ∈ a.triggered.run selectionNow, ∃ idx ∈ selected,
        c = Call.setData idx.row
              (!(selected.any (fun i => canIndexRow m i && isIndexedRow m i)))
              Role.NETWORK_INDEXED)
    ∧ (∀ idx : QModelIndex, (∀ s ∈ selected, s.row ≠ idx.row) →
        isIndexedRow (m.applyCalls (a.triggered.run selectionNow)) idx = isIndexedRow m idx)
    ∧ (∀ idx : QModelIndex,
        canIndexRow (m.applyCalls (a.triggered.run selectionNow)) idx = canIndexRow m idx) := by
  rw [networkMedia_popup_newest] at hmenu
  have hm : menu = { entries := NetworkMediaContextMenu.entries m selected,
                     poppedAt := some pos } := (Option.some.inj hmenu).symm
  subst hm
  have hcl := networkMedia_toggle_eq m selected a ha ht
  have hrun : a.triggered.run selectionNow =
      selected.map (fun idx => Call.setData idx.row
        (!(selected.any (fun i => canIndexRow m i && isIndexedRow m i)))
        Role.NETWORK_INDEXED) := by
    rw [hcl]
    rfl
  rw [hrun]
  have hfirst : ∀ idx ∈ selected, canIndexRow m idx = true →
      isIndexedRow (m.applyCalls (selected.map (fun idx => Call.setData idx.row
        (!(selected.any (fun i => canIndexRow m i && isIndexedRow m i)))
        Role.NETWORK_INDEXED))) idx
        = !(selected.any (fun i => canIndexRow m i && isIndexedRow m i)) := by
    intro idx hidx hcan
    rw [isIndexedRow_after_setIndexed]
    have hany : selected.any (fun i => decide (i.row = idx.row)) = true :=
      List.any_eq_true.mpr ⟨idx, hidx, by simp⟩
    rw [if_pos hany]
    rw [canIndexRow_eq] at hcan
    cases hrow : m.row? idx.row with
    | none => rw [hrow] at hcan; cases hcan
    | some it => simp
  refine ⟨hfirst, ?_, ?_, ?_, ?_⟩
  · intro idx hidx hcan hstate
    rw [hfirst idx hidx hcan, hstate]
  · intro c hc
    obtain ⟨idx, hidx, hceq⟩ := List.mem_map.mp hc
    exact ⟨idx, hidx, hceq.symm⟩
  · intro idx hnot
    rw [isIndexedRow_after_setIndexed]
    have hany : ¬ selected.any (fun i => decide (i.row = idx.row)) = true := by
      intro hany
      obtain ⟨s, hs, hdec⟩ := List.any_eq_true.mp hany
      exact hnot s hs (of_decide_eq_true hdec)
    rw [if_neg hany]
  · intro idx
    exact canIndexRow_after_setIndexed m selected _ idx

/-- C1 (witness): on `mixedModel` with all rows selected the toggle is offered and sets
row 0, which was indexed, to not indexed. -/
theorem C1_index_toggle_sets_common_state_witness :
    isIndexedRow mixedModel { row := 0 } = true
    ∧ isIndexedRow (mixedModel.applyCalls
        (Closure.run [] (Closure.setIndexed mixedSelection true))) { row := 0 } = false :=
  ⟨by decide,
   (C1_index_toggle_sets_common_state mixedModel none mixedSelection { x := 0, y := 0 } {}
      { entries := NetworkMediaContextMenu.entries mixedModel mixedSelection,
        poppedAt := some { x := 0, y := 0 } }
      { text := "Remove from Media Library",
        triggered := Closure.setIndexed mixedSelection true } []
      (by decide) (by decide) (by decide)).1 { row := 0 } (by decide) (by decide)⟩

/-! ## Popup without the required references -/

theorem Builder.popup_refs_unset (b : Builder) (a : PopupArgs) (h : Heap)
    (hb : b.refsSet = false) : b.popup a h = (b, h) := by
  cases b with
  | album x =>
    obtain ⟨base, model⟩ := x
    have hm : model = none := by simpa [Builder.refsSet] using hb
    subst hm
    rfl
  | artist x =>
    obtain ⟨base, model⟩ := x
    have hm : model = none := by simpa [Builder.refsSet] using hb
    subst hm
    rfl
  | genre x =>
    obtain ⟨base, model⟩ := x
    have hm : model = none := by simpa [Builder.refsSet] using hb
    subst hm
    rfl
  | track x =>
    obtain ⟨base, model⟩ := x
    have hm : model = none := by simpa [Builder.refsSet] using hb
    subst hm
    rfl
  | url x =>
    obtain ⟨base, model⟩ := x
    have hm : model = none := by simpa [Builder.refsSet] using hb
    subst hm
    rfl
  | video x =>
    have hm : x.m_model = none := by simpa [Builder.refsSet] using hb
    simp [Builder.popup, VideoContextMenu.popup, hm]
  | videoGroups x =>
    have hm : x.m_model = none := by simpa [Builder.refsSet] using hb
    simp [Builder.popup, VideoGroupsContextMenu.popup, hm]
  | videoFolders x =>
    have hm : x.m_model = none := by simpa [Builder.refsSet] using hb
    simp [Builder.popup, VideoFoldersContextMenu.popup, hm]
  | playlistList x =>
    have hm : x.m_model = none := by simpa [Builder.refsSet] using hb
    simp [Builder.popup, PlaylistListContextMenu.popup, hm]
  | playlistMedia x =>
    have hm : x.m_model = none := by simpa [Builder.refsSet] using hb
    simp [Builder.popup, PlaylistMediaContextMenu.popup, hm]
  | networkMedia x =>
    have hm : x.m_model = none := by simpa [Builder.refsSet] using hb
    simp [Builder.popup, NetworkMediaContextMenu.popup, hm]
  | networkDevice x =>
    have hm : x.m_model = none := by simpa [Builder.refsSet] using hb
    simp [Builder.popup, NetworkDeviceContextMenu.popup, hm]
  | playQueue x =>
    have hm : x.m_controler = none ∨ x.m_model = none := by
      cases hc : x.m_controler <;> cases hmo : x.m_model <;>
        simp [Builder.refsSet, hc, hmo] at hb ⊢
    simp only [Builder.popup, PlaylistContextMenu.popup]
    cases hc : x.m_controler with
    | none => rfl
    | some c =>
      cases hmo : x.m_model with
      | none => rfl
      | some mo =>
        rw [hc, hmo] at hm
        cases hm with
        | inl h1 => cases h1
        | inr h2 => cases h2

/-- C4: a popup request on a builder whose required model, controller or context
reference is null returns the builder and the heap of menus unchanged: nothing is
created, shown, connected, destroyed or replaced.  This covers the thirteen per-entity
builders (for the play queue: controller or model null), and the global menu, menu bar,
bookmark and renderer builders. -/
theorem C4_popup_without_required_reference_is_noop :
    (∀ (b : Builder) (a : PopupArgs) (h : Heap), b.refsSet = false → b.popup a h = (b, h))
    ∧ (∀ (self : PlaylistContextMenu) (currentIndex : Int) (pos : QPoint) (h : Heap),
        (self.m_controler = none ∨ self.m_model = none) →
          self.popup currentIndex pos h = (self, h))
    ∧ (∀ (self : QmlGlobalMenu) (pos : QPoint) (h : Heap),
        self.m_ctx = none → self.popup pos h = (self, h))
    ∧ (∀ (self : QmlMenuBar) (button : Option QQuickItem) (f : MenuFactory) (h : Heap),
        (self.m_ctx = none ∨ self.m_menubar = none ∨ button = none) →
          self.popupMenuCommon button f h = (self, h))
    ∧ (∀ (self : QmlBookmarkMenu) (pos : QPoint) (h : Heap),
        (self.m_ctx = none ∨ self.m_player = none) → self.popup pos h = (self, h))
    ∧ (∀ (self : QmlRendererMenu) (pos : QPoint) (h : Heap),
        self.m_ctx = none → self.popup pos h = (self, h)) := by
  refine ⟨Builder.popup_refs_unset, ?_, ?_, ?_, ?_, ?_⟩
  · intro self currentIndex pos h hnull
    unfold PlaylistContextMenu.popup
    cases hc : self.m_controler with
    | none => rfl
    | some c =>
      cases hmo : self.m_model with
      | none => rfl
      | some mo =>
        rw [hc, hmo] at hnull
        rcases hnull with h1 | h2
        · cases h1
        · cases h2
  · intro self pos h hnull
    unfold QmlGlobalMenu.popup
    rw [hnull]
  · intro self button f h hnull
    unfold QmlMenuBar.popupMenuCommon
    cases hc : self.m_ctx with
    | none => rfl
    | some c =>
      cases hb : self.m_menubar with
      | none => rfl
      | some bar =>
        cases hbtn : button with
        | none => rfl
        | some b =>
          rw [hc, hb, hbtn] at hnull
          rcases hnull with h1 | h2 | h3
          · cases h1
          · cases h2
          · cases h3
  · intro self pos h hnull
    unfold QmlBookmarkMenu.popup
    cases hc : self.m_ctx with
    | none => rfl
    | some c =>
      cases hp : self.m_player with
      | none => rfl
      | some pl =>
        rw [hc, hp] at hnull
        rcases hnull with h1 | h2
        · cases h1
        · cases h2
  · intro self pos h hnull
    unfold QmlRendererMenu.popup
    rw [hnull]

/-- C4 (witness): a play-queue builder with its controller set, its model null and a
menu left from an earlier popup keeps that menu and its own state on a popup request. -/
theorem C4_popup_without_required_reference_is_noop_witness :
    (PlaylistContextMenu.popup { m_controler := some 1, m_model := none, m_menu := some 0 }
        3 { x := 10, y := 20 } { live := [(0, {})], next := 1 }).2
      = { live := [(0, {})], next := 1 } :=
  congrArg Prod.snd
    (C4_popup_without_required_reference_is_noop.2.1
      { m_controler := some 1, m_model := none, m_menu := some 0 }
      3 { x := 10, y := 20 } { live := [(0, {})], next := 1 } (Or.inr rfl))

/-! ## Repeated popups on one builder -/

theorem Builder.popup_refs_set (b : Builder) (a : PopupArgs) (h : Heap)
    (hb : b.refsSet = true) (hk : b.isNetworkDevice = false) :
    ∃ menu : QMenu,
      (b.popup a h).2 = ((h.deleteIfSet b.m_menu).new menu).2
      ∧ (b.popup a h).1.m_menu = some h.next
      ∧ (b.popup a h).1.refsSet = true
      ∧ (b.popup a h).1.isNetworkDevice = false := by
  cases b with
  | album x =>
    obtain ⟨⟨prev⟩, model⟩ := x
    cases model with
    | none => simp [Builder.refsSet] at hb
    | some m => cases prev <;> exact ⟨_, rfl, rfl, rfl, rfl⟩
  | artist x =>
    obtain ⟨⟨prev⟩, model⟩ := x
    cases model with
    | none => simp [Builder.refsSet] at hb
    | some m => cases prev <;> exact ⟨_, rfl, rfl, rfl, rfl⟩
  | genre x =>
    obtain ⟨⟨prev⟩, model⟩ := x
    cases model with
    | none => simp [Builder.refsSet] at hb
    | some m => cases prev <;> exact ⟨_, rfl, rfl, rfl, rfl⟩
  | track x =>
    obtain ⟨⟨prev⟩, model⟩ := x
    cases model with
    | none => simp [Builder.refsSet] at hb
    | some m => cases prev <;> exact ⟨_, rfl, rfl, rfl, rfl⟩
  | url x =>
    obtain ⟨⟨prev⟩, model⟩ := x
    cases model with
    | none => simp [Builder.refsSet] at hb
    | some m => cases prev <;> exact ⟨_, rfl, rfl, rfl, rfl⟩
  | video x =>
    obtain ⟨model, prev⟩ := x
    cases model with
    | none => simp [Builder.refsSet] at hb
    | some m => cases prev <;> exact ⟨_, rfl, rfl, rfl, rfl⟩
  | videoGroups x =>
    obtain ⟨model, prev⟩ := x
    cases model with
    | none => simp [Builder.refsSet] at hb
    | some m => cases prev <;> exact ⟨_, rfl, rfl, rfl, rfl⟩
  | videoFolders x =>
    obtain ⟨model, prev⟩ := x
    cases model with
    | none => simp [Builder.refsSet] at hb
    | some m => cases prev <;> exact ⟨_, rfl, rfl, rfl, rfl⟩
  | playlistList x =>
    obtain ⟨model, prev⟩ := x
    cases model with
    | none => simp [Builder.refsSet] at hb
    | some m => cases prev <;> exact ⟨_, rfl, rfl, rfl, rfl⟩
  | playlistMedia x =>
    obtain ⟨model, prev⟩ := x
    cases model with
    | none => simp [Builder.refsSet] at hb
    | some m => cases prev <;> exact ⟨_, rfl, rfl, rfl, rfl⟩
  | networkMedia x =>
    obtain ⟨model, prev⟩ := x
    cases model with
    | none => simp [Builder.refsSet] at hb
    | some m => cases prev <;> exact ⟨_, rfl, rfl, rfl, rfl⟩
  | networkDevice x => simp [Builder.isNetworkDevice] at hk
  | playQueue x =>
    obtain ⟨ctrl, model, prev⟩ := x
    cases ctrl with
    | none => simp [Builder.refsSet] at hb
    | some c =>
      cases model with
      | none => simp [Builder.refsSet] at hb
      | some m => cases prev <;> exact ⟨_, rfl, rfl, rfl, rfl⟩

theorem Heap.deleteIfSet_owned (base : List (MenuPtr × QMenu)) (n0 : MenuPtr) (b : Builder)
    (h : Heap) (hinv : b.OwnsLive base n0 h) :
    (h.deleteIfSet b.m_menu).live = base ∧ (h.deleteIfSet b.m_menu).next = h.next := by
  obtain ⟨_, hbase, own, hlive, hown, hrange⟩ := hinv
  cases hm : b.m_menu with
  | none =>
    rw [hm] at hown
    have : own = [] := by simpa using hown
    subst this
    simp [Heap.deleteIfSet, hlive]
  | some p =>
    rw [hm] at hown
    match own, hown, hrange, hlive with
    | [(q, menu)], hown, hrange, hlive =>
      have hq : q = p := by simpa using hown
      subst hq
      have hqr := hrange (q, menu) (List.mem_singleton.mpr rfl)
      refine ⟨?_, rfl⟩
      show List.filter (fun e => e.1 != q) h.live = base
      rw [hlive, List.filter_append]
      have h1 : List.filter (fun e : MenuPtr × QMenu => e.1 != q) base = base := by
        apply List.filter_eq_self.mpr
        intro e he
        have hlt : e.1 < n0 := hbase e he
        have hne : e.1 ≠ q := Nat.ne_of_lt (Nat.lt_of_lt_of_le hlt hqr.1)
        simpa using hne
      rw [h1]
      simp
    | [], hown, _, _ => simp at hown
    | _ :: _ :: _, hown, _, _ => simp at hown

theorem Builder.popup_owns (base : List (MenuPtr × QMenu)) (n0 : MenuPtr) (b : Builder)
    (a : PopupArgs) (h : Heap) (hb : b.refsSet = true) (hk : b.isNetworkDevice = false)
    (hinv : b.OwnsLive base n0 h) :
    (b.popup a h).1.refsSet = true ∧ (b.popup a h).1.isNetworkDevice = false
    ∧ (b.popup a h).1.OwnsLive base n0 (b.popup a h).2
    ∧ ∃ menu, (b.popup a h).1.m_menu = some h.next
        ∧ (b.popup a h).2.live = base ++ [(h.next, menu)] := by
  obtain ⟨menu, hheap, hmenu, hrefs, hnd⟩ := Builder.popup_refs_set b a h hb hk
  obtain ⟨hlive, hnext⟩ := Heap.deleteIfSet_owned base n0 b h hinv
  have hle := hinv.1
  have hl : (b.popup a h).2.live = base ++ [(h.next, menu)] := by
    rw [hheap]
    simp [Heap.new, hlive, hnext]
  have hn : (b.popup a h).2.next = h.next + 1 := by
    rw [hheap]
    simp [Heap.new, hnext]
  refine ⟨hrefs, hnd, ⟨by rw [hn]; exact Nat.le_succ_of_le hle, hinv.2.1, [(h.next, menu)], hl, ?_, ?_⟩, menu, hmenu, hl⟩
  · rw [hmenu]
    rfl
  · intro e he
    have : e = (h.next, menu) := List.mem_singleton.mp he
    subst this
    constructor
    · exact hle
    · rw [hn]
      exact Nat.lt_succ_self _

theorem Builder.popups_owns (base : List (MenuPtr × QMenu)) (n0 : MenuPtr)
    (rest : List PopupArgs) :
    ∀ (b : Builder) (h : Heap), b.refsSet = true → b.isNetworkDevice = false →
      b.OwnsLive base n0 h → (∃ p menu, b.m_menu = some p ∧ h.live = base ++ [(p, menu)]) →
      ∃ p menu, (b.popups h rest).1.m_menu = some p
        ∧ (b.popups h rest).2.live = base ++ [(p, menu)] := by
  induction rest with
  | nil => intro b h _ _ _ hone; exact hone
  | cons a rest ih =>
    intro b h hb hk hinv _
    obtain ⟨hb1, hk1, hinv1, menu, hm1, hl1⟩ := Builder.popup_owns base n0 b a h hb hk hinv
    exact ih (b.popup a h).1 (b.popup a h).2 hb1 hk1 hinv1 ⟨_, menu, hm1, hl1⟩

/-- Every builder other than the network device one, with its references set and no
menu yet: after any non-empty sequence of popup requests the heap holds, besides the
menus that were there before, exactly one menu, the one `m_menu` points to. -/
theorem Builder.popups_single_live_menu (b : Builder) (h : Heap) (a : PopupArgs)
    (rest : List PopupArgs) (hb : b.refsSet = true) (hk : b.isNetworkDevice = false)
    (hfresh : b.m_menu = none) (hwf : ∀ e ∈ h.live, e.1 < h.next) :
    ∃ p menu, (b.popups h (a :: rest)).1.m_menu = some p
      ∧ (b.popups h (a :: rest)).2.live = h.live ++ [(p, menu)] := by
  have hinv : b.OwnsLive h.live h.next h :=
    ⟨Nat.le_refl _, hwf, [], by simp, by rw [hfresh]; rfl, by simp⟩
  obtain ⟨hb1, hk1, hinv1, menu, hm1, hl1⟩ :=
    Builder.popup_owns h.live h.next b a h hb hk hinv
  exact Builder.popups_owns h.live h.next rest (b.popup a h).1 (b.popup a h).2 hb1 hk1 hinv1
    ⟨_, menu, hm1, hl1⟩

/-- C3 (evaluation): two popup requests in a row on a network device builder whose model
is set leave two live menus on a heap that was empty, and the member `m_menu` of the
builder is still null, so neither menu is the one a later popup would destroy. -/
theorem C3_networkDevice_two_popups_leave_two_menus :
    ((Builder.networkDevice { m_model := some { handle := 0 } }).popups {} [{}, {}]).2.ptrs
        = [0, 1]
    ∧ ((Builder.networkDevice { m_model := some { handle := 0 } }).popups {} [{}, {}]).1.m_menu
        = none := by
  decide

/-! ## The menu a popup creates -/

/-- With its references set, the popup of every builder creates one menu, popped up at
the requested position, whose entries are `Builder.entries`. -/
theorem Builder.popup_newest (b : Builder) (a : PopupArgs) (h : Heap)
    (hb : b.refsSet = true) :
    ∃ menu : QMenu, (b.popup a h).2.newest = some menu
      ∧ menu.entries = b.entries a ∧ menu.poppedAt = some a.pos := by
  cases b with
  | album x =>
    obtain ⟨⟨prev⟩, model⟩ := x
    cases model with
    | none => simp [Builder.refsSet] at hb
    | some m => exact ⟨_, Heap.newest_new _ _, rfl, rfl⟩
  | artist x =>
    obtain ⟨⟨prev⟩, model⟩ := x
    cases model with
    | none => simp [Builder.refsSet] at hb
    | some m => exact ⟨_, Heap.newest_new _ _, rfl, rfl⟩
  | genre x =>
    obtain ⟨⟨prev⟩, model⟩ := x
    cases model with
    | none => simp [Builder.refsSet] at hb
    | some m => exact ⟨_, Heap.newest_new _ _, rfl, rfl⟩
  | track x =>
    obtain ⟨⟨prev⟩, model⟩ := x
    cases model with
    | none => simp [Builder.refsSet] at hb
    | some m => exact ⟨_, Heap.newest_new _ _, rfl, rfl⟩
  | url x =>
    obtain ⟨⟨prev⟩, model⟩ := x
    cases model with
    | none => simp [Builder.refsSet] at hb
    | some m => exact ⟨_, Heap.newest_new _ _, rfl, rfl⟩
  | video x =>
    obtain ⟨model, prev⟩ := x
    cases model with
    | none => simp [Builder.refsSet] at hb
    | some m => exact ⟨_, Heap.newest_new _ _, rfl, rfl⟩
  | videoGroups x =>
    obtain ⟨model, prev⟩ := x
    cases model with
    | none => simp [Builder.refsSet] at hb
    | some m => exact ⟨_, Heap.newest_new _ _, rfl, rfl⟩
  | videoFolders x =>
    obtain ⟨model, prev⟩ := x
    cases model with
    | none => simp [Builder.refsSet] at hb
    | some m => exact ⟨_, Heap.newest_new _ _, rfl, rfl⟩
  | playlistList x =>
    obtain ⟨model, prev⟩ := x
    cases model with
    | none => simp [Builder.refsSet] at hb
    | some m => exact ⟨_, Heap.newest_new _ _, rfl, rfl⟩
  | playlistMedia x =>
    obtain ⟨model, prev⟩ := x
    cases model with
    | none => simp [Builder.refsSet] at hb
    | some m => exact ⟨_, Heap.newest_new _ _, rfl, rfl⟩
  | networkMedia x =>
    obtain ⟨model, prev⟩ := x
    cases model with
    | none => simp [Builder.refsSet] at hb
    | some m => exact ⟨_, Heap.newest_new _ _, rfl, rfl⟩
  | networkDevice x =>
    obtain ⟨model, prev⟩ := x
    cases model with
    | none => simp [Builder.refsSet] at hb
    | some m => exact ⟨_, Heap.newest_new _ _, rfl, rfl⟩
  | playQueue x =>
    obtain ⟨ctrl, model, prev⟩ := x
    cases ctrl with
    | none => simp [Builder.refsSet] at hb
    | some c =>
      cases model with
      | none => simp [Builder.refsSet] at hb
      | some m => exact ⟨_, Heap.newest_new _ _, rfl, rfl⟩

/-! ## The labels of each entity menu -/

theorem QMenu.labels_eq (menu : QMenu) : menu.labels = labelsOf menu.entries := rfl

theorem actionsOf_append (xs ys : List Entry) :
    actionsOf (xs ++ ys) = actionsOf xs ++ actionsOf ys := by
  induction xs with
  | nil => rfl
  | cons e rest ih => cases e <;> simp [actionsOf, ih]

theorem labelsOf_append (xs ys : List Entry) :
    labelsOf (xs ++ ys) = labelsOf xs ++ labelsOf ys := by
  simp [labelsOf, actionsOf_append]

theorem audio_labels (ml : MediaLib) (mlId : List QVariant) (options : QVariantMap) :
    labelsOf (BaseMedialibMenu.audioEntries ml mlId options) =
      ["Add and play", "Enqueue", "Add to playlist"]
        ++ (if hasInformation options then ["Information"] else []) := by
  unfold BaseMedialibMenu.audioEntries
  rw [labelsOf_append]
  cases hasInformation options <;> rfl

theorem video_labels (m : MLModel) (selected : List QModelIndex) (options : QVariantMap) :
    labelsOf (VideoContextMenu.entries m selected options) =
      ["Add and play", "Enqueue", "Add to playlist", "Play as audio"]
        ++ (if hasInformation options then ["Information"] else []) := by
  unfold VideoContextMenu.entries
  simp only [labelsOf_append]
  cases hasInformation options <;> rfl

theorem videoGroups_labels (m : MLModel) (selected : List QModelIndex)
    (options : QVariantMap) :
    labelsOf (VideoGroupsContextMenu.entries m selected options) =
      ["Add and play", "Enqueue", "Add to playlist", "Play as audio"]
        ++ (if VideoGroupsContextMenu.showsInformation m selected options
            then ["Information"] else []) := by
  unfold VideoGroupsContextMenu.entries
  simp only [labelsOf_append]
  cases VideoGroupsContextMenu.showsInformation m selected options <;> rfl

theorem videoFolders_labels (m : MLModel) (selected : List QModelIndex)
    (options : QVariantMap) :
    labelsOf (VideoFoldersContextMenu.entries m selected options) =
      ["Add and play", "Enqueue", "Add to playlist", "Play as audio"] := rfl

theorem playlistList_labels (m : MLModel) (selected : List QModelIndex) :
    labelsOf (PlaylistListContextMenu.entries m selected) =
      ["Add and play", "Enqueue", "Delete"] := rfl

theorem playlistMedia_labels (m : MLModel) (selected : List QModelIndex)
    (options : QVariantMap) :
    labelsOf (PlaylistMediaContextMenu.entries m selected options) =
      ["Add and play", "Enqueue", "Add to playlist", "Play as audio"]
        ++ (if hasInformation options then ["Information"] else [])
        ++ ["Remove Selected"] := by
  unfold PlaylistMediaContextMenu.entries
  simp only [labelsOf_append]
  cases hasInformation options <;> rfl

theorem networkMedia_labels (m : NetworkMediaModel) (selected : List QModelIndex) :
    labelsOf (NetworkMediaContextMenu.entries m selected) =
      ["Add and play", "Enqueue"]
        ++ (if selected.any (canIndexRow m) then
              [ if selected.any (fun idx => canIndexRow m idx && isIndexedRow m idx)
                then "Remove from Media Library" else "Add to Media Library" ]
            else []) := by
  unfold labelsOf
  rw [networkMedia_actions]
  cases selected.any (canIndexRow m) <;> rfl

theorem networkDevice_labels (selected : List QModelIndex) :
    labelsOf (NetworkDeviceContextMenu.entries selected) = ["Add and play", "Enqueue"] := rfl

theorem playQueue_labels (m : PlaylistListModel) (currentIndex : Int) :
    labelsOf (PlaylistContextMenu.entries m currentIndex) =
      (if (PlaylistContextMenu.currentItem m currentIndex).isValid then ["Play"] else [])
      ++ (if m.getSelectedCount > 0 then ["Stream", "Save"] else [])
      ++ (if (PlaylistContextMenu.currentItem m currentIndex).isValid
          then ["Information", "Show Containing Directory..."] else [])
      ++ ["Add File...", "Add Directory...", "Advanced Open..."]
      ++ (if m.getSelectedCount > 0 then ["Save Playlist to File...", "Remove Selected"]
          else [])
      ++ ["Clear the playlist"] := by
  unfold PlaylistContextMenu.entries
  simp only [labelsOf_append]
  cases (PlaylistContextMenu.currentItem m currentIndex).isValid <;>
    by_cases hs : m.getSelectedCount > 0 <;> simp only [hs, if_true, if_false] <;> rfl

/-! ## Universal actions -/

/-- C5 (counterexample): the menu of the playlist-list builder for a one-row selection
has the actions Add and play, Enqueue and Delete, and no Add to playlist action. -/
theorem C5_counterexample_playlistList_lacks_add_to_playlist :
    ∃ menu : QMenu,
      ((Builder.playlistList { m_model := some sampleModel }).popup
          { selected := [{ row := 0 }] } {}).2.newest = some menu
      ∧ menu.labels = ["Add and play", "Enqueue", "Delete"]
      ∧ "Add to playlist" ∉ menu.labels :=
  ⟨_, rfl, rfl, by decide⟩

/-- C5 (amended): for each of the twelve per-entity variants with its model set and every
selection, the populated menu contains Add and play and Enqueue; it contains
Add to playlist exactly in the album, artist, genre, track, URL, video, video-group,
video-folder and playlist-item variants, that is, in every variant other than
playlist-list, network-media and network-device. -/
theorem C5_universal_actions_per_variant (b : Builder) (a : PopupArgs) (h : Heap)
    (hb : b.refsSet = true) (hk : b.kind ≠ Kind.playQueue) :
    ∃ menu : QMenu, (b.popup a h).2.newest = some menu
      ∧ "Add and play" ∈ menu.labels
      ∧ "Enqueue" ∈ menu.labels
      ∧ ("Add to playlist" ∈ menu.labels ↔
          (b.kind ≠ Kind.playlistList ∧ b.kind ≠ Kind.networkMedia
            ∧ b.kind ≠ Kind.networkDevice)) := by
  obtain ⟨menu, hnew, hent, _⟩ := Builder.popup_newest b a h hb
  refine ⟨menu, hnew, ?_⟩
  rw [QMenu.labels_eq, hent]
  cases b with
  | album x =>
    obtain ⟨⟨prev⟩, model⟩ := x
    cases model with
    | none => simp [Builder.refsSet] at hb
    | some m => simp [Builder.entries, audio_labels, Builder.kind]
  | artist x =>
    obtain ⟨⟨prev⟩, model⟩ := x
    cases model with
    | none => simp [Builder.refsSet] at hb
    | some m => simp [Builder.entries, audio_labels, Builder.kind]
  | genre x =>
    obtain ⟨⟨prev⟩, model⟩ := x
    cases model with
    | none => simp [Builder.refsSet] at hb
    | some m => simp [Builder.entries, audio_labels, Builder.kind]
  | track x =>
    obtain ⟨⟨prev⟩, model⟩ := x
    cases model with
    | none => simp [Builder.refsSet] at hb
    | some m => simp [Builder.entries, audio_labels, Builder.kind]
  | url x =>
    obtain ⟨⟨prev⟩, model⟩ := x
    cases model with
    | none => simp [Builder.refsSet] at hb
    | some m => simp [Builder.entries, audio_labels, Builder.kind]
  | video x =>
    obtain ⟨model, prev⟩ := x
    cases model with
    | none => simp [Builder.refsSet] at hb
    | some m => simp [Builder.entries, video_labels, Builder.kind]
  | videoGroups x =>
    obtain ⟨model, prev⟩ := x
    cases model with
    | none => simp [Builder.refsSet] at hb
    | some m => simp [Builder.entries, videoGroups_labels, Builder.kind]
  | videoFolders x =>
    obtain ⟨model, prev⟩ := x
    cases model with
    | none => simp [Builder.refsSet] at hb
    | some m => simp [Builder.entries, videoFolders_labels, Builder.kind]
  | playlistList x =>
    obtain ⟨model, prev⟩ := x
    cases model with
    | none => simp [Builder.refsSet] at hb
    | some m => simp [Builder.entries, playlistList_labels, Builder.kind]
  | playlistMedia x =>
    obtain ⟨model, prev⟩ := x
    cases model with
    | none => simp [Builder.refsSet] at hb
    | some m => simp [Builder.entries, playlistMedia_labels, Builder.kind]
  | networkMedia x =>
    obtain ⟨model, prev⟩ := x
    cases model with
    | none => simp [Builder.refsSet] at hb
    | some m =>
      simp only [Builder.entries, networkMedia_labels, Builder.kind]
      cases a.selected.any (canIndexRow m) <;>
        cases a.selected.any (fun idx => canIndexRow m idx && isIndexedRow m idx) <;>
        simp
  | networkDevice x =>
    obtain ⟨model, prev⟩ := x
    cases model with
    | none => simp [Builder.refsSet] at hb
    | some m => simp [Builder.entries, networkDevice_labels, Builder.kind]
  | playQueue x => exact absurd rfl hk

/-- C5 (witness): the video builder with a model set offers Add to playlist. -/
theorem C5_universal_actions_per_variant_witness :
    ∃ menu : QMenu,
      ((Builder.video { m_model := some sampleModel }).popup
          { selected := [{ row := 2 }] } {}).2.newest = some menu
      ∧ "Add and play" ∈ menu.labels
      ∧ "Enqueue" ∈ menu.labels
      ∧ ("Add to playlist" ∈ menu.labels ↔
          ((Builder.video { m_model := some sampleModel }).kind ≠ Kind.playlistList
            ∧ (Builder.video { m_model := some sampleModel }).kind ≠ Kind.networkMedia
            ∧ (Builder.video { m_model := some sampleModel }).kind ≠ Kind.networkDevice)) :=
  C5_universal_actions_per_variant (Builder.video { m_model := some sampleModel })
    { selected := [{ row := 2 }] } {} rfl (by decide)

/-! ## Action counts -/

/-- The options test of the Information block holds exactly when the key
`information` is bound to a variant of integer type. -/
theorem hasInformation_iff (options : QVariantMap) :
    hasInformation options = true ↔
      ∃ n : Int, options.bindings.lookup "information" = some (QVariant.int n) := by
  unfold hasInformation QVariantMap.contains QVariantMap.get
  cases hl : options.bindings.lookup "information" with
  | none => simp
  | some v => cases v <;> simp [QVariant.isInt]

theorem labelsOf_length (entries : List Entry) :
    (labelsOf entries).length = (actionsOf entries).length := by
  simp [labelsOf]

/-- C6: with the model set, the number of actions (separators not counted) of an entity
menu is, for every selection and options mapping: 3 for the album, artist, genre, track
and URL menus, 4 for the video menu and 5 for the playlist-item menu, each plus one when
the options bind `information` to an integer (which is what the options test
`hasInformation` decides); exactly 4 for the video-folder menu,
3 for the playlist-list menu and 2 for the network-device menu; and 2 for the
network-media menu plus one when some selected row can be indexed. -/
theorem C6_entity_menu_action_counts (b : Builder) (a : PopupArgs) (h : Heap)
    (hb : b.refsSet = true) :
    ∃ menu : QMenu, (b.popup a h).2.newest = some menu
      ∧ (hasInformation a.options = true ↔
          ∃ n : Int, a.options.bindings.lookup "information" = some (QVariant.int n))
      ∧ (b.kind ∈ [Kind.album, Kind.artist, Kind.genre, Kind.track, Kind.url] →
          menu.actions.length = 3 + (if hasInformation a.options then 1 else 0))
      ∧ (b.kind = Kind.video →
          menu.actions.length = 4 + (if hasInformation a.options then 1 else 0))
      ∧ (b.kind = Kind.videoFolders → menu.actions.length = 4)
      ∧ (b.kind = Kind.playlistList → menu.actions.length = 3)
      ∧ (b.kind = Kind.playlistMedia →
          menu.actions.length = 5 + (if hasInformation a.options then 1 else 0))
      ∧ (∀ (x : NetworkMediaContextMenu) (m : NetworkMediaModel),
          b = Builder.networkMedia x → x.m_model = some m →
          menu.actions.length = 2 + (if a.selected.any (canIndexRow m) then 1 else 0))
      ∧ (b.kind = Kind.networkDevice → menu.actions.length = 2) := by
  obtain ⟨menu, hnew, hent, _⟩ := Builder.popup_newest b a h hb
  refine ⟨menu, hnew, hasInformation_iff a.options, ?_⟩
  have hlen : menu.actions.length = (labelsOf (b.entries a)).length := by
    rw [labelsOf_length, ← hent]
    rfl
  rw [hlen]
  cases b with
  | album x =>
    obtain ⟨⟨prev⟩, model⟩ := x
    cases model with
    | none => simp [Builder.refsSet] at hb
    | some m =>
      simp only [Builder.entries, audio_labels, Builder.kind]
      cases hasInformation a.options <;> simp
  | artist x =>
    obtain ⟨⟨prev⟩, model⟩ := x
    cases model with
    | none => simp [Builder.refsSet] at hb
    | some m =>
      simp only [Builder.entries, audio_labels, Builder.kind]
      cases hasInformation a.options <;> simp
  | genre x =>
    obtain ⟨⟨prev⟩, model⟩ := x
    cases model with
    | none => simp [Builder.refsSet] at hb
    | some m =>
      simp only [Builder.entries, audio_labels, Builder.kind]
      cases hasInformation a.options <;> simp
  | track x =>
    obtain ⟨⟨prev⟩, model⟩ := x
    cases model with
    | none => simp [Builder.refsSet] at hb
    | some m =>
      simp only [Builder.entries, audio_labels, Builder.kind]
      cases hasInformation a.options <;> simp
  | url x =>
    obtain ⟨⟨prev⟩, model⟩ := x
    cases model with
    | none => simp [Builder.refsSet] at hb
    | some m =>
      simp only [Builder.entries, audio_labels, Builder.kind]
      cases hasInformation a.options <;> simp
  | video x =>
    obtain ⟨model, prev⟩ := x
    cases model with
    | none => simp [Builder.refsSet] at hb
    | some m =>
      simp only [Builder.entries, video_labels, Builder.kind]
      cases hasInformation a.options <;> simp
  | videoGroups x => simp [Builder.kind]
  | videoFolders x =>
    obtain ⟨model, prev⟩ := x
    cases model with
    | none => simp [Builder.refsSet] at hb
    | some m => simp [Builder.entries, videoFolders_labels, Builder.kind]
  | playlistList x =>
    obtain ⟨model, prev⟩ := x
    cases model with
    | none => simp [Builder.refsSet] at hb
    | some m => simp [Builder.entries, playlistList_labels, Builder.kind]
  | playlistMedia x =>
    obtain ⟨model, prev⟩ := x
    cases model with
    | none => simp [Builder.refsSet] at hb
    | some m =>
      simp only [Builder.entries, playlistMedia_labels, Builder.kind]
      cases hasInformation a.options <;> simp
  | networkMedia x =>
    obtain ⟨model, prev⟩ := x
    cases model with
    | none => simp [Builder.refsSet] at hb
    | some m =>
      simp only [Builder.entries, networkMedia_labels, Builder.kind]
      refine ⟨by simp, by simp, by simp, by simp, by simp, ?_, by simp⟩
      intro x m2 hx hm2
      injection hx with hx
      subst hx
      have hmm : m = m2 := Option.some.inj hm2
      subst hmm
      cases a.selected.any (canIndexRow m) <;> simp
  | networkDevice x =>
    obtain ⟨model, prev⟩ := x
    cases model with
    | none => simp [Builder.refsSet] at hb
    | some m => simp [Builder.entries, networkDevice_labels, Builder.kind]
  | playQueue x => simp [Builder.kind]

/-- C6 (witness): the playlist-item menu for a two-row selection and options that bind
`information` to the integer 4 has six actions. -/
theorem C6_entity_menu_action_counts_witness :
    ∃ menu : QMenu,
      ((Builder.playlistMedia { m_model := some sampleModel }).popup
          { selected := [{ row := 0 }, { row := 1 }],
            options := { bindings := [("information", QVariant.int 4)] } } {}).2.newest
        = some menu
      ∧ menu.actions.length = 6 := by
  obtain ⟨menu, hnew, _, _, _, _, _, hpm, _, _⟩ :=
    C6_entity_menu_action_counts (Builder.playlistMedia { m_model := some sampleModel })
      { selected := [{ row := 0 }, { row := 1 }],
        options := { bindings := [("information", QVariant.int 4)] } } {} rfl
  exact ⟨menu, hnew, hpm rfl⟩

/-! ## The Information action -/

theorem mem_actionsOf (entries : List Entry) (act : QAction) :
    act ∈ actionsOf entries ↔ Entry.action act ∈ entries := by
  induction entries with
  | nil => simp [actionsOf]
  | cons e rest ih => cases e <;> simp [actionsOf, ih]

theorem audio_information (ml : MediaLib) (ids : List QVariant) (options : QVariantMap)
    (act : QAction) (hmem : act ∈ actionsOf (BaseMedialibMenu.audioEntries ml ids options))
    (ht : act.text = "Information") :
    hasInformation options = true
      ∧ act.triggered = Closure.signalMapper (options.get "information").toInt := by
  rw [mem_actionsOf] at hmem
  unfold BaseMedialibMenu.audioEntries at hmem
  cases hinfo : hasInformation options <;>
    simp only [hinfo, List.mem_append, List.mem_cons, List.mem_singleton, List.not_mem_nil,
      or_false, Entry.action.injEq, informationAction, if_true, if_false,
      Bool.false_eq_true] at hmem
  · rcases hmem with h | h | h <;> rw [h] at ht <;> simp at ht
  · rcases hmem with (h | h | h) | h
    · rw [h] at ht; simp at ht
    · rw [h] at ht; simp at ht
    · rw [h] at ht; simp at ht
    · rw [h]; exact ⟨rfl, rfl⟩

theorem video_information (m : MLModel) (selected : List QModelIndex)
    (options : QVariantMap) (act : QAction)
    (hmem : act ∈ actionsOf (VideoContextMenu.entries m selected options))
    (ht : act.text = "Information") :
    hasInformation options = true
      ∧ act.triggered = Closure.signalMapper (options.get "information").toInt := by
  rw [mem_actionsOf] at hmem
  unfold VideoContextMenu.entries at hmem
  cases hinfo : hasInformation options <;>
    simp only [hinfo, List.mem_append, List.mem_cons, List.mem_singleton, List.not_mem_nil,
      or_false, Entry.action.injEq, informationAction, if_true, if_false,
      Bool.false_eq_true] at hmem
  · rcases hmem with h | h | h | h <;> rw [h] at ht <;> simp at ht
  · rcases hmem with (h | h | h | h) | h
    · rw [h] at ht; simp at ht
    · rw [h] at ht; simp at ht
    · rw [h] at ht; simp at ht
    · rw [h] at ht; simp at ht
    · rw [h]; exact ⟨rfl, rfl⟩

theorem videoGroups_information (m : MLModel) (selected : List QModelIndex)
    (options : QVariantMap) (act : QAction)
    (hmem : act ∈ actionsOf (VideoGroupsContextMenu.entries m selected options))
    (ht : act.text = "Information") :
    VideoGroupsContextMenu.showsInformation m selected options = true
      ∧ act.triggered = Closure.signalMapper (options.get "information").toInt := by
  rw [mem_actionsOf] at hmem
  unfold VideoGroupsContextMenu.entries at hmem
  cases hinfo : VideoGroupsContextMenu.showsInformation m selected options <;>
    simp only [hinfo, List.mem_append, List.mem_cons, List.mem_singleton, List.not_mem_nil,
      or_false, Entry.action.injEq, informationAction, if_true, if_false,
      Bool.false_eq_true] at hmem
  · rcases hmem with h | h | h | h <;> rw [h] at ht <;> simp at ht
  · rcases hmem with (h | h | h | h) | h
    · rw [h] at ht; simp at ht
    · rw [h] at ht; simp at ht
    · rw [h] at ht; simp at ht
    · rw [h] at ht; simp at ht
    · rw [h]; exact ⟨rfl, rfl⟩

theorem playlistMedia_information (m : MLModel) (selected : List QModelIndex)
    (options : QVariantMap) (act : QAction)
    (hmem : act ∈ actionsOf (PlaylistMediaContextMenu.entries m selected options))
    (ht : act.text = "Information") :
    hasInformation options = true
      ∧ act.triggered = Closure.signalMapper (options.get "information").toInt := by
  rw [mem_actionsOf] at hmem
  unfold PlaylistMediaContextMenu.entries at hmem
  cases hinfo : hasInformation options <;>
    simp only [hinfo, List.mem_append, List.mem_cons, List.mem_singleton, List.not_mem_nil,
      or_false, false_or, Entry.action.injEq, informationAction, if_true, if_false,
      Bool.false_eq_true] at hmem
  · rcases hmem with (h | h | h | h) | (h | h)
    · rw [h] at ht; simp at ht
    · rw [h] at ht; simp at ht
    · rw [h] at ht; simp at ht
    · rw [h] at ht; simp at ht
    · cases h
    · rw [h] at ht; simp at ht
  · rcases hmem with ((h | h | h | h) | h) | (h | h)
    · rw [h] at ht; simp at ht
    · rw [h] at ht; simp at ht
    · rw [h] at ht; simp at ht
    · rw [h] at ht; simp at ht
    · rw [h]; exact ⟨rfl, rfl⟩
    · cases h
    · rw [h] at ht; simp at ht

theorem information_target (options : QVariantMap) (hinfo : hasInformation options = true) :
    ∃ n : Int, options.bindings.lookup "information" = some (QVariant.int n)
      ∧ (options.get "information").toInt = n := by
  obtain ⟨n, hn⟩ := (hasInformation_iff options).mp hinfo
  exact ⟨n, hn, by simp [QVariantMap.get, hn, QVariant.toInt]⟩

theorem showsInformation_imp (m : MLModel) (selected : List QModelIndex)
    (options : QVariantMap)
    (hs : VideoGroupsContextMenu.showsInformation m selected options = true) :
    hasInformation options = true := by
  unfold VideoGroupsContextMenu.showsInformation at hs
  split at hs
  · exact (Bool.and_eq_true _ _ ▸ hs).2
  · cases hs

/-- Every action labelled Information of an entity menu comes from the Information
block: the options test holds and the action is the signal mapper on the bound integer. -/
theorem Builder.information_of_mem (b : Builder) (a : PopupArgs) (act : QAction)
    (hk : b.kind ∈ [Kind.album, Kind.artist, Kind.genre, Kind.track, Kind.url, Kind.video,
      Kind.videoGroups, Kind.playlistMedia])
    (hmem : act ∈ actionsOf (b.entries a)) (ht : act.text = "Information") :
    hasInformation a.options = true
      ∧ act.triggered = Closure.signalMapper (a.options.get "information").toInt := by
  cases b with
  | album x =>
    obtain ⟨⟨prev⟩, model⟩ := x
    cases model with
    | none => cases hmem
    | some m => exact audio_information _ _ _ act hmem ht
  | artist x =>
    obtain ⟨⟨prev⟩, model⟩ := x
    cases model with
    | none => cases hmem
    | some m => exact audio_information _ _ _ act hmem ht
  | genre x =>
    obtain ⟨⟨prev⟩, model⟩ := x
    cases model with
    | none => cases hmem
    | some m => exact audio_information _ _ _ act hmem ht
  | track x =>
    obtain ⟨⟨prev⟩, model⟩ := x
    cases model with
    | none => cases hmem
    | some m => exact audio_information _ _ _ act hmem ht
  | url x =>
    obtain ⟨⟨prev⟩, model⟩ := x
    cases model with
    | none => cases hmem
    | some m => exact audio_information _ _ _ act hmem ht
  | video x =>
    obtain ⟨model, prev⟩ := x
    cases model with
    | none => cases hmem
    | some m => exact video_information m _ _ act hmem ht
  | videoGroups x =>
    obtain ⟨model, prev⟩ := x
    cases model with
    | none => cases hmem
    | some m =>
      obtain ⟨hs, htr⟩ := videoGroups_information m _ _ act hmem ht
      exact ⟨showsInformation_imp m _ _ hs, htr⟩
  | playlistMedia x =>
    obtain ⟨model, prev⟩ := x
    cases model with
    | none => cases hmem
    | some m => exact playlistMedia_information m _ _ act hmem ht
  | videoFolders x => simp [Builder.kind] at hk
  | playlistList x => simp [Builder.kind] at hk
  | networkMedia x => simp [Builder.kind] at hk
  | networkDevice x => simp [Builder.kind] at hk
  | playQueue x => simp [Builder.kind] at hk

/-- C7: in the album, artist, genre, track, URL, video, video-group and playlist-item
menus, an action labelled Information is present only when the options bind the key
`information` to a variant of integer type, and triggering it reports exactly that
integer through showMediaInformation; with the key missing or bound to a string there
is no such action. -/
theorem C7_information_only_for_integer_target (b : Builder) (a : PopupArgs) (h : Heap)
    (hb : b.refsSet = true)
    (hk : b.kind ∈ [Kind.album, Kind.artist, Kind.genre, Kind.track, Kind.url, Kind.video,
      Kind.videoGroups, Kind.playlistMedia]) :
    ∃ menu : QMenu, (b.popup a h).2.newest = some menu
      ∧ (∀ act ∈ menu.actions, act.text = "Information" →
          ∃ n : Int, a.options.bindings.lookup "information" = some (QVariant.int n)
            ∧ ∀ selectionNow : List Int,
                act.triggered.run selectionNow = [Call.showMediaInformation n])
      ∧ (a.options.bindings.lookup "information" = none → "Information" ∉ menu.labels)
      ∧ (∀ str : String,
          a.options.bindings.lookup "information" = some (QVariant.string str) →
            "Information" ∉ menu.labels) := by
  obtain ⟨menu, hnew, hent, _⟩ := Builder.popup_newest b a h hb
  have hmain : ∀ act ∈ menu.actions, act.text = "Information" →
      ∃ n : Int, a.options.bindings.lookup "information" = some (QVariant.int n)
        ∧ ∀ selectionNow : List Int,
            act.triggered.run selectionNow = [Call.showMediaInformation n] := by
    intro act hact ht
    have hmem : act ∈ actionsOf (b.entries a) := by
      rw [← hent]
      exact hact
    obtain ⟨hinfo, htr⟩ := Builder.information_of_mem b a act hk hmem ht
    obtain ⟨n, hn, hto⟩ := information_target a.options hinfo
    refine ⟨n, hn, ?_⟩
    intro selectionNow
    rw [htr, hto]
    rfl
  have hnone : ∀ v : QVariant, (∀ n : Int, v ≠ QVariant.int n) →
      (a.options.bindings.lookup "information" = some v
        ∨ a.options.bindings.lookup "information" = none) →
      "Information" ∉ menu.labels := by
    intro v hv hlook hin
    obtain ⟨act, hact, ht⟩ := List.mem_map.mp hin
    obtain ⟨n, hn, _⟩ := hmain act hact ht
    rcases hlook with hl | hl
    · rw [hl] at hn
      exact hv n (Option.some.inj hn)
    · rw [hl] at hn
      cases hn
  refine ⟨menu, hnew, hmain, ?_, ?_⟩
  · intro hl
    exact hnone QVariant.invalid (fun n hn => by cases hn) (Or.inr hl)
  · intro str hl
    exact hnone (QVariant.string str) (fun n hn => by cases hn) (Or.inl hl)

/-- C7 (witness): the album menu built with `information` bound to the integer 5 has an
Information action, the fourth one, and triggering it reports 5. -/
theorem C7_information_only_for_integer_target_witness :
    ∃ menu : QMenu,
      ((Builder.album { m_model := some sampleModel }).popup
          { selected := [{ row := 1 }],
            options := { bindings := [("information", QVariant.int 5)] } } {}).2.newest
        = some menu
      ∧ menu.labels = ["Add and play", "Enqueue", "Add to playlist", "Information"]
      ∧ menu.trigger 3 [] = [Call.showMediaInformation 5] := by
  obtain ⟨menu, hnew, _, _, _⟩ :=
    C7_information_only_for_integer_target (Builder.album { m_model := some sampleModel })
      { selected := [{ row := 1 }],
        options := { bindings := [("information", QVariant.int 5)] } } {} rfl (by decide)
  have hm : menu = { entries := BaseMedialibMenu.audioEntries 7 [QVariant.itemId 1]
                       { bindings := [("information", QVariant.int 5)] },
                     poppedAt := some { x := 0, y := 0 } } :=
    (Option.some.inj hnew).symm
  subst hm
  exact ⟨_, hnew, by decide, by decide⟩

/-! ## Play as audio -/

theorem QMenu.trigger_entries (menu : QMenu) (entries : List Entry) (i : Nat)
    (selectionNow : List Int) (hent : menu.entries = entries) :
    menu.trigger i selectionNow =
      match (actionsOf entries).get? i with
      | some act => act.triggered.run selectionNow
      | none => [] := by
  subst hent
  rfl

/-- C8: in the video, video-group, video-folder and playlist-item menus the first action
is Add and play and the fourth is Play as audio; both call addAndPlay on the media
library of the model with the same identifier list, the identifiers of the selected rows
in selection order, and Play as audio passes the option list made of `:no-video`
followed by the options Add and play passes (none for the playlist-item menu), in their
order. -/
theorem C8_play_as_audio_prepends_no_video (b : Builder) (a : PopupArgs) (h : Heap)
    (selectionNow : List Int) (hb : b.refsSet = true)
    (hk : b.kind ∈ [Kind.video, Kind.videoGroups, Kind.videoFolders, Kind.playlistMedia]) :
    ∃ (menu : QMenu) (m : MLModel) (ids : List QVariant) (passed : Option (List String)),
      (b.popup a h).2.newest = some menu
      ∧ b.mlModel = some m
      ∧ menu.labels.get? 0 = some "Add and play"
      ∧ menu.labels.get? 3 = some "Play as audio"
      ∧ menu.trigger 0 selectionNow = [Call.mlAddAndPlay m.ml ids passed]
      ∧ menu.trigger 3 selectionNow
          = [Call.mlAddAndPlay m.ml ids (some (":no-video" :: passed.getD []))]
      ∧ (b.kind = Kind.video ∨ b.kind = Kind.videoGroups →
          ids = a.selected.map (fun idx => m.data idx Role.VIDEO_ID)
          ∧ passed = some (a.options.get "player-options").toStringList)
      ∧ (b.kind = Kind.videoFolders →
          ids = a.selected.map (fun idx => m.data idx Role.FOLDER_ID)
          ∧ passed = some (a.options.get "player-options").toStringList)
      ∧ (b.kind = Kind.playlistMedia →
          ids = a.selected.map (fun idx => m.data idx Role.MEDIA_ID) ∧ passed = none) := by
  obtain ⟨menu, hnew, hent, _⟩ := Builder.popup_newest b a h hb
  cases b with
  | video x =>
    obtain ⟨model, prev⟩ := x
    cases model with
    | none => simp [Builder.refsSet] at hb
    | some m =>
      refine ⟨menu, m, a.selected.map (fun idx => m.data idx Role.VIDEO_ID),
        some (a.options.get "player-options").toStringList, hnew, rfl, ?_, ?_, ?_, ?_,
        fun _ => ⟨rfl, rfl⟩, fun hk2 => (by cases hk2), fun hk2 => (by cases hk2)⟩
      · rw [QMenu.labels_eq, hent]; rfl
      · rw [QMenu.labels_eq, hent]; rfl
      · rw [QMenu.trigger_entries menu _ 0 selectionNow hent]; rfl
      · rw [QMenu.trigger_entries menu _ 3 selectionNow hent]; rfl
  | videoGroups x =>
    obtain ⟨model, prev⟩ := x
    cases model with
    | none => simp [Builder.refsSet] at hb
    | some m =>
      refine ⟨menu, m, a.selected.map (fun idx => m.data idx Role.VIDEO_ID),
        some (a.options.get "player-options").toStringList, hnew, rfl, ?_, ?_, ?_, ?_,
        fun _ => ⟨rfl, rfl⟩, fun hk2 => (by cases hk2), fun hk2 => (by cases hk2)⟩
      · rw [QMenu.labels_eq, hent]; rfl
      · rw [QMenu.labels_eq, hent]; rfl
      · rw [QMenu.trigger_entries menu _ 0 selectionNow hent]; rfl
      · rw [QMenu.trigger_entries menu _ 3 selectionNow hent]; rfl
  | videoFolders x =>
    obtain ⟨model, prev⟩ := x
    cases model with
    | none => simp [Builder.refsSet] at hb
    | some m =>
      refine ⟨menu, m, a.selected.map (fun idx => m.data idx Role.FOLDER_ID),
        some (a.options.get "player-options").toStringList, hnew, rfl, ?_, ?_, ?_, ?_,
        fun hk2 => (by rcases hk2 with hk2 | hk2 <;> cases hk2),
        fun _ => ⟨rfl, rfl⟩, fun hk2 => (by cases hk2)⟩
      · rw [QMenu.labels_eq, hent]; rfl
      · rw [QMenu.labels_eq, hent]; rfl
      · rw [QMenu.trigger_entries menu _ 0 selectionNow hent]; rfl
      · rw [QMenu.trigger_entries menu _ 3 selectionNow hent]; rfl
  | playlistMedia x =>
    obtain ⟨model, prev⟩ := x
    cases model with
    | none => simp [Builder.refsSet] at hb
    | some m =>
      refine ⟨menu, m, a.selected.map (fun idx => m.data idx Role.MEDIA_ID),
        none, hnew, rfl, ?_, ?_, ?_, ?_,
        fun hk2 => (by rcases hk2 with hk2 | hk2 <;> cases hk2),
        fun hk2 => (by cases hk2), fun _ => ⟨rfl, rfl⟩⟩
      · rw [QMenu.labels_eq, hent]; rfl
      · rw [QMenu.labels_eq, hent]; rfl
      · rw [QMenu.trigger_entries menu _ 0 selectionNow hent]; rfl
      · rw [QMenu.trigger_entries menu _ 3 selectionNow hent]; rfl
  | album x => simp [Builder.kind] at hk
  | artist x => simp [Builder.kind] at hk
  | genre x => simp [Builder.kind] at hk
  | track x => simp [Builder.kind] at hk
  | url x => simp [Builder.kind] at hk
  | playlistList x => simp [Builder.kind] at hk
  | networkMedia x => simp [Builder.kind] at hk
  | networkDevice x => simp [Builder.kind] at hk
  | playQueue x => simp [Builder.kind] at hk

/-- C8 (witness): the video menu for rows 0 and 1 with player option `--x`: Play as audio
calls addAndPlay on both identifiers with the options `:no-video` and `--x`. -/
theorem C8_play_as_audio_prepends_no_video_witness :
    ∃ menu : QMenu,
      ((Builder.video { m_model := some sampleModel }).popup
          { selected := [{ row := 0 }, { row := 1 }],
            options := { bindings := [("player-options", QVariant.stringList ["--x"])] } }
          {}).2.newest = some menu
      ∧ menu.trigger 3 []
          = [Call.mlAddAndPlay 7 [QVariant.itemId 0, QVariant.itemId 1]
              (some [":no-video", "--x"])] := by
  obtain ⟨menu, m, ids, passed, hnew, hm, _, _, _, h3, hv, _, _⟩ :=
    C8_play_as_audio_prepends_no_video (Builder.video { m_model := some sampleModel })
      { selected := [{ row := 0 }, { row := 1 }],
        options := { bindings := [("player-options", QVariant.stringList ["--x"])] } }
      {} [] rfl (by decide)
  obtain ⟨hids, hpassed⟩ := hv (Or.inl rfl)
  have hmm : sampleModel = m := Option.some.inj hm
  subst hmm
  subst hids
  subst hpassed
  exact ⟨menu, hnew, h3⟩

/-! ## Play-queue menu -/

theorem currentItem_isValid (m : PlaylistListModel) (currentIndex : Int) :
    (PlaylistContextMenu.currentItem m currentIndex).isValid
      = (decide (currentIndex ≥ 0) && (m.itemAt currentIndex).isValid) := by
  unfold PlaylistContextMenu.currentItem
  by_cases hc : currentIndex ≥ 0
  · simp [hc]
  · simp [hc, PlaylistItem.null]

/-- C9: with controller and model set, the actions of the play-queue menu are, in this
order: Play iff a current item is set (current index at least 0 and the item of the
model at that index valid); Stream and Save iff the selected count is positive;
Information and Show Containing Directory... iff a current item is set; Add File...,
Add Directory... and Advanced Open... always; Save Playlist to File... and
Remove Selected iff the selected count is positive; Clear the playlist always.  Their
number is 4, plus 3 when a current item is set, plus 4 when the selected count is
positive. -/
theorem C9_play_queue_actions (ctrl : PlaylistControllerModel) (m : PlaylistListModel)
    (prev : Option MenuPtr) (currentIndex : Int) (pos : QPoint) (h : Heap) :
    ∃ menu : QMenu,
      (PlaylistContextMenu.popup { m_controler := some ctrl, m_model := some m, m_menu := prev }
          currentIndex pos h).2.newest = some menu
      ∧ menu.labels =
          (if currentIndex ≥ 0 ∧ (m.itemAt currentIndex).isValid = true then ["Play"] else [])
          ++ (if m.getSelectedCount > 0 then ["Stream", "Save"] else [])
          ++ (if currentIndex ≥ 0 ∧ (m.itemAt currentIndex).isValid = true
              then ["Information", "Show Containing Directory..."] else [])
          ++ ["Add File...", "Add Directory...", "Advanced Open..."]
          ++ (if m.getSelectedCount > 0
              then ["Save Playlist to File...", "Remove Selected"] else [])
          ++ ["Clear the playlist"]
      ∧ menu.actions.length =
          4 + 3 * (if currentIndex ≥ 0 ∧ (m.itemAt currentIndex).isValid = true then 1 else 0)
            + 4 * (if m.getSelectedCount > 0 then 1 else 0) := by
  have hlabels : labelsOf (PlaylistContextMenu.entries m currentIndex) =
      (if currentIndex ≥ 0 ∧ (m.itemAt currentIndex).isValid = true then ["Play"] else [])
      ++ (if m.getSelectedCount > 0 then ["Stream", "Save"] else [])
      ++ (if currentIndex ≥ 0 ∧ (m.itemAt currentIndex).isValid = true
          then ["Information", "Show Containing Directory..."] else [])
      ++ ["Add File...", "Add Directory...", "Advanced Open..."]
      ++ (if m.getSelectedCount > 0
          then ["Save Playlist to File...", "Remove Selected"] else [])
      ++ ["Clear the playlist"] := by
    rw [playQueue_labels, currentItem_isValid]
    by_cases hc : currentIndex ≥ 0 <;> by_cases hv : (m.itemAt currentIndex).isValid = true <;>
      simp [hc, hv]
  refine ⟨{ entries := PlaylistContextMenu.entries m currentIndex, poppedAt := some pos },
    Heap.newest_new _ _, hlabels, ?_⟩
  have hlen : ({ entries := PlaylistContextMenu.entries m currentIndex,
                 poppedAt := some pos } : QMenu).actions.length
      = (labelsOf (PlaylistContextMenu.entries m currentIndex)).length := by
    rw [labelsOf_length]
    rfl
  rw [hlen, hlabels]
  by_cases hc : currentIndex ≥ 0 ∧ (m.itemAt currentIndex).isValid = true <;>
    by_cases hs : m.getSelectedCount > 0 <;> simp [hc, hs]

/-! ## Generic choice popup -/

theorem stringListActions_get (l : List QVariant) :
    ∀ (k : Int) (i : Nat),
      (actionsOf (stringListActions k l)).get? i =
        (l.get? i).map (fun v =>
          ({ text := v.toQString,
             triggered := Closure.emitSelected (k + (i : Int)) v.toQString } : QAction)) := by
  induction l with
  | nil => intro k i; rfl
  | cons v rest ih =>
    intro k i
    cases i with
    | zero => simp [stringListActions, actionsOf]
    | succ j =>
      simp only [stringListActions, actionsOf, List.get?_cons_succ]
      rw [ih (k + 1) j]
      have hk : k + 1 + (j : Int) = k + ((j + 1 : Nat) : Int) := by push_cast; ring
      rw [hk]

theorem stringListActions_labels (l : List QVariant) :
    ∀ k : Int, labelsOf (stringListActions k l) = l.map QVariant.toQString := by
  induction l with
  | nil => intro k; rfl
  | cons v rest ih =>
    intro k
    have := ih (k + 1)
    simp only [labelsOf] at this ⊢
    simp [stringListActions, actionsOf, this]

theorem stringListActions_length (l : List QVariant) :
    ∀ k : Int, (stringListActions k l).length = l.length := by
  induction l with
  | nil => intro k; rfl
  | cons v rest ih => intro k; simp [stringListActions, ih (k + 1)]

/-- C10: for every sequence of display strings, the menu StringListMenu::popup shows has
exactly one entry per string, each an action, in the order of the sequence and labelled
with the string; triggering the action at position i emits exactly the one signal
selected(i, text of entry i), with i counted from zero; dismissing the menu runs no slot,
so nothing is emitted, and the menu deletes itself on close. -/
theorem C10_string_list_menu (strs : List String) (point : QPoint) (h : Heap) :
    ∃ menu : QMenu,
      (StringListMenu.popup point (strs.map QVariant.string) h).newest = some menu
      ∧ menu.entries.length = strs.length
      ∧ menu.labels = strs
      ∧ (∀ (i : Nat) (str : String) (selectionNow : List Int), strs.get? i = some str →
          menu.trigger i selectionNow = [Call.selected (i : Int) str])
      ∧ menu.dismiss = []
      ∧ menu.deleteOnClose = true := by
  refine ⟨{ entries := stringListActions 0 (strs.map QVariant.string), deleteOnClose := true,
            poppedAt := some point }, Heap.newest_new _ _, ?_, ?_, ?_, rfl, rfl⟩
  · show (stringListActions 0 (strs.map QVariant.string)).length = strs.length
    rw [stringListActions_length, List.length_map]
  · show labelsOf (stringListActions 0 (strs.map QVariant.string)) = strs
    rw [stringListActions_labels, List.map_map]
    have hid : (QVariant.toQString ∘ QVariant.string) = id := by
      funext x
      rfl
    rw [hid, List.map_id]
  · intro i str selectionNow hget
    unfold QMenu.trigger QMenu.actions
    rw [stringListActions_get]
    simp only [List.get?_eq_getElem?, List.getElem?_map] at hget ⊢
    rw [hget]
    simp [Closure.run, QVariant.toQString]

/-- C10 (witness): for the strings `low` and `high`, triggering the second action emits
selected(1, high) once. -/
theorem C10_string_list_menu_witness :
    ∃ menu : QMenu,
      (StringListMenu.popup { x := 3, y := 4 }
          (["low", "high"].map QVariant.string) {}).newest = some menu
      ∧ menu.labels = ["low", "high"]
      ∧ menu.trigger 1 [] = [Call.selected 1 "high"] := by
  obtain ⟨menu, hnew, _, hlabels, htrigger, _, _⟩ :=
    C10_string_list_menu ["low", "high"] { x := 3, y := 4 } {}
  exact ⟨menu, hnew, hlabels, htrigger 1 "high" [] rfl⟩

/-- C2 (witness): on `mixedModel` with all rows selected the toggle is offered and reads
Remove from Media Library. -/
theorem C2_index_toggle_offered_once_with_label_witness :
    ∃ menu : QMenu,
      (NetworkMediaContextMenu.popup { m_model := some mixedModel } mixedSelection
          { x := 0, y := 0 } {}).2.newest = some menu
      ∧ menu.labels = ["Add and play", "Enqueue", "Remove from Media Library"] := by
  obtain ⟨menu, hnew, _, _, _⟩ :=
    C2_index_toggle_offered_once_with_label mixedModel none mixedSelection { x := 0, y := 0 } {}
  have hm : menu = { entries := NetworkMediaContextMenu.entries mixedModel mixedSelection,
                     poppedAt := some { x := 0, y := 0 } } :=
    (Option.some.inj hnew).symm
  subst hm
  exact ⟨_, hnew, by decide⟩

/-! ## Sortable-list popup -/

theorem sortIcon_isSome (assertions : Bool) (order : Int) :
    (sortIcon assertions order).isSome
      = (!assertions || decide (order = AscendingOrder ∨ order = DescendingOrder)) := by
  unfold sortIcon
  cases assertions <;>
    by_cases hv : order = AscendingOrder ∨ order = DescendingOrder <;> simp [hv]

theorem sortIcon_some (assertions : Bool) (order : Int) (icon : SortIndicator)
    (hi : sortIcon assertions order = some icon) :
    icon = if order = AscendingOrder then SortIndicator.SortDown else SortIndicator.SortUp := by
  unfold sortIcon at hi
  split at hi
  · cases hi
  · exact (Option.some.inj hi).symm

theorem sortAction_isSome (assertions : Bool) (i : Int) (obj : QVariantMap) :
    (sortAction assertions i obj).isSome =
      (!tupleChecked obj || (sortIcon assertions (obj.get "order").toInt).isSome) := by
  unfold sortAction
  cases hc : tupleChecked obj with
  | false => simp
  | true =>
    cases hi : sortIcon assertions (obj.get "order").toInt with
    | none => simp
    | some icon => simp

/-- What the loop adds for a tuple: a checkable action in no group, checked exactly when
the tuple is, with an icon exactly when the tuple is checked, emitting its index. -/
theorem sortAction_spec (assertions : Bool) (i : Int) (obj : QVariantMap) (a : SortAction)
    (ha : sortAction assertions i obj = some a) :
    a.text = (obj.get "text").toQString ∧ a.checkable = true
      ∧ a.checked = tupleChecked obj ∧ a.icon.isSome = tupleChecked obj
      ∧ a.actionGroup = none ∧ a.triggered = SortClosure.emitSelected i
      ∧ (tupleChecked obj = true →
          a.icon = sortIcon assertions (obj.get "order").toInt) := by
  unfold sortAction at ha
  cases hc : tupleChecked obj with
  | false =>
    simp only [hc, Bool.false_eq_true, if_false, Option.some.injEq] at ha
    subst ha
    simp
  | true =>
    cases hi : sortIcon assertions (obj.get "order").toInt with
    | none => simp [hc, hi] at ha
    | some icon =>
      simp only [hc, hi, if_true, Option.some.injEq] at ha
      subst ha
      simp

theorem sortEntries_isSome (assertions : Bool) (model : List QVariantMap) :
    ∀ i : Int, (sortEntries assertions i model).isSome
      = model.all (fun obj =>
          !tupleChecked obj || (sortIcon assertions (obj.get "order").toInt).isSome) := by
  induction model with
  | nil => intro i; rfl
  | cons obj rest ih =>
    intro i
    have hrest := ih (i + 1)
    have hact := sortAction_isSome assertions i obj
    unfold sortEntries
    cases ha : sortAction assertions i obj with
    | none =>
      rw [ha] at hact
      simp only [List.all_cons, ← hact]
      rfl
    | some a =>
      rw [ha] at hact
      cases ht : sortEntries assertions (i + 1) rest with
      | none =>
        rw [ht] at hrest
        simp only [List.all_cons, ← hact, ← hrest]
        rfl
      | some tail =>
        rw [ht] at hrest
        simp only [List.all_cons, ← hact, ← hrest]
        rfl

theorem sortEntries_actions (assertions : Bool) (model : List QVariantMap) :
    ∀ (i : Int) (es : List SortEntry), sortEntries assertions i model = some es →
      es.length = model.length
      ∧ es = (sortActionsOf es).map SortEntry.action
      ∧ ∀ j : Nat, (sortActionsOf es).get? j
          = (model.get? j).bind (fun obj => sortAction assertions (i + (j : Int)) obj) := by
  induction model with
  | nil =>
    intro i es hes
    simp only [sortEntries, Option.some.injEq] at hes
    subst hes
    exact ⟨rfl, rfl, fun j => rfl⟩
  | cons obj rest ih =>
    intro i es hes
    unfold sortEntries at hes
    cases ha : sortAction assertions i obj with
    | none => simp [ha] at hes
    | some a =>
      cases ht : sortEntries assertions (i + 1) rest with
      | none => simp [ha, ht] at hes
      | some tail =>
        simp only [ha, ht, Option.some.injEq] at hes
        subst hes
        obtain ⟨hlen, hmap, hget⟩ := ih (i + 1) tail ht
        refine ⟨by simp [hlen], ?_, ?_⟩
        · simp only [sortActionsOf, List.map_cons]
          rw [← hmap]
        · intro j
          cases j with
          | zero => simp [sortActionsOf, ha]
          | succ n =>
            simp only [sortActionsOf, List.get?_cons_succ]
            rw [hget n]
            have hk : i + 1 + (n : Int) = i + ((n + 1 : Nat) : Int) := by push_cast; ring
            rw [hk]

theorem sortActionsOf_append (xs ys : List SortEntry) :
    sortActionsOf (xs ++ ys) = sortActionsOf xs ++ sortActionsOf ys := by
  induction xs with
  | nil => rfl
  | cons e rest ih => cases e <;> simp [sortActionsOf, ih]

theorem sortActionsOf_length (es : List SortEntry)
    (hes : es = (sortActionsOf es).map SortEntry.action) :
    (sortActionsOf es).length = es.length := by
  conv_rhs => rw [hes]
  simp

theorem popupWith_isSome (assertions : Bool) (onPopup : SortQMenu → SortQMenu)
    (point : QPoint) (popupAbovePoint : Bool) (model : List QVariantMap) (height : Int) :
    (SortMenu.popupWith assertions onPopup point popupAbovePoint model height).isSome
      = (sortEntries assertions 0 model).isSome := by
  unfold SortMenu.popupWith
  cases sortEntries assertions 0 model with
  | none => rfl
  | some es => cases popupAbovePoint <;> rfl

theorem popupWith_some (assertions : Bool) (onPopup : SortQMenu → SortQMenu)
    (point : QPoint) (popupAbovePoint : Bool) (model : List QVariantMap) (height : Int)
    (menu : SortQMenu)
    (hm : SortMenu.popupWith assertions onPopup point popupAbovePoint model height
      = some menu) :
    ∃ es, sortEntries assertions 0 model = some es
      ∧ menu.entries = (onPopup { entries := es }).entries
      ∧ menu.actionGroups = (onPopup { entries := es }).actionGroups := by
  unfold SortMenu.popupWith at hm
  cases hes : sortEntries assertions 0 model with
  | none => simp [hes] at hm
  | some es =>
    refine ⟨es, rfl, ?_⟩
    cases popupAbovePoint <;>
      simp only [hes, if_true, Bool.false_eq_true, if_false, Option.some.injEq] at hm <;>
      subst hm <;> exact ⟨rfl, rfl⟩

/-- The success of the loop when exactly the tuple at index `k` is checked: it depends
on the order of that tuple alone. -/
theorem sortEntries_isSome_of_unique (assertions : Bool) (model : List QVariantMap)
    (k : Nat) (obj : QVariantMap) (hk : model.get? k = some obj)
    (hc : tupleChecked obj = true)
    (huniq : ∀ (j : Nat) (o : QVariantMap), model.get? j = some o →
      tupleChecked o = true → j = k) :
    (sortEntries assertions 0 model).isSome
      = (sortIcon assertions (obj.get "order").toInt).isSome := by
  rw [sortEntries_isSome]
  cases hi : (sortIcon assertions (obj.get "order").toInt).isSome with
  | true =>
    rw [List.all_eq_true]
    intro o ho
    obtain ⟨j, hj⟩ := List.get?_of_mem ho
    cases hco : tupleChecked o with
    | false => rfl
    | true =>
      have hjk := huniq j o hj hco
      subst hjk
      rw [hk] at hj
      have : obj = o := Option.some.inj hj
      subst this
      simp [hi]
  | false =>
    cases hall : model.all (fun obj =>
        !tupleChecked obj || (sortIcon assertions (obj.get "order").toInt).isSome) with
    | false => rfl
    | true =>
      rw [List.all_eq_true] at hall
      have hmem : obj ∈ model := List.get?_mem hk
      have := hall obj hmem
      simp [hc, hi] at this

/-- The entries generated from the tuples when exactly the tuple at index `k` is
checked: the action at position `j` is checked iff `j = k`, has an icon iff `j = k`, is
in no group and emits `j`. -/
theorem sort_generated (assertions : Bool) (model : List QVariantMap) (es : List SortEntry)
    (hes : sortEntries assertions 0 model = some es) (k : Nat) (obj : QVariantMap)
    (hk : model.get? k = some obj) (hc : tupleChecked obj = true)
    (huniq : ∀ (j : Nat) (o : QVariantMap), model.get? j = some o →
      tupleChecked o = true → j = k)
    (j : Nat) (a : SortAction) (ha : (sortActionsOf es).get? j = some a) :
    (a.checked = true ↔ j = k) ∧ (a.icon.isSome = true ↔ j = k)
      ∧ a.actionGroup = none ∧ a.triggered = SortClosure.emitSelected (j : Int)
      ∧ j < model.length := by
  obtain ⟨_, _, hget⟩ := sortEntries_actions assertions model 0 es hes
  rw [hget j] at ha
  cases hj : model.get? j with
  | none => rw [hj] at ha; cases ha
  | some o =>
    rw [hj] at ha
    have hact : sortAction assertions (0 + (j : Int)) o = some a := ha
    obtain ⟨_, _, hchk, hicon, hgrp, htr, _⟩ := sortAction_spec assertions _ o a hact
    have hiff : tupleChecked o = true ↔ j = k := by
      constructor
      · exact huniq j o hj
      · intro hjk
        subst hjk
        rw [hk] at hj
        rw [← Option.some.inj hj]
        exact hc
    have hlt : j < model.length := by
      by_contra hge
      rw [List.get?_eq_getElem?, List.getElem?_eq_none (by omega)] at hj
      cases hj
    refine ⟨by rw [hchk]; exact hiff, by rw [hicon]; exact hiff, hgrp, ?_, hlt⟩
    rw [htr, Int.zero_add]

/-- The entry generated from the checked tuple is there: the action at position `k`
exists, is checked, carries the label of the tuple and the icon of its order. -/
theorem sort_generated_at (assertions : Bool) (model : List QVariantMap)
    (es : List SortEntry) (hes : sortEntries assertions 0 model = some es) (k : Nat)
    (obj : QVariantMap) (hk : model.get? k = some obj) (hc : tupleChecked obj = true) :
    ∃ a : SortAction, (sortActionsOf es).get? k = some a
      ∧ a.checked = true
      ∧ a.text = (obj.get "text").toQString
      ∧ a.icon = some (if (obj.get "order").toInt = AscendingOrder
                       then SortIndicator.SortDown else SortIndicator.SortUp)
      ∧ a.triggered = SortClosure.emitSelected (k : Int) := by
  obtain ⟨_, _, hget⟩ := sortEntries_actions assertions model 0 es hes
  have hgk := hget k
  rw [hk] at hgk
  have hsome : (sortAction assertions (0 + (k : Int)) obj).isSome = true := by
    have hall := sortEntries_isSome assertions model 0
    rw [hes] at hall
    have hall2 : model.all (fun obj =>
        !tupleChecked obj || (sortIcon assertions (obj.get "order").toInt).isSome) = true :=
      hall.symm
    rw [List.all_eq_true] at hall2
    rw [sortAction_isSome]
    exact hall2 obj (List.get?_mem hk)
  cases hact : sortAction assertions (0 + (k : Int)) obj with
  | none => rw [hact] at hsome; cases hsome
  | some a =>
    obtain ⟨htext, _, hchk, _, _, htr, hicon⟩ := sortAction_spec assertions _ obj a hact
    refine ⟨a, ?_, by rw [hchk]; exact hc, htext, ?_, by rw [htr, Int.zero_add]⟩
    · rw [hgk]
      exact hact
    · have hi := hicon hc
      cases hs : sortIcon assertions (obj.get "order").toInt with
      | none =>
        rw [hs] at hi
        have hx := (sortAction_spec assertions _ obj a hact).2.2.2.1
        rw [hi, hc] at hx
        cases hx
      | some icon =>
        rw [hs] at hi
        rw [hi, sortIcon_some assertions _ icon hs]

theorem filter_eq_nil_of_get (p : SortAction → Bool) :
    ∀ l : List SortAction, (∀ (j : Nat) (a : SortAction), l.get? j = some a → p a = false) →
      l.filter p = [] := by
  intro l hall
  rw [List.filter_eq_nil_iff]
  intro a ha
  obtain ⟨j, hj⟩ := List.get?_of_mem ha
  rw [hall j a hj]
  exact Bool.false_ne_true

/-- A list in which the element at position `k` exists and is the only one satisfying
`p` has exactly one element satisfying `p`. -/
theorem filter_length_one (p : SortAction → Bool) :
    ∀ (l : List SortAction) (k : Nat), k < l.length →
      (∀ (j : Nat) (a : SortAction), l.get? j = some a → (p a = true ↔ j = k)) →
      (l.filter p).length = 1 := by
  intro l
  induction l with
  | nil => intro k hk; cases hk
  | cons x xs ih =>
    intro k hk hall
    cases k with
    | zero =>
      have hx : p x = true := (hall 0 x rfl).mpr rfl
      have hrest : xs.filter p = [] := by
        apply filter_eq_nil_of_get
        intro j a hj
        cases hp : p a with
        | false => rfl
        | true =>
          have := (hall (j + 1) a hj).mp hp
          cases this
      simp [List.filter_cons, hx, hrest]
    | succ n =>
      have hx : p x = false := by
        cases hp : p x with
        | false => rfl
        | true =>
          have := (hall 0 x rfl).mp hp
          cases this
      have hrec := ih n (Nat.lt_of_succ_lt_succ hk) (fun j a hj => by
        have h1 := hall (j + 1) a hj
        constructor
        · intro hp
          exact Nat.succ_injective (h1.mp hp)
        · intro hjn
          exact h1.mpr (by rw [hjn]))
      simp [List.filter_cons, hx, hrec]

theorem grouping_actions (index : Int) (group : Nat) :
    sortActionsOf (SortMenuVideo.groupingTable.map (SortMenuVideo.groupingAction index group))
      = [ { text := "Do not group videos", checkable := true,
            checked := decide (index = Grouping.GROUPING_NONE.toInt),
            actionGroup := some group,
            triggered := SortClosure.emitGrouping Grouping.GROUPING_NONE },
          { text := "Group by name", checkable := true,
            checked := decide (index = Grouping.GROUPING_NAME.toInt),
            actionGroup := some group,
            triggered := SortClosure.emitGrouping Grouping.GROUPING_NAME },
          { text := "Group by folder", checkable := true,
            checked := decide (index = Grouping.GROUPING_FOLDER.toInt),
            actionGroup := some group,
            triggered := SortClosure.emitGrouping Grouping.GROUPING_FOLDER } ] := rfl

theorem grouping_action_spec (index : Int) (group : Nat) (a : SortAction)
    (ha : a ∈ sortActionsOf
      (SortMenuVideo.groupingTable.map (SortMenuVideo.groupingAction index group))) :
    a.icon = none ∧ a.checkable = true ∧ a.actionGroup = some group
      ∧ ∃ g : Grouping, a.triggered = SortClosure.emitGrouping g
          ∧ a.checked = decide (index = g.toInt) := by
  rw [grouping_actions] at ha
  simp only [List.mem_cons, List.mem_singleton, List.not_mem_nil, or_false] at ha
  rcases ha with h | h | h <;> subst h
  · exact ⟨rfl, rfl, rfl, Grouping.GROUPING_NONE, rfl, rfl⟩
  · exact ⟨rfl, rfl, rfl, Grouping.GROUPING_NAME, rfl, rfl⟩
  · exact ⟨rfl, rfl, rfl, Grouping.GROUPING_FOLDER, rfl, rfl⟩

theorem onPopup_video_actions (ctx : MainCtx) (menu : SortQMenu) :
    sortActionsOf (SortMenuVideo.onPopup (some ctx) menu).entries
      = sortActionsOf menu.entries
        ++ sortActionsOf (SortMenuVideo.groupingTable.map
            (SortMenuVideo.groupingAction ctx.grouping menu.actionGroups)) := by
  simp only [SortMenuVideo.onPopup, sortActionsOf_append]
  have hsep : sortActionsOf [SortEntry.separator] = [] := rfl
  rw [hsep, List.append_nil]

/-- The actions of the menu SortMenuVideo hands to the hook: the generated ones, then the
grouping ones when the context is set. -/
theorem video_actions (m_ctx : Option MainCtx) (es : List SortEntry) :
    sortActionsOf (SortMenuVideo.onPopup m_ctx { entries := es }).entries
      = sortActionsOf es
        ++ (match m_ctx with
            | none => []
            | some ctx => sortActionsOf (SortMenuVideo.groupingTable.map
                (SortMenuVideo.groupingAction ctx.grouping 0))) := by
  cases m_ctx with
  | none => simp [SortMenuVideo.onPopup]
  | some ctx => rw [onPopup_video_actions]

/-- C11 (counterexample): SortMenuVideo with a context whose grouping is by name, on a
tuple list with exactly one checked tuple, builds a menu with two checked entries: the
one generated from the checked tuple and the grouping entry Group by name.  The build
keeps or drops assertions alike. -/
theorem C11_counterexample_video_two_checked :
    sampleSortModel.map tupleChecked = [true, false]
    ∧ ∀ assertions : Bool,
      (SortMenuVideo.popup assertions { m_ctx := some sampleCtx } { x := 0, y := 0 } false
          sampleSortModel 0).map
        (fun v => v.m_menu.map
          (fun menu => (menu.actions.filter SortAction.checked).map SortAction.text))
      = some (some ["Title", "Group by name"]) := by
  decide

/-- C11 (amended): for a tuple list whose tuple at index `k` is checked and is the only
checked one, popup builds a menu, except that a build with assertions aborts in sortIcon
when the order of that tuple is neither ascending nor descending.  The menu SortMenu
builds has one action per tuple and exactly one checked entry and exactly one entry with
a sort-direction icon: the entry at position `k`, which exists, carries the label of
that tuple and the icon of its order.  The menu SortMenuVideo builds starts with one
action per tuple; among these exactly one is checked, the entry at position `k`, and it
is the only entry of the whole menu with a sort-direction icon; the entries after them
are grouping entries, each in an action group and checked exactly when the context
grouping equals its mode. -/
theorem C11_sort_menu_single_checked_generated_entry (assertions : Bool)
    (model : List QVariantMap) (k : Nat)
    (obj : QVariantMap) (hk : model.get? k = some obj) (hc : tupleChecked obj = true)
    (huniq : ∀ (j : Nat) (o : QVariantMap), model.get? j = some o →
      tupleChecked o = true → j = k)
    (point : QPoint) (popupAbovePoint : Bool) (height : Int)
    (self : SortMenu) (video : SortMenuVideo) :
    (SortMenu.popup assertions self point popupAbovePoint model height).isSome
        = (!assertions || decide ((obj.get "order").toInt = AscendingOrder
                                  ∨ (obj.get "order").toInt = DescendingOrder))
    ∧ (SortMenuVideo.popup assertions video point popupAbovePoint model height).isSome
        = (!assertions || decide ((obj.get "order").toInt = AscendingOrder
                                  ∨ (obj.get "order").toInt = DescendingOrder))
    ∧ (∀ self2 : SortMenu,
        SortMenu.popup assertions self point popupAbovePoint model height = some self2 →
        ∃ menu : SortQMenu, self2.m_menu = some menu
          ∧ menu.actions.length = model.length
          ∧ (∃ a : SortAction, menu.actions.get? k = some a
              ∧ a.checked = true
              ∧ a.text = (obj.get "text").toQString
              ∧ a.icon = some (if (obj.get "order").toInt = AscendingOrder
                               then SortIndicator.SortDown else SortIndicator.SortUp))
          ∧ (menu.actions.filter SortAction.checked).length = 1
          ∧ (menu.actions.filter (fun a => a.icon.isSome)).length = 1
          ∧ ∀ (j : Nat) (a : SortAction), menu.actions.get? j = some a →
              (a.checked = true ↔ j = k) ∧ (a.icon.isSome = true ↔ j = k))
    ∧ (∀ video2 : SortMenuVideo,
        SortMenuVideo.popup assertions video point popupAbovePoint model height
          = some video2 →
        ∃ menu : SortQMenu, video2.m_menu = some menu
          ∧ model.length ≤ menu.actions.length
          ∧ (video.m_ctx = none → menu.actions.length = model.length)
          ∧ (∃ a : SortAction, menu.actions.get? k = some a
              ∧ a.checked = true
              ∧ a.text = (obj.get "text").toQString
              ∧ a.icon = some (if (obj.get "order").toInt = AscendingOrder
                               then SortIndicator.SortDown else SortIndicator.SortUp))
          ∧ ((menu.actions.take model.length).filter SortAction.checked).length = 1
          ∧ (menu.actions.filter (fun a => a.icon.isSome)).length = 1
          ∧ ∀ (j : Nat) (a : SortAction), menu.actions.get? j = some a →
              (a.icon.isSome = true ↔ j = k)
              ∧ (j < model.length → (a.checked = true ↔ j = k))
              ∧ (model.length ≤ j →
                  a.actionGroup.isSome = true
                  ∧ ∃ (g : Grouping) (ctx : MainCtx), video.m_ctx = some ctx
                      ∧ a.triggered = SortClosure.emitGrouping g
                      ∧ (a.checked = true ↔ ctx.grouping = g.toInt))) := by
  have hsome := sortEntries_isSome_of_unique assertions model k obj hk hc huniq
  rw [sortIcon_isSome] at hsome
  have hklt : k < model.length := by
    by_contra hge
    rw [List.get?_eq_getElem?, List.getElem?_eq_none (by omega)] at hk
    cases hk
  refine ⟨?_, ?_, ?_, ?_⟩
  · unfold SortMenu.popup
    rw [Option.isSome_map', popupWith_isSome, hsome]
  · unfold SortMenuVideo.popup
    rw [Option.isSome_map', popupWith_isSome, hsome]
  · intro self2 hpop
    unfold SortMenu.popup at hpop
    cases hw : SortMenu.popupWith assertions SortMenu.onPopup point popupAbovePoint model
        height with
    | none => rw [hw] at hpop; cases hpop
    | some m2 =>
      rw [hw] at hpop
      have hs2 : self2 = { m_menu := some m2 } := (Option.some.inj hpop).symm
      subst hs2
      obtain ⟨es, hes, hent, _⟩ := popupWith_some _ _ _ _ _ _ _ hw
      obtain ⟨hlen, hmap, _⟩ := sortEntries_actions assertions model 0 es hes
      have hlen2 : (sortActionsOf es).length = model.length := by
        rw [sortActionsOf_length es hmap, hlen]
      have hacts : m2.actions = sortActionsOf es := by
        unfold SortQMenu.actions
        rw [hent]
        rfl
      have hpoint : ∀ (j : Nat) (a : SortAction), (sortActionsOf es).get? j = some a →
          (a.checked = true ↔ j = k) ∧ (a.icon.isSome = true ↔ j = k) := by
        intro j a ha
        obtain ⟨h1, h2, _, _, _⟩ :=
          sort_generated assertions model es hes k obj hk hc huniq j a ha
        exact ⟨h1, h2⟩
      obtain ⟨a, hak, hachk, hatext, haicon, _⟩ :=
        sort_generated_at assertions model es hes k obj hk hc
      refine ⟨m2, rfl, ?_⟩
      rw [hacts]
      refine ⟨hlen2, ⟨a, hak, hachk, hatext, haicon⟩, ?_, ?_, hpoint⟩
      · exact filter_length_one SortAction.checked _ k (by omega)
          (fun j b hb => (hpoint j b hb).1)
      · exact filter_length_one (fun a => a.icon.isSome) _ k (by omega)
          (fun j b hb => (hpoint j b hb).2)
  · intro video2 hpop
    unfold SortMenuVideo.popup at hpop
    cases hw : SortMenu.popupWith assertions (SortMenuVideo.onPopup video.m_ctx) point
        popupAbovePoint model height with
    | none => rw [hw] at hpop; cases hpop
    | some m2 =>
      rw [hw] at hpop
      have hs2 : video2 = { video with m_menu := some m2 } := (Option.some.inj hpop).symm
      subst hs2
      obtain ⟨es, hes, hent, _⟩ := popupWith_some _ _ _ _ _ _ _ hw
      obtain ⟨hlen, hmap, _⟩ := sortEntries_actions assertions model 0 es hes
      have hlen2 : (sortActionsOf es).length = model.length := by
        rw [sortActionsOf_length es hmap, hlen]
      have hpoint : ∀ (j : Nat) (a : SortAction), (sortActionsOf es).get? j = some a →
          (a.checked = true ↔ j = k) ∧ (a.icon.isSome = true ↔ j = k) := by
        intro j a ha
        obtain ⟨h1, h2, _, _, _⟩ :=
          sort_generated assertions model es hes k obj hk hc huniq j a ha
        exact ⟨h1, h2⟩
      obtain ⟨a, hak, hachk, hatext, haicon, _⟩ :=
        sort_generated_at assertions model es hes k obj hk hc
      have hacts : m2.actions = sortActionsOf es
          ++ (match video.m_ctx with
              | none => []
              | some ctx => sortActionsOf (SortMenuVideo.groupingTable.map
                  (SortMenuVideo.groupingAction ctx.grouping 0))) := by
        unfold SortQMenu.actions
        rw [hent, video_actions]
      have hextra : ∀ b : SortAction,
          b ∈ (match video.m_ctx with
              | none => []
              | some ctx => sortActionsOf (SortMenuVideo.groupingTable.map
                  (SortMenuVideo.groupingAction ctx.grouping 0))) →
          b.icon = none ∧ b.actionGroup.isSome = true
            ∧ ∃ (g : Grouping) (ctx : MainCtx), video.m_ctx = some ctx
                ∧ b.triggered = SortClosure.emitGrouping g
                ∧ (b.checked = true ↔ ctx.grouping = g.toInt) := by
        intro b hb
        cases hctx : video.m_ctx with
        | none => rw [hctx] at hb; cases hb
        | some ctx =>
          rw [hctx] at hb
          obtain ⟨hicon, _, hgrp, g, htr, hchk⟩ := grouping_action_spec _ _ b hb
          refine ⟨hicon, by rw [hgrp]; rfl, g, ctx, rfl, htr, ?_⟩
          rw [hchk]
          exact decide_eq_true_iff
      refine ⟨m2, rfl, ?_⟩
      rw [hacts]
      refine ⟨?_, ?_, ⟨a, ?_, hachk, hatext, haicon⟩, ?_, ?_, ?_⟩
      · rw [List.length_append]
        omega
      · intro hnone
        rw [hnone]
        simp [hlen2]
      · rw [List.get?_eq_getElem?, List.getElem?_append_left (by omega),
          ← List.get?_eq_getElem?]
        exact hak
      · rw [List.take_left' hlen2]
        exact filter_length_one SortAction.checked _ k (by omega)
          (fun j b hb => (hpoint j b hb).1)
      · rw [List.filter_append, List.length_append]
        have h1 := filter_length_one (fun a => a.icon.isSome) _ k
          (by omega : k < (sortActionsOf es).length) (fun j b hb => (hpoint j b hb).2)
        have h2 : List.filter (fun a => a.icon.isSome)
            (match video.m_ctx with
              | none => []
              | some ctx => sortActionsOf (SortMenuVideo.groupingTable.map
                  (SortMenuVideo.groupingAction ctx.grouping 0))) = [] := by
          rw [List.filter_eq_nil_iff]
          intro b hb
          rw [(hextra b hb).1]
          exact Bool.false_ne_true
        rw [h1, h2]
        rfl
      · intro j b hb
        rw [List.get?_eq_getElem?] at hb
        by_cases hj : j < (sortActionsOf es).length
        · rw [List.getElem?_append_left hj, ← List.get?_eq_getElem?] at hb
          obtain ⟨h1, h2⟩ := hpoint j b hb
          exact ⟨h2, fun _ => h1, fun hge => absurd hj (by omega)⟩
        · rw [List.getElem?_append_right (by omega)] at hb
          obtain ⟨hicon, hgrp, hrest⟩ := hextra b (List.getElem?_mem hb)
          have hjk : j ≠ k := by omega
          refine ⟨?_, fun hlt => absurd hlt (by omega), fun _ => ⟨hgrp, hrest⟩⟩
          rw [hicon]
          constructor
          · intro h; cases h
          · intro h; exact absurd h hjk

theorem sampleSortModel_unique (j : Nat) (o : QVariantMap)
    (hj : sampleSortModel.get? j = some o) (hco : tupleChecked o = true) : j = 0 := by
  rcases j with _ | _ | j
  · rfl
  · have ho : o = { bindings := [("text", QVariant.string "Duration"),
                                 ("checked", QVariant.bool false)] } :=
      (Option.some.inj hj).symm
    subst ho
    revert hco
    decide
  · cases hj

/-- C11 (witness): on `sampleSortModel`, whose first tuple is the only checked one, a
build with assertions builds the menu of SortMenu with two entries, of which the first,
and no other, is checked and carries an icon.  An order given as the string 1 reads as
descending.  On the order 5 a build with assertions builds no menu, and a build without
them builds the menu with the icon of the descending order. -/
theorem C11_sort_menu_single_checked_generated_entry_witness :
    sampleSortModel.get? 0
        = some { bindings := [("text", QVariant.string "Title"),
                              ("checked", QVariant.bool true), ("order", QVariant.int 0)] }
    ∧ (SortMenu.popup true {} { x := 0, y := 0 } false sampleSortModel 0).map
        (fun s => s.m_menu.map (fun menu => menu.actions.map SortAction.text))
        = some (some ["Title", "Duration"])
    ∧ (SortMenu.popup true {} { x := 0, y := 0 } false
          [{ bindings := [("text", QVariant.string "Title"), ("checked", QVariant.bool true),
                          ("order", QVariant.string "1")] }] 0).map
        (fun s => s.m_menu.map (fun menu => menu.actions.map SortAction.icon))
        = some (some [some SortIndicator.SortUp])
    ∧ SortMenu.popup true {} { x := 0, y := 0 } false
          [{ bindings := [("text", QVariant.string "Title"), ("checked", QVariant.bool true),
                          ("order", QVariant.int 5)] }] 0 = none
    ∧ (SortMenu.popup false {} { x := 0, y := 0 } false
          [{ bindings := [("text", QVariant.string "Title"), ("checked", QVariant.bool true),
                          ("order", QVariant.int 5)] }] 0).map
        (fun s => s.m_menu.map (fun menu => menu.actions.map SortAction.icon))
        = some (some [some SortIndicator.SortUp])
    ∧ ∀ self2 : SortMenu,
        SortMenu.popup true {} { x := 0, y := 0 } false sampleSortModel 0 = some self2 →
        ∃ menu : SortQMenu, self2.m_menu = some menu
          ∧ menu.actions.length = sampleSortModel.length
          ∧ (∃ a : SortAction, menu.actions.get? 0 = some a
              ∧ a.checked = true
              ∧ a.text = "Title"
              ∧ a.icon = some SortIndicator.SortDown)
          ∧ (menu.actions.filter SortAction.checked).length = 1
          ∧ (menu.actions.filter (fun a => a.icon.isSome)).length = 1
          ∧ ∀ (j : Nat) (a : SortAction), menu.actions.get? j = some a →
              (a.checked = true ↔ j = 0) ∧ (a.icon.isSome = true ↔ j = 0) :=
  ⟨rfl, by decide, by decide, by decide, by decide,
   (C11_sort_menu_single_checked_generated_entry true sampleSortModel 0
      { bindings := [("text", QVariant.string "Title"), ("checked", QVariant.bool true),
                     ("order", QVariant.int 0)] }
      rfl (by decide) sampleSortModel_unique { x := 0, y := 0 } false 0 {} {}).2.2.1⟩

/-- C14: when the context is set, SortMenuVideo::onPopup appends to the entries the menu
already has (the generated sort entries) a separator and then exactly three entries, Do
not group videos, Group by name and Group by folder, in this order; each is checkable
and in the one action group created for the menu, which no sort entry is in; an entry is
checked exactly when the context grouping equals its mode, so at most one is and none is
when the grouping is none of the three modes; triggering an entry emits grouping with
its mode.  When the context is null, onPopup leaves the menu as it is. -/
theorem C14_grouping_entries_appended (ctx : MainCtx) (menu : SortQMenu)
    (video : SortMenuVideo) (point : QPoint) (popupAbovePoint : Bool)
    (model : List QVariantMap) (height : Int) (assertions : Bool) :
    (SortMenuVideo.onPopup (some ctx) menu).entries
        = menu.entries ++
          [ SortEntry.separator,
            SortEntry.action
              { text := "Do not group videos", checkable := true,
                checked := decide (ctx.grouping = Grouping.GROUPING_NONE.toInt),
                actionGroup := some menu.actionGroups,
                triggered := SortClosure.emitGrouping Grouping.GROUPING_NONE },
            SortEntry.action
              { text := "Group by name", checkable := true,
                checked := decide (ctx.grouping = Grouping.GROUPING_NAME.toInt),
                actionGroup := some menu.actionGroups,
                triggered := SortClosure.emitGrouping Grouping.GROUPING_NAME },
            SortEntry.action
              { text := "Group by folder", checkable := true,
                checked := decide (ctx.grouping = Grouping.GROUPING_FOLDER.toInt),
                actionGroup := some menu.actionGroups,
                triggered := SortClosure.emitGrouping Grouping.GROUPING_FOLDER } ]
    ∧ (SortMenuVideo.onPopup (some ctx) menu).actionGroups = menu.actionGroups + 1
    ∧ (∀ g : Grouping, (SortClosure.emitGrouping g).run = [SortSignal.grouping g])
    ∧ (∀ g1 g2 : Grouping, ctx.grouping = g1.toInt → ctx.grouping = g2.toInt → g1 = g2)
    ∧ SortMenuVideo.onPopup none menu = menu
    ∧ (∀ (video2 : SortMenuVideo) (built : SortQMenu),
        SortMenuVideo.popup assertions video point popupAbovePoint model height = some video2 →
        video2.m_menu = some built →
        ∃ es : List SortEntry, sortEntries assertions 0 model = some es
          ∧ es.length = model.length
          ∧ (∀ a ∈ sortActionsOf es, a.actionGroup = none)
          ∧ built.entries = (SortMenuVideo.onPopup video.m_ctx { entries := es }).entries
          ∧ (video.m_ctx = none → built.entries = es)) := by
  refine ⟨?_, rfl, fun g => rfl, ?_, rfl, ?_⟩
  · simp [SortMenuVideo.onPopup, SortMenuVideo.groupingTable, SortMenuVideo.groupingAction]
  · intro g1 g2 h1 h2
    rw [h1] at h2
    cases g1 <;> cases g2 <;> first | rfl | (exfalso; revert h2; decide)
  · intro video2 built hpop hbuilt
    unfold SortMenuVideo.popup at hpop
    cases hw : SortMenu.popupWith assertions (SortMenuVideo.onPopup video.m_ctx) point
        popupAbovePoint model height with
    | none => rw [hw] at hpop; cases hpop
    | some m2 =>
      rw [hw] at hpop
      have hs2 : video2 = { video with m_menu := some m2 } := (Option.some.inj hpop).symm
      subst hs2
      have hmm : m2 = built := Option.some.inj hbuilt
      subst hmm
      obtain ⟨es, hes, hent, _⟩ := popupWith_some _ _ _ _ _ _ _ hw
      obtain ⟨hlen, _, hget⟩ := sortEntries_actions assertions model 0 es hes
      refine ⟨es, hes, hlen, ?_, hent, ?_⟩
      · intro a ha
        obtain ⟨j, hj⟩ := List.get?_of_mem ha
        rw [hget j] at hj
        cases hmj : model.get? j with
        | none => rw [hmj] at hj; cases hj
        | some o =>
          rw [hmj] at hj
          have hact : sortAction assertions (0 + (j : Int)) o = some a := hj
          exact (sortAction_spec assertions _ o a hact).2.2.2.2.1
      · intro hnone
        rw [hent, hnone]
        rfl

/-- C14 (witness): SortMenuVideo with `sampleCtx` (grouping by name) on `sampleSortModel`
builds the two sort entries, a separator and the three grouping entries, of which Group
by name is the checked one. -/
theorem C14_grouping_entries_appended_witness :
    ∃ built : SortQMenu,
      (SortMenuVideo.popup true { m_ctx := some sampleCtx } { x := 0, y := 0 } false
          sampleSortModel 0).map (fun v => v.m_menu) = some (some built)
      ∧ built.actions.map SortAction.text
          = ["Title", "Duration", "Do not group videos", "Group by name", "Group by folder"]
      ∧ built.actions.map SortAction.checked = [true, false, false, true, false]
      ∧ (SortMenuVideo.onPopup (some sampleCtx) {}).actionGroups = 1 :=
  ⟨(SortMenuVideo.onPopup (some sampleCtx)
      { entries := [ SortEntry.action { text := "Title", checkable := true, checked := true,
                                        icon := some SortIndicator.SortDown,
                                        triggered := SortClosure.emitSelected 0 },
                     SortEntry.action { text := "Duration", checkable := true,
                                        triggered := SortClosure.emitSelected 1 } ],
        popups := [{ x := 0, y := 0 }] }),
   by decide, by decide, by decide,
   (C14_grouping_entries_appended sampleCtx {} {} { x := 0, y := 0 } false [] 0 true).2.1⟩

/-! ## Bookmark menu: sections over time -/

theorem sectionVisible_set_same (title : String) (v : Bool) (es : List Entry) :
    sectionVisible title (setSectionVisible title v es)
      = (sectionVisible title es).map (fun _ => v) := by
  induction es with
  | nil => rfl
  | cons e rest ih =>
    cases e with
    | sectionHeader t w =>
      by_cases ht : t = title
      · simp [setSectionVisible, sectionVisible, ht]
      · simp [setSectionVisible, sectionVisible, ht, ih]
    | action a => simpa [setSectionVisible, sectionVisible] using ih
    | separator => simpa [setSectionVisible, sectionVisible] using ih
    | submenu t f => simpa [setSectionVisible, sectionVisible] using ih
    | listHelper l => simpa [setSectionVisible, sectionVisible] using ih

theorem sectionVisible_set_other (title other : String) (v : Bool) (es : List Entry)
    (hne : title ≠ other) :
    sectionVisible other (setSectionVisible title v es) = sectionVisible other es := by
  induction es with
  | nil => rfl
  | cons e rest ih =>
    cases e with
    | sectionHeader t w =>
      by_cases ht : t = title
      · have hto : ¬ t = other := by rw [ht]; exact hne
        simp [setSectionVisible, sectionVisible, ht, hto, hne, ih]
      · by_cases hto : t = other
        · subst hto
          simp [setSectionVisible, sectionVisible, ht]
        · simp [setSectionVisible, sectionVisible, ht, hto, ih]
    | action a => simpa [setSectionVisible, sectionVisible] using ih
    | separator => simpa [setSectionVisible, sectionVisible] using ih
    | submenu t f => simpa [setSectionVisible, sectionVisible] using ih
    | listHelper l => simpa [setSectionVisible, sectionVisible] using ih

theorem bookmark_sections_step (s : BookmarkMenuState) (source : ListSource) (count : Int)
    (ht : sectionVisible "Titles" s.menu.entries = some (s.lists.titles != 0))
    (hc : sectionVisible "Chapters" s.menu.entries = some (s.lists.chapters != 0))
    (hb : sectionVisible "Bookmarks" s.menu.entries = some true) :
    sectionVisible "Titles" (s.rowCountChanged source count).menu.entries
        = some ((s.rowCountChanged source count).lists.titles != 0)
    ∧ sectionVisible "Chapters" (s.rowCountChanged source count).menu.entries
        = some ((s.rowCountChanged source count).lists.chapters != 0)
    ∧ sectionVisible "Bookmarks" (s.rowCountChanged source count).menu.entries
        = some true := by
  cases source with
  | titles =>
    simp only [BookmarkMenuState.rowCountChanged, QmlBookmarkMenu.onCountChanged]
    rw [sectionVisible_set_same, sectionVisible_set_other _ _ _ _ (by decide),
      sectionVisible_set_other _ _ _ _ (by decide), ht, hc, hb]
    exact ⟨rfl, rfl, rfl⟩
  | chapters =>
    simp only [BookmarkMenuState.rowCountChanged, QmlBookmarkMenu.onCountChanged]
    rw [sectionVisible_set_same, sectionVisible_set_other _ _ _ _ (by decide),
      sectionVisible_set_other _ _ _ _ (by decide), ht, hc, hb]
    exact ⟨rfl, rfl, rfl⟩
  | bookmarks => exact ⟨ht, hc, hb⟩

theorem bookmark_sections_run (events : List (ListSource × Int)) :
    ∀ s : BookmarkMenuState,
      sectionVisible "Titles" s.menu.entries = some (s.lists.titles != 0) →
      sectionVisible "Chapters" s.menu.entries = some (s.lists.chapters != 0) →
      sectionVisible "Bookmarks" s.menu.entries = some true →
      sectionVisible "Titles" (s.run events).menu.entries
          = some ((s.run events).lists.titles != 0)
      ∧ sectionVisible "Chapters" (s.run events).menu.entries
          = some ((s.run events).lists.chapters != 0)
      ∧ sectionVisible "Bookmarks" (s.run events).menu.entries = some true := by
  induction events with
  | nil => intro s ht hc hb; exact ⟨ht, hc, hb⟩
  | cons ev rest ih =>
    intro s ht hc hb
    obtain ⟨source, count⟩ := ev
    obtain ⟨ht2, hc2, hb2⟩ := bookmark_sections_step s source count ht hc hb
    exact ih (s.rowCountChanged source count) ht2 hc2 hb2

/-- C12 (counterexample): a bookmark menu built while the bookmark list is empty, and
told once more that the list has no rows, shows its Bookmarks section. -/
theorem C12_counterexample_bookmarks_section_always_visible :
    ∃ menu : QMenu,
      (QmlBookmarkMenu.popup
          { m_ctx := some sampleCtx,
            m_player := some { titlesRowCount := 2, chaptersRowCount := 3 } }
          { x := 0, y := 0 } {}).2.newest = some menu
      ∧ ((BookmarkMenuState.atPopup menu { titlesRowCount := 2, chaptersRowCount := 3 } 0).run
            [(ListSource.bookmarks, 0)]).lists.bookmarks = 0
      ∧ sectionVisible "Bookmarks"
          ((BookmarkMenuState.atPopup menu { titlesRowCount := 2, chaptersRowCount := 3 } 0).run
            [(ListSource.bookmarks, 0)]).menu.entries = some true :=
  ⟨_, rfl, rfl, by decide⟩

/-- C12 (amended): at construction and after every sequence of row-count changes of the
three lists, the Titles section is visible iff the title list is non-empty and the
Chapters section is visible iff the chapter list is non-empty; the Bookmarks section is
visible at all times, whatever the bookmark list holds. -/
theorem C12_title_and_chapter_sections_follow_lists (ctx : MainCtx)
    (player : PlayerController) (prev : Option MenuPtr) (pos : QPoint) (h : Heap)
    (bookmarks0 : Int) (events : List (ListSource × Int)) :
    ∃ menu : QMenu,
      (QmlBookmarkMenu.popup { m_ctx := some ctx, m_player := some player, m_menu := prev }
          pos h).2.newest = some menu
      ∧ sectionVisible "Titles"
          ((BookmarkMenuState.atPopup menu player bookmarks0).run events).menu.entries
        = some (((BookmarkMenuState.atPopup menu player bookmarks0).run events).lists.titles
                  != 0)
      ∧ sectionVisible "Chapters"
          ((BookmarkMenuState.atPopup menu player bookmarks0).run events).menu.entries
        = some (((BookmarkMenuState.atPopup menu player bookmarks0).run events).lists.chapters
                  != 0)
      ∧ sectionVisible "Bookmarks"
          ((BookmarkMenuState.atPopup menu player bookmarks0).run events).menu.entries
        = some true := by
  refine ⟨_, Heap.newest_new _ _, ?_⟩
  exact bookmark_sections_run events _ rfl rfl rfl

/-! ## Menu bar: hover and the closed notification -/

theorem Heap.find_new (h : Heap) (menu : QMenu) (hwf : h.WellFormed) :
    (h.new menu).2.find h.next = some menu := by
  unfold Heap.find Heap.new
  simp only [List.find?_append]
  have hnone : List.find? (fun e : MenuPtr × QMenu => e.1 == h.next) h.live = none := by
    rw [List.find?_eq_none]
    intro e he
    have hlt : e.1 < h.next := hwf e he
    have hne : e.1 ≠ h.next := Nat.ne_of_lt hlt
    simpa using hne
  rw [hnone]
  simp

theorem Heap.deleteIfSet_wellFormed (h : Heap) (p : Option MenuPtr) (hwf : h.WellFormed) :
    (h.deleteIfSet p).WellFormed ∧ (h.deleteIfSet p).next = h.next := by
  cases p with
  | none => exact ⟨hwf, rfl⟩
  | some q =>
    refine ⟨?_, rfl⟩
    intro e he
    have hmem : e ∈ h.live := (List.mem_filter.mp he).1
    exact hwf e hmem

theorem Heap.new_wellFormed (h : Heap) (menu : QMenu) (hwf : h.WellFormed) :
    (h.new menu).2.WellFormed := by
  intro e he
  have hmem : e ∈ h.live ++ [(h.next, menu)] := he
  rw [List.mem_append] at hmem
  show e.1 < h.next + 1
  rcases hmem with h1 | h2
  · exact Nat.lt_succ_of_lt (hwf e h1)
  · rw [List.mem_singleton.mp h2]
    exact Nat.lt_succ_self _

theorem popupSucceeds_iff (bar : QmlMenuBar) (button : Option QQuickItem) :
    bar.popupSucceeds button = true ↔
      (∃ ctx : MainCtx, bar.m_ctx = some ctx ∧ ctx.getIntf.isSome = true)
        ∧ bar.m_menubar.isSome = true ∧ button.isSome = true := by
  obtain ⟨c, mb, btn, flag, mp⟩ := bar
  cases c <;> cases mb <;> cases button <;> simp [QmlMenuBar.popupSucceeds]

theorem popupMenuCommon_fails (bar : QmlMenuBar) (button : Option QQuickItem)
    (f : MenuFactory) (h : Heap) (hs : bar.popupSucceeds button = false) :
    bar.popupMenuCommon button f h = (bar, h) := by
  obtain ⟨c, mb, btn, flag, mp⟩ := bar
  cases c with
  | none => rfl
  | some ctx =>
    cases mb with
    | none => rfl
    | some bar2 =>
      cases button with
      | none => rfl
      | some b =>
        cases hi : ctx.getIntf with
        | none => simp only [QmlMenuBar.popupMenuCommon, hi]
        | some intf => simp [QmlMenuBar.popupSucceeds, hi] at hs

theorem popupMenuCommon_succeeds (bar : QmlMenuBar) (button : Option QQuickItem)
    (f : MenuFactory) (h : Heap) (hs : bar.popupSucceeds button = true) :
    ∃ (b : QQuickItem) (menu : QMenu), button = some b
      ∧ menu.onAboutToHide = [Slot.onMenuClosed]
      ∧ menu.poppedAt = some { x := b.x, y := b.y + b.height }
      ∧ bar.popupMenuCommon button f h
          = ({ bar with m_menu := some h.next, m_button := some b,
                        m_openMenuOnHover := false },
             ((h.deleteIfSet bar.m_menu).new menu).2) := by
  obtain ⟨c, mb, btn, flag, mp⟩ := bar
  cases c with
  | none => simp [QmlMenuBar.popupSucceeds] at hs
  | some ctx =>
    cases mb with
    | none => simp [QmlMenuBar.popupSucceeds] at hs
    | some bar2 =>
      cases button with
      | none => simp [QmlMenuBar.popupSucceeds] at hs
      | some b =>
        cases hi : ctx.getIntf with
        | none => simp [QmlMenuBar.popupSucceeds, hi] at hs
        | some intf =>
          refine ⟨b, { filledBy := some f, onAboutToHide := [Slot.onMenuClosed],
                       poppedAt := some (b.mapToGlobal { x := 0, y := b.height }) },
            rfl, rfl, ?_, ?_⟩
          · simp [QQuickItem.mapToGlobal]
          · simp only [QmlMenuBar.popupMenuCommon, hi]
            cases mp <;> rfl

theorem hideMenu_eq (s : MenuBarState) (menu : QMenu)
    (hfind : s.bar.m_menu.bind s.heap.find = some menu)
    (hslots : menu.onAboutToHide = [Slot.onMenuClosed]) :
    s.hideMenu = { s with menuVisible := false,
                          menuClosed := s.bar.onMenuClosed s.menuClosed } := by
  unfold MenuBarState.hideMenu
  rw [hfind]
  simp only [hslots, List.foldl_cons, List.foldl_nil]

theorem mouseMoveEvent_eq (s : MenuBarState) (pos : QPoint) (menu : QMenu)
    (hfind : s.bar.m_menu.bind s.heap.find = some menu)
    (hslots : menu.onAboutToHide = [Slot.onMenuClosed]) :
    s.mouseMoveEvent pos =
      if QmlMenuBarMenu.hoversOtherButton s.bar s.heap pos = some true then
        { s with bar := { s.bar with m_openMenuOnHover := true }, menuVisible := false }
      else s := by
  unfold MenuBarState.mouseMoveEvent
  cases hh : QmlMenuBarMenu.hoversOtherButton s.bar s.heap pos with
  | none => simp
  | some c =>
    cases c with
    | false => simp
    | true =>
      simp only [if_true]
      have hfind2 : ({ s with bar := { s.bar with m_openMenuOnHover := true } }
          : MenuBarState).bar.m_menu.bind
          ({ s with bar := { s.bar with m_openMenuOnHover := true } } : MenuBarState).heap.find
            = some menu := hfind
      rw [hideMenu_eq _ menu hfind2 hslots]
      simp [QmlMenuBar.onMenuClosed]

/-- The hover condition in coordinates: for a menu popped up at the lower left corner
of the button, it holds exactly when the pointer is within the rectangle of the bar and
not within the rectangle of the button. -/
theorem hoversOtherButton_iff (bar : QmlMenuBar) (h : Heap) (pos : QPoint) (menu : QMenu)
    (mb b : QQuickItem) (hfind : bar.m_menu.bind h.find = some menu)
    (hmb : bar.m_menubar = some mb) (hb : bar.m_button = some b)
    (hpop : menu.poppedAt = some { x := b.x, y := b.y + b.height }) :
    QmlMenuBarMenu.hoversOtherButton bar h pos = some true ↔
      ((mb.x ≤ b.x + pos.x ∧ b.x + pos.x ≤ mb.x + mb.width
          ∧ mb.y ≤ b.y + b.height + pos.y ∧ b.y + b.height + pos.y ≤ mb.y + mb.height)
        ∧ ¬ (b.x ≤ b.x + pos.x ∧ b.x + pos.x ≤ b.x + b.width
          ∧ b.y ≤ b.y + b.height + pos.y ∧ b.y + b.height + pos.y ≤ b.y + b.height)) := by
  unfold QmlMenuBarMenu.hoversOtherButton
  rw [hfind, hmb, hb]
  simp only [QMenu.mapToGlobal, hpop, QQuickItem.contains, QQuickItem.mapFromGlobal,
    Option.some.injEq, Bool.and_eq_true, Bool.not_eq_true', decide_eq_true_eq]
  constructor
  · rintro ⟨⟨⟨⟨h1, h2⟩, h3⟩, h4⟩, h5⟩
    refine ⟨⟨by omega, by omega, by omega, by omega⟩, ?_⟩
    rintro ⟨k1, k2, k3, k4⟩
    have : (decide (0 ≤ b.x + pos.x - b.x) && decide (b.x + pos.x - b.x ≤ b.width)
        && decide (0 ≤ b.y + b.height + pos.y - b.y)
        && decide (b.y + b.height + pos.y - b.y ≤ b.height)) = true := by
      simp only [Bool.and_eq_true, decide_eq_true_eq]
      exact ⟨⟨⟨by omega, by omega⟩, by omega⟩, by omega⟩
    rw [this] at h5
    cases h5
  · rintro ⟨⟨h1, h2, h3, h4⟩, hn⟩
    refine ⟨⟨⟨⟨by omega, by omega⟩, by omega⟩, by omega⟩, ?_⟩
    cases hc : (decide (0 ≤ b.x + pos.x - b.x) && decide (b.x + pos.x - b.x ≤ b.width)
        && decide (0 ≤ b.y + b.height + pos.y - b.y)
        && decide (b.y + b.height + pos.y - b.y ≤ b.height)) with
    | false => rfl
    | true =>
      simp only [Bool.and_eq_true, decide_eq_true_eq] at hc
      obtain ⟨⟨⟨k1, k2⟩, k3⟩, k4⟩ := hc
      exact absurd ⟨by omega, by omega, by omega, by omega⟩ hn

theorem MenuBarState.step_ok (s : MenuBarState) (e : MenuBarEvent) (hok : s.Ok) :
    (s.step e).Ok := by
  obtain ⟨hwf, hvis⟩ := hok
  cases e with
  | popup button f =>
    cases hs : s.bar.popupSucceeds button with
    | false =>
      have hfail := popupMenuCommon_fails s.bar button f s.heap hs
      simp only [MenuBarState.step, hfail, hs, Bool.false_or]
      exact ⟨hwf, hvis⟩
    | true =>
      obtain ⟨b, menu, _, hslots, hpop, heq⟩ :=
        popupMenuCommon_succeeds s.bar button f s.heap hs
      obtain ⟨hwf1, hnext⟩ := Heap.deleteIfSet_wellFormed s.heap s.bar.m_menu hwf
      have hmb : s.bar.m_menubar.isSome = true := ((popupSucceeds_iff _ _).mp hs).2.1
      simp only [MenuBarState.step, heq, hs, Bool.true_or]
      refine ⟨Heap.new_wellFormed _ _ hwf1,
        fun _ => ⟨rfl, menu, b, ?_, hslots, rfl, hpop, hmb⟩⟩
      show ((s.heap.deleteIfSet s.bar.m_menu).new menu).2.find s.heap.next = some menu
      rw [← hnext]
      exact Heap.find_new _ _ hwf1
  | mouseMove pos =>
    cases hv : s.menuVisible with
    | false =>
      simp only [MenuBarState.step, hv, Bool.false_eq_true, if_false]
      exact ⟨hwf, fun h => by rw [hv] at h; cases h⟩
    | true =>
      obtain ⟨_, menu, b, hfind, hslots, _⟩ := hvis hv
      simp only [MenuBarState.step, hv, if_true]
      rw [mouseMoveEvent_eq s pos menu hfind hslots]
      by_cases hh : QmlMenuBarMenu.hoversOtherButton s.bar s.heap pos = some true
      · rw [if_pos hh]
        exact ⟨hwf, fun h => by cases h⟩
      · rw [if_neg hh]
        exact ⟨hwf, hvis⟩
  | hide =>
    cases hv : s.menuVisible with
    | false =>
      simp only [MenuBarState.step, hv, Bool.false_eq_true, if_false]
      exact ⟨hwf, fun h => by rw [hv] at h; cases h⟩
    | true =>
      obtain ⟨_, menu, b, hfind, hslots, _⟩ := hvis hv
      simp only [MenuBarState.step, hv, if_true]
      rw [hideMenu_eq s menu hfind hslots]
      exact ⟨hwf, fun h => by cases h⟩

theorem MenuBarState.run_ok (events : List MenuBarEvent) :
    ∀ s : MenuBarState, s.Ok → (s.run events).Ok := by
  induction events with
  | nil => intro s hok; exact hok
  | cons e rest ih => intro s hok; exact ih (s.step e) (MenuBarState.step_ok s e hok)

/-- No event changes the bar item or the context the menu bar was given. -/
theorem MenuBarState.step_refs (s : MenuBarState) (e : MenuBarEvent) :
    (s.step e).bar.m_menubar = s.bar.m_menubar ∧ (s.step e).bar.m_ctx = s.bar.m_ctx := by
  cases e with
  | popup button f =>
    cases hs : s.bar.popupSucceeds button with
    | false =>
      have hfail := popupMenuCommon_fails s.bar button f s.heap hs
      simp [MenuBarState.step, hfail]
    | true =>
      obtain ⟨b, menu, _, _, _, heq⟩ := popupMenuCommon_succeeds s.bar button f s.heap hs
      simp [MenuBarState.step, heq]
  | mouseMove pos =>
    cases hv : s.menuVisible with
    | false => simp [MenuBarState.step, hv]
    | true =>
      have hstep : s.step (MenuBarEvent.mouseMove pos) = s.mouseMoveEvent pos := by
        simp [MenuBarState.step, hv]
      rw [hstep]
      unfold MenuBarState.mouseMoveEvent
      cases hh : QmlMenuBarMenu.hoversOtherButton s.bar s.heap pos with
      | none => exact ⟨rfl, rfl⟩
      | some c => cases c <;> exact ⟨rfl, rfl⟩
  | hide =>
    cases hv : s.menuVisible with
    | false => simp [MenuBarState.step, hv]
    | true =>
      have hstep : s.step MenuBarEvent.hide = s.hideMenu := by
        simp [MenuBarState.step, hv]
      rw [hstep]
      exact ⟨rfl, rfl⟩

theorem MenuBarState.run_refs (events : List MenuBarEvent) :
    ∀ s : MenuBarState, (s.run events).bar.m_menubar = s.bar.m_menubar
      ∧ (s.run events).bar.m_ctx = s.bar.m_ctx := by
  induction events with
  | nil => intro s; exact ⟨rfl, rfl⟩
  | cons e rest ih =>
    intro s
    obtain ⟨h1, h2⟩ := ih (s.step e)
    obtain ⟨h3, h4⟩ := MenuBarState.step_refs s e
    exact ⟨h1.trans h3, h2.trans h4⟩

/-- From a state where the shown menu has the hover flag down: the notification count
grows by one exactly on a hide event reaching a shown menu, and stays otherwise. -/
theorem MenuBarState.step_menuClosed (s : MenuBarState) (e : MenuBarEvent) (hok : s.Ok) :
    (s.step e).menuClosed
      = s.menuClosed + (if s.menuVisible = true ∧ e = MenuBarEvent.hide then 1 else 0) := by
  obtain ⟨hwf, hvis⟩ := hok
  cases e with
  | popup button f => simp [MenuBarState.step]
  | mouseMove pos =>
    cases hv : s.menuVisible with
    | false => simp [MenuBarState.step, hv]
    | true =>
      obtain ⟨_, menu, b, hfind, hslots, _⟩ := hvis hv
      simp only [MenuBarState.step, hv, if_true]
      rw [mouseMoveEvent_eq s pos menu hfind hslots]
      by_cases hh : QmlMenuBarMenu.hoversOtherButton s.bar s.heap pos = some true
      · rw [if_pos hh]
        simp
      · rw [if_neg hh]
        simp
  | hide =>
    cases hv : s.menuVisible with
    | false => simp [MenuBarState.step, hv]
    | true =>
      obtain ⟨hflag, menu, b, hfind, hslots, _⟩ := hvis hv
      simp only [MenuBarState.step, hv, if_true]
      rw [hideMenu_eq s menu hfind hslots]
      simp [QmlMenuBar.onMenuClosed, hflag]

/-- The shown menu hides at an event exactly when the event is a hide, or a mouse move
under the hover condition. -/
theorem MenuBarState.step_hides (s : MenuBarState) (e : MenuBarEvent) (hok : s.Ok)
    (hv : s.menuVisible = true) :
    (s.step e).menuVisible = false ↔
      (e = MenuBarEvent.hide
        ∨ ∃ pos, e = MenuBarEvent.mouseMove pos
            ∧ QmlMenuBarMenu.hoversOtherButton s.bar s.heap pos = some true) := by
  obtain ⟨hwf, hvis⟩ := hok
  obtain ⟨_, menu, b, hfind, hslots, _⟩ := hvis hv
  cases e with
  | popup button f => simp [MenuBarState.step, hv]
  | mouseMove pos =>
    simp only [MenuBarState.step, hv, if_true]
    rw [mouseMoveEvent_eq s pos menu hfind hslots]
    by_cases hh : QmlMenuBarMenu.hoversOtherButton s.bar s.heap pos = some true
    · rw [if_pos hh]
      simp [hh]
    · rw [if_neg hh]
      simp [hh, hv]
  | hide =>
    simp only [MenuBarState.step, hv, if_true]
    rw [hideMenu_eq s menu hfind hslots]
    simp

theorem MenuBarState.init_ok (bar : QmlMenuBar) : (MenuBarState.init bar).Ok :=
  ⟨fun e he => (by cases he), fun h => (by cases h)⟩

/-- C13: let `s` be a state the menu bar reaches from its initial state through popup
requests, mouse moves in the shown menu and hides of the shown menu.  The next event
emits menuClosed exactly when it is a hide of the shown menu, and never more than once.
While a menu is shown, the bar item and the clicked button are set and the hover flag is
down; with the pointer of a mouse move taken to global coordinates from the lower left
corner of the clicked button, where the menu was popped up, the move hides the menu
exactly when the pointer is within the rectangle of the bar and not within the rectangle
of the clicked button; such a move raises the hover flag and emits nothing, any other
move changes nothing; and the shown menu hides at no event other than a hide or such a
move.  A popup request that passes the guards makes its button the clicked one, leaves
the hover flag down and the menu shown, so the next hide emits menuClosed whatever
dismissed the menus before. -/
theorem C13_menu_closed_unless_hover_dismissal (bar : QmlMenuBar)
    (events : List MenuBarEvent) (e : MenuBarEvent) (s : MenuBarState)
    (hs : s = (MenuBarState.init bar).run events) :
    (s.step e).menuClosed
        = s.menuClosed + (if s.menuVisible = true ∧ e = MenuBarEvent.hide then 1 else 0)
    ∧ (s.menuVisible = true →
        ∃ mb b : QQuickItem, bar.m_menubar = some mb ∧ s.bar.m_menubar = some mb
          ∧ s.bar.m_button = some b ∧ s.bar.m_openMenuOnHover = false
          ∧ (∀ (pos : QPoint) (gx gy : Int),
              gx = b.x + pos.x → gy = b.y + b.height + pos.y →
              ((s.step (MenuBarEvent.mouseMove pos)).menuVisible = false ↔
                ((mb.x ≤ gx ∧ gx ≤ mb.x + mb.width ∧ mb.y ≤ gy ∧ gy ≤ mb.y + mb.height)
                  ∧ ¬ (b.x ≤ gx ∧ gx ≤ b.x + b.width ∧ b.y ≤ gy ∧ gy ≤ b.y + b.height)))
              ∧ ((s.step (MenuBarEvent.mouseMove pos)).menuVisible = false →
                  (s.step (MenuBarEvent.mouseMove pos)).bar.m_openMenuOnHover = true
                  ∧ (s.step (MenuBarEvent.mouseMove pos)).menuClosed = s.menuClosed
                  ∧ ((s.step (MenuBarEvent.mouseMove pos)).step MenuBarEvent.hide).menuClosed
                      = s.menuClosed)
              ∧ ((s.step (MenuBarEvent.mouseMove pos)).menuVisible = true →
                  s.step (MenuBarEvent.mouseMove pos) = s))
          ∧ ((s.step e).menuVisible = false ↔
              (e = MenuBarEvent.hide
                ∨ ∃ pos, e = MenuBarEvent.mouseMove pos
                    ∧ (s.step (MenuBarEvent.mouseMove pos)).menuVisible = false)))
    ∧ (∀ (b : QQuickItem) (f : MenuFactory) (ctx : MainCtx),
        e = MenuBarEvent.popup (some b) f →
        bar.m_ctx = some ctx → ctx.getIntf.isSome = true → bar.m_menubar.isSome = true →
          (s.step e).bar.m_button = some b
          ∧ (s.step e).bar.m_openMenuOnHover = false
          ∧ (s.step e).menuVisible = true
          ∧ ((s.step e).step MenuBarEvent.hide).menuClosed = (s.step e).menuClosed + 1) := by
  subst hs
  have hok := MenuBarState.run_ok events (MenuBarState.init bar) (MenuBarState.init_ok bar)
  obtain ⟨hrefmb, hrefctx⟩ := MenuBarState.run_refs events (MenuBarState.init bar)
  have hinitmb : (MenuBarState.init bar).bar.m_menubar = bar.m_menubar := rfl
  have hinitctx : (MenuBarState.init bar).bar.m_ctx = bar.m_ctx := rfl
  rw [hinitmb] at hrefmb
  rw [hinitctx] at hrefctx
  generalize (MenuBarState.init bar).run events = s at hok hrefmb hrefctx
  refine ⟨MenuBarState.step_menuClosed _ e hok, ?_, ?_⟩
  · intro hv
    obtain ⟨hflag, menu, b, hfind, hslots, hb, hpop, hmbsome⟩ := hok.2 hv
    cases hmb : s.bar.m_menubar with
    | none => rw [hmb] at hmbsome; cases hmbsome
    | some mb =>
      have hmove : ∀ pos : QPoint,
          (s.step (MenuBarEvent.mouseMove pos)).menuVisible = false ↔
            QmlMenuBarMenu.hoversOtherButton s.bar s.heap pos = some true := by
        intro pos
        rw [MenuBarState.step_hides s _ hok hv]
        constructor
        · rintro (h | ⟨p, hp, hh⟩)
          · cases h
          · cases hp
            exact hh
        · intro hh
          exact Or.inr ⟨pos, rfl, hh⟩
      refine ⟨mb, b, by rw [← hrefmb, hmb], rfl, hb, hflag, ?_, ?_⟩
      · intro pos gx gy hgx hgy
        subst hgx
        subst hgy
        have hiff := hoversOtherButton_iff s.bar s.heap pos menu mb b hfind hmb hb hpop
        refine ⟨(hmove pos).trans hiff, ?_, ?_⟩
        · intro hhid
          have hh := (hmove pos).mp hhid
          have hstep : s.step (MenuBarEvent.mouseMove pos)
              = { s with bar := { s.bar with m_openMenuOnHover := true },
                         menuVisible := false } := by
            simp only [MenuBarState.step, hv, if_true]
            rw [mouseMoveEvent_eq s pos menu hfind hslots, if_pos hh]
          rw [hstep]
          refine ⟨rfl, rfl, ?_⟩
          simp [MenuBarState.step]
        · intro hvis2
          have hh : ¬ QmlMenuBarMenu.hoversOtherButton s.bar s.heap pos = some true := by
            intro hh
            rw [(hmove pos).mpr hh] at hvis2
            cases hvis2
          simp only [MenuBarState.step, hv, if_true]
          rw [mouseMoveEvent_eq s pos menu hfind hslots, if_neg hh]
      · rw [MenuBarState.step_hides s e hok hv]
        constructor
        · rintro (h | ⟨p, hp, hh⟩)
          · exact Or.inl h
          · exact Or.inr ⟨p, hp, (hmove p).mpr hh⟩
        · rintro (h | ⟨p, hp, hh⟩)
          · exact Or.inl h
          · exact Or.inr ⟨p, hp, (hmove p).mp hh⟩
  · intro b f ctx he hctx hintf hmbsome
    subst he
    have hsucc : s.bar.popupSucceeds (some b) = true := by
      rw [popupSucceeds_iff]
      refine ⟨⟨ctx, by rw [hrefctx]; exact hctx, hintf⟩, by rw [hrefmb]; exact hmbsome, rfl⟩
    have hok2 := MenuBarState.step_ok _ (MenuBarEvent.popup (some b) f) hok
    have hvis : (s.step (MenuBarEvent.popup (some b) f)).menuVisible = true := by
      simp [MenuBarState.step, hsucc]
    obtain ⟨b2, menu, hb2, _, _, heq⟩ :=
      popupMenuCommon_succeeds s.bar (some b) f s.heap hsucc
    have hbb : b2 = b := (Option.some.inj hb2).symm
    subst hbb
    refine ⟨?_, (hok2.2 hvis).1, hvis, ?_⟩
    · simp only [MenuBarState.step, heq]
    · rw [MenuBarState.step_menuClosed _ MenuBarEvent.hide hok2]
      simp [hvis]

/-- C13 (witness): on `sampleBar`, whose bar spans (0, 0) to (100, 20), the menu popped
under the first button, which spans (0, 0) to (30, 20), has its origin at (0, 20).  A
mouse move to (10, -10), within the clicked button, leaves the menu shown, as do a move
to (30, -10), on the edge of the button, and a move to (50, 30), below the bar; a move
to (31, -10) or to (50, -10), within the bar and off the button, hides the menu and
emits nothing; the menu then popped under the second button and hidden emits menuClosed
once. -/
theorem C13_menu_closed_unless_hover_dismissal_witness :
    ((MenuBarState.init sampleBar).run
        [ MenuBarEvent.popup (some sampleButton) MenuFactory.FileMenu,
          MenuBarEvent.mouseMove { x := 10, y := -10 },
          MenuBarEvent.mouseMove { x := 30, y := -10 },
          MenuBarEvent.mouseMove { x := 50, y := 30 } ]).menuVisible = true
    ∧ ((MenuBarState.init sampleBar).run
        [ MenuBarEvent.popup (some sampleButton) MenuFactory.FileMenu,
          MenuBarEvent.mouseMove { x := 10, y := -10 },
          MenuBarEvent.mouseMove { x := 30, y := -10 },
          MenuBarEvent.mouseMove { x := 50, y := 30 },
          MenuBarEvent.hide ]).menuClosed = 1
    ∧ ((MenuBarState.init sampleBar).run
        [ MenuBarEvent.popup (some sampleButton) MenuFactory.FileMenu,
          MenuBarEvent.mouseMove { x := 31, y := -10 } ]).menuVisible = false
    ∧ ((MenuBarState.init sampleBar).run
        [ MenuBarEvent.popup (some sampleButton) MenuFactory.FileMenu,
          MenuBarEvent.mouseMove { x := 50, y := -10 } ]).menuClosed = 0
    ∧ ((MenuBarState.init sampleBar).run
        [ MenuBarEvent.popup (some sampleButton) MenuFactory.FileMenu,
          MenuBarEvent.mouseMove { x := 50, y := -10 } ]).menuVisible = false
    ∧ (((MenuBarState.init sampleBar).run
        [ MenuBarEvent.popup (some sampleButton) MenuFactory.FileMenu,
          MenuBarEvent.mouseMove { x := 50, y := -10 },
          MenuBarEvent.popup (some sampleButton2) MenuFactory.NavigMenu ]).step
            MenuBarEvent.hide).menuClosed = 1 :=
  ⟨by decide, by decide, by decide, by decide, by decide,
   (C13_menu_closed_unless_hover_dismissal sampleBar
      [ MenuBarEvent.popup (some sampleButton) MenuFactory.FileMenu,
        MenuBarEvent.mouseMove { x := 50, y := -10 },
        MenuBarEvent.popup (some sampleButton2) MenuFactory.NavigMenu ]
      MenuBarEvent.hide _ rfl).1.trans (by decide)⟩

/-! ## Menu bar: key navigation -/

/-- C15: navigateMenu is emitted exactly when the base handling left the event
unaccepted and the key is Left or Right; the value is -1 for Left and 1 for Right and
the event is then accepted; for every other key, and for an event the base handling
accepted, nothing is emitted and the event stays as the base handling left it. -/
theorem C15_key_press_navigates (baseAccepts : QKeyEvent → Bool) (event : QKeyEvent) :
    ((QmlMenuBarMenu.keyPressEvent baseAccepts event).2 ≠ [] ↔
        (baseAccepts event = false ∧ (event.key = Key_Left ∨ event.key = Key_Right)))
    ∧ (baseAccepts event = false → event.key = Key_Left →
        QmlMenuBarMenu.keyPressEvent baseAccepts event
          = ({ key := event.key, accepted := true }, [-1]))
    ∧ (baseAccepts event = false → event.key = Key_Right →
        QmlMenuBarMenu.keyPressEvent baseAccepts event
          = ({ key := event.key, accepted := true }, [1]))
    ∧ ((baseAccepts event = true ∨ (event.key ≠ Key_Left ∧ event.key ≠ Key_Right)) →
        QmlMenuBarMenu.keyPressEvent baseAccepts event
          = ({ key := event.key, accepted := baseAccepts event }, [])) := by
  unfold QmlMenuBarMenu.keyPressEvent
  have hne : Key_Left ≠ Key_Right := by decide
  by_cases hl : event.key = Key_Left
  · have hr : ¬ event.key = Key_Right := by rw [hl]; exact hne
    cases hb : baseAccepts event <;> simp [hl, hne]
  · by_cases hr : event.key = Key_Right
    · have hne2 : Key_Right ≠ Key_Left := fun h => hne h.symm
      cases hb : baseAccepts event <;> simp [hr, hne2]
    · cases hb : baseAccepts event <;> simp [hl, hr]

/-! ## Video-group menu: the Information action -/

theorem videoGroups_information_mem (m : MLModel) (selected : List QModelIndex)
    (options : QVariantMap) :
    "Information" ∈ labelsOf (VideoGroupsContextMenu.entries m selected options)
      ↔ VideoGroupsContextMenu.showsInformation m selected options = true := by
  rw [videoGroups_labels]
  cases VideoGroupsContextMenu.showsInformation m selected options <;> simp

theorem showsInformation_iff (m : MLModel) (selected : List QModelIndex)
    (options : QVariantMap) :
    VideoGroupsContextMenu.showsInformation m selected options = true ↔
      ∃ (first : QModelIndex) (n : Int), selected = [first]
        ∧ (m.data first Role.GROUP_IS_VIDEO).eqTrue = true
        ∧ options.bindings.lookup "information" = some (QVariant.int n) := by
  unfold VideoGroupsContextMenu.showsInformation
  match selected with
  | [] => simp
  | [first] =>
    simp only [Bool.and_eq_true, hasInformation_iff, List.cons.injEq, and_true]
    constructor
    · rintro ⟨h1, n, hn⟩
      exact ⟨first, n, rfl, h1, hn⟩
    · rintro ⟨f, n, hf, h1, hn⟩
      subst hf
      exact ⟨h1, n, hn⟩
  | _ :: _ :: _ => simp

/-- C16: the video-group menu has an Information action exactly when the selection has
exactly one row, the GROUP_IS_VIDEO datum of that row equals true, and the options bind
`information` to an integer.  With an empty selection, with two or more selected rows,
or with a single selected row that is a group, there is no Information action, whatever
the options hold. -/
theorem C16_video_group_information (m : MLModel) (prev : Option MenuPtr)
    (selected : List QModelIndex) (pos : QPoint) (options : QVariantMap) (h : Heap) :
    ∃ menu : QMenu,
      (VideoGroupsContextMenu.popup { m_model := some m, m_menu := prev }
          selected pos options h).2.newest = some menu
      ∧ ("Information" ∈ menu.labels ↔
          ∃ (first : QModelIndex) (n : Int), selected = [first]
            ∧ (m.data first Role.GROUP_IS_VIDEO).eqTrue = true
            ∧ options.bindings.lookup "information" = some (QVariant.int n))
      ∧ (selected = [] → "Information" ∉ menu.labels)
      ∧ (2 ≤ selected.length → "Information" ∉ menu.labels)
      ∧ (∀ first : QModelIndex, selected = [first] →
          m.data first Role.GROUP_IS_VIDEO = QVariant.bool false →
            "Information" ∉ menu.labels)
      ∧ (∀ b : Bool, (QVariant.bool b).eqTrue = b) := by
  have hiff : "Information" ∈ labelsOf (VideoGroupsContextMenu.entries m selected options) ↔
      ∃ (first : QModelIndex) (n : Int), selected = [first]
        ∧ (m.data first Role.GROUP_IS_VIDEO).eqTrue = true
        ∧ options.bindings.lookup "information" = some (QVariant.int n) := by
    rw [videoGroups_information_mem, showsInformation_iff]
  refine ⟨{ entries := VideoGroupsContextMenu.entries m selected options,
            poppedAt := some pos }, Heap.newest_new _ _, hiff, ?_, ?_, ?_, fun b => rfl⟩
  · intro hsel hin
    obtain ⟨first, n, hf, _, _⟩ := hiff.mp hin
    rw [hsel] at hf
    cases hf
  · intro hlen hin
    obtain ⟨first, n, hf, _, _⟩ := hiff.mp hin
    rw [hf] at hlen
    simp at hlen
  · intro first hsel hgroup hin
    obtain ⟨f2, n, hf, htrue, _⟩ := hiff.mp hin
    rw [hsel] at hf
    have hff : first = f2 := by simpa using hf
    subst hff
    rw [hgroup] at htrue
    cases htrue

/-- C16 (witness): one selected row that is a video, with `information` bound to 4:
the menu has the Information action; with two rows selected it has none. -/
theorem C16_video_group_information_witness :
    (∃ menu : QMenu,
      (VideoGroupsContextMenu.popup
          { m_model := some { ml := 7, data := fun _ role =>
              if role = Role.GROUP_IS_VIDEO then QVariant.bool true else QVariant.itemId 1 } }
          [{ row := 0 }] { x := 0, y := 0 }
          { bindings := [("information", QVariant.int 4)] } {}).2.newest = some menu
      ∧ "Information" ∈ menu.labels)
    ∧ (∃ menu : QMenu,
      (VideoGroupsContextMenu.popup
          { m_model := some { ml := 7, data := fun _ role =>
              if role = Role.GROUP_IS_VIDEO then QVariant.bool true else QVariant.itemId 1 } }
          [{ row := 0 }, { row := 1 }] { x := 0, y := 0 }
          { bindings := [("information", QVariant.int 4)] } {}).2.newest = some menu
      ∧ "Information" ∉ menu.labels) := by
  constructor
  · obtain ⟨menu, hnew, hiff, _⟩ := C16_video_group_information
      { ml := 7, data := fun _ role =>
          if role = Role.GROUP_IS_VIDEO then QVariant.bool true else QVariant.itemId 1 }
      none [{ row := 0 }] { x := 0, y := 0 }
      { bindings := [("information", QVariant.int 4)] } {}
    exact ⟨menu, hnew, hiff.mpr ⟨{ row := 0 }, 4, rfl, rfl, rfl⟩⟩
  · obtain ⟨menu, hnew, _, _, htwo, _⟩ := C16_video_group_information
      { ml := 7, data := fun _ role =>
          if role = Role.GROUP_IS_VIDEO then QVariant.bool true else QVariant.itemId 1 }
      none [{ row := 0 }, { row := 1 }] { x := 0, y := 0 }
      { bindings := [("information", QVariant.int 4)] } {}
    exact ⟨menu, hnew, htwo (by decide)⟩

/-! ## Play-queue menu: captured and late-bound selection -/

/-- The lambdas of the Stream, Save and Remove Selected actions of the play-queue
menu. -/
theorem playQueue_selection_closures (m : PlaylistListModel) (currentIndex : Int)
    (act : QAction) (hmem : act ∈ actionsOf (PlaylistContextMenu.entries m currentIndex)) :
    (act.text = "Stream" → act.triggered = Closure.streamingDialog
        (m.getSelection.map (fun modelIndex => (m.itemAt modelIndex).url)) false)
    ∧ (act.text = "Save" → act.triggered = Closure.streamingDialog
        (m.getSelection.map (fun modelIndex => (m.itemAt modelIndex).url)) true)
    ∧ (act.text = "Remove Selected" → act.triggered = Closure.removeSelection) := by
  rw [mem_actionsOf] at hmem
  unfold PlaylistContextMenu.entries at hmem
  simp only [List.mem_append] at hmem
  rcases hmem with ((((h | h) | h) | h) | h) | h
  · split at h
    · simp at h
      subst h
      simp
    · cases h
  · split at h
    · simp at h
      rcases h with h | h <;> subst h <;> simp
    · cases h
  · split at h
    · simp at h
      rcases h with h | h <;> subst h <;> simp
    · cases h
  · simp at h
    rcases h with h | h | h <;> subst h <;> simp
  · split at h
    · simp at h
      rcases h with h | h <;> subst h <;> simp
    · cases h
  · simp at h
    subst h
    simp

/-- C17: in the play-queue menu, whatever the selection of the model is when an action
is triggered, Stream and Save pass the URL list captured by popup, one URL per row of
the selection the model had at popup time, in selection order (Stream with false, Save
with true), whereas Remove Selected removes the rows of the selection the model has at
trigger time.  The three actions are present when the selected count is positive. -/
theorem C17_stream_save_captured_remove_late (ctrl : PlaylistControllerModel)
    (m : PlaylistListModel) (prev : Option MenuPtr) (currentIndex : Int) (pos : QPoint)
    (h : Heap) (selectionNow : List Int) :
    ∃ menu : QMenu,
      (PlaylistContextMenu.popup { m_controler := some ctrl, m_model := some m, m_menu := prev }
          currentIndex pos h).2.newest = some menu
      ∧ (∀ act ∈ menu.actions, act.text = "Stream" →
          act.triggered.run selectionNow
            = [Call.streamingDialog
                (m.getSelection.map (fun modelIndex => (m.itemAt modelIndex).url)) false])
      ∧ (∀ act ∈ menu.actions, act.text = "Save" →
          act.triggered.run selectionNow
            = [Call.streamingDialog
                (m.getSelection.map (fun modelIndex => (m.itemAt modelIndex).url)) true])
      ∧ (∀ act ∈ menu.actions, act.text = "Remove Selected" →
          act.triggered.run selectionNow = [Call.removeItems selectionNow])
      ∧ (m.getSelectedCount > 0 →
          "Stream" ∈ menu.labels ∧ "Save" ∈ menu.labels ∧ "Remove Selected" ∈ menu.labels) := by
  refine ⟨{ entries := PlaylistContextMenu.entries m currentIndex, poppedAt := some pos },
    Heap.newest_new _ _, ?_, ?_, ?_, ?_⟩
  · intro act hact ht
    rw [(playQueue_selection_closures m currentIndex act hact).1 ht]
    rfl
  · intro act hact ht
    rw [(playQueue_selection_closures m currentIndex act hact).2.1 ht]
    rfl
  · intro act hact ht
    rw [(playQueue_selection_closures m currentIndex act hact).2.2 ht]
    rfl
  · intro hs
    rw [QMenu.labels_eq]
    show "Stream" ∈ labelsOf (PlaylistContextMenu.entries m currentIndex)
      ∧ "Save" ∈ labelsOf (PlaylistContextMenu.entries m currentIndex)
      ∧ "Remove Selected" ∈ labelsOf (PlaylistContextMenu.entries m currentIndex)
    rw [playQueue_labels]
    simp [hs]

/-- C17 (witness): on `sampleQueue` (rows 0 and 2 selected at popup time), with row 1
selected at trigger time, Stream passes the URLs of rows 0 and 2 and Remove Selected
removes row 1. -/
theorem C17_stream_save_captured_remove_late_witness :
    ∃ menu : QMenu,
      (PlaylistContextMenu.popup { m_controler := some 1, m_model := some sampleQueue }
          1 { x := 0, y := 0 } {}).2.newest = some menu
      ∧ menu.trigger 1 [1] = [Call.streamingDialog ["file:///a", "file:///c"] false]
      ∧ menu.trigger 9 [1] = [Call.removeItems [1]] := by
  obtain ⟨menu, hnew, _, _, _, _⟩ :=
    C17_stream_save_captured_remove_late 1 sampleQueue none 1 { x := 0, y := 0 } {} [1]
  have hm : menu = { entries := PlaylistContextMenu.entries sampleQueue 1,
                     poppedAt := some { x := 0, y := 0 } } :=
    (Option.some.inj hnew).symm
  subst hm
  exact ⟨_, hnew, by decide, by decide⟩

end QmlMenuWrapper
